import Mathlib

/-!
# Console arcade games: brick breaker and space shooter

A shallow embedding of `Arkanoid/arkanoid.cpp`, `SpaceShooter/SpaceShooter.cpp`
and the `ConsoleGameEnigne` headers.

Conventions of the embedding:

* a C++ `int` is a Lean `Int`; signed overflow is undefined in C++, so the
  development is about executions in which no `int` operation overflows;
* C++ integer division truncates toward zero and is written `Int.tdiv`;
* a `wchar_t` glyph and a `WORD` colour attribute are natural numbers;
* the frame buffer (`CHAR_INFO *`) is a list of cells; a store outside the
  allocated cells, undefined in C++, leaves the list unchanged, and every
  drawing routine also has a `...Writes` function listing the indices it
  stores to, in program order, so that out-of-range stores stay visible.
-/

namespace Arkanoid

/-- The `position` struct of arkanoid.cpp. -/
structure position where
  x : Int
  y : Int
deriving DecidableEq, Repr

/-- The `Rect` struct of arkanoid.cpp. -/
structure Rect where
  _x : Int
  _y : Int
  _width : Int
  _height : Int
deriving DecidableEq, Repr

namespace Rect

def left (r : Rect) : Int := r._x
def right (r : Rect) : Int := r._x + r._width
def top (r : Rect) : Int := r._y
def bottom (r : Rect) : Int := r._y + r._height

/-- `Rect::intersects`. -/
def intersects (r other : Rect) : Bool :=
  decide (r._x < other._x + other._width) &&
  decide (r._x + r._width > other._x) &&
  decide (r._y < other._y + other._height) &&
  decide (r._y + r._height > other._y)

end Rect

/-- One `CHAR_INFO`: the glyph (`Char.UnicodeChar`) and the colour (`Attributes`). -/
structure Cell where
  glyph : Nat
  attr : Nat
deriving DecidableEq, Repr

/-- The `Window` class of arkanoid.cpp, reduced to the members the drawing code reads and
writes: the grid size and the cell buffer. -/
structure Window where
  width : Int
  height : Int
  buffer : List Cell
deriving DecidableEq, Repr

namespace Window

/-- `Window::checkWidthBound`. -/
def checkWidthBound (w : Window) (x : Int) : Int :=
  if x ≥ w.width then w.width - 1 else (if x < 0 then 0 else x)

/-- `Window::checkHeightBound`. -/
def checkHeightBound (w : Window) (y : Int) : Int :=
  if y ≥ w.height then w.height - 1 else (if y < 0 then 0 else y)

end Window

/-- The values `lo, lo+1, ..., hi` taken by the counter of `for (int v = lo; v <= hi; v++)`;
empty when `hi < lo`. -/
def loopRange (lo hi : Int) : List Int :=
  (List.range (hi + 1 - lo).toNat).map (fun (i : Nat) => lo + (i : Int))

/-- The store `buffer[index] = cell` (glyph and colour together). An index outside the
allocated cells leaves the buffer as it is. -/
def store (buffer : List Cell) (index : Int) (c : Cell) : List Cell :=
  if 0 ≤ index ∧ index < (buffer.length : Int) then buffer.set index.toNat c else buffer

/-- A run of stores of one cell value, in program order. -/
def storeAll (buffer : List Cell) (indices : List Int) (c : Cell) : List Cell :=
  indices.foldl (fun b i => store b i c) buffer

/-- The variables `x0`, `y0` and `err` that the loop of `drawLine` updates. -/
structure LineState where
  x0 : Int
  y0 : Int
  err : Int
deriving DecidableEq, Repr

/-- The part of the loop body of `drawLine` after the break test. Both tests use the `e2`
computed from the error at the start of the pass. -/
def lineStep (dx dy sx sy : Int) (s : LineState) : LineState :=
  let e2 := 2 * s.err
  let s1 := if e2 ≥ dy then { s with err := s.err + dy, x0 := s.x0 + sx } else s
  if e2 ≤ dx then { s1 with err := s1.err + dx, y0 := s1.y0 + sy } else s1

/-- The `while (true)` loop of `drawLine` run for at most `fuel` passes: the points handed
to `drawChar`, in order, or `none` if the loop has not reached its `break` by then. -/
def linePointsLoop (x1 y1 dx dy sx sy : Int) : Nat → LineState → Option (List (Int × Int))
  | 0, _ => none
  | fuel + 1, s =>
    if s.x0 = x1 ∧ s.y0 = y1 then some [(s.x0, s.y0)]
    else
      (linePointsLoop x1 y1 dx dy sx sy fuel (lineStep dx dy sx sy s)).map
        fun pts => (s.x0, s.y0) :: pts

/-- The points `drawLine` plots (before clamping), with the set-up of its local variables. -/
def drawLinePoints (fuel : Nat) (x0 y0 x1 y1 : Int) : Option (List (Int × Int)) :=
  let dx := |x1 - x0|
  let dy := -|y1 - y0|
  let sx : Int := if x0 < x1 then 1 else -1
  let sy : Int := if y0 < y1 then 1 else -1
  let err := dx + dy
  linePointsLoop x1 y1 dx dy sx sy fuel ⟨x0, y0, err⟩

/-- A number of passes that is enough for `drawLine` between the given endpoints. -/
def lineFuel (x0 y0 x1 y1 : Int) : Nat :=
  (|x1 - x0| + |y1 - y0| + 1).toNat

/-- The invariant of the loop of `drawLine`: the steps still to go on each axis lie between
0 and the axis distance, and `err` is determined by them. -/
def LineInv (x1 y1 dx dy sx sy : Int) (s : LineState) : Prop :=
  (sx = 1 ∨ sx = -1) ∧ (sy = 1 ∨ sy = -1) ∧
  0 ≤ sx * (x1 - s.x0) ∧ sx * (x1 - s.x0) ≤ dx ∧
  0 ≤ sy * (y1 - s.y0) ∧ sy * (y1 - s.y0) ≤ -dy ∧
  s.err = dx + dy - sx * (x1 - s.x0) * dy - sy * (y1 - s.y0) * dx

/-- The number of single-axis steps still to go. -/
def lineRemaining (x1 y1 sx sy : Int) (s : LineState) : Int :=
  sx * (x1 - s.x0) + sy * (y1 - s.y0)

/-- The major axis of the loop of `drawLine` and the steps `m` still to go on it. When the
x distance is the longer one the x test of the body holds at every pass, when the y distance
is the longer one the y test does. -/
def LineMajor (x1 y1 dx dy sx sy : Int) (s : LineState) (m : Int) : Prop :=
  (-dy ≤ dx ∧ dy ≤ 2 * s.err ∧ m = sx * (x1 - s.x0)) ∨
  (dx ≤ -dy ∧ 2 * s.err ≤ dx ∧ m = sy * (y1 - s.y0))

/-- A plotted point `p` and the next one `q` on the way to (x1, y1): at most one cell apart
on each axis, and `q` lies between `p` and the end point on each axis. -/
def LineNext (x1 y1 : Int) (p q : Int × Int) : Prop :=
  |q.1 - p.1| ≤ 1 ∧ |q.2 - p.2| ≤ 1 ∧
  ((p.1 ≤ q.1 ∧ q.1 ≤ x1) ∨ (x1 ≤ q.1 ∧ q.1 ≤ p.1)) ∧
  ((p.2 ≤ q.2 ∧ q.2 ≤ y1) ∨ (y1 ≤ q.2 ∧ q.2 ≤ p.2))

namespace Window

/-- Observation of the grid: the cell at column `x`, row `y`, addressed `y * width + x`. -/
def cellAt (w : Window) (x y : Int) : Option Cell :=
  if 0 ≤ y * w.width + x then w.buffer[(y * w.width + x).toNat]? else none

/-- The indices stored to by `Window::clearScreen`. -/
def clearScreenWrites (w : Window) : List Int :=
  loopRange 0 (w.height * w.width - 1)

/-- `Window::clearScreen`: every cell becomes a blank (`L' '`) with attribute 0. -/
def clearScreen (w : Window) : Window :=
  { w with buffer := storeAll w.buffer w.clearScreenWrites ⟨32, 0⟩ }

/-- `Window::render` with `autoClear = true`, as the game loop calls it. Flushing the buffer
to the console (`WriteConsoleOutputW`) does not change the window object. -/
def render (w : Window) : Window :=
  w.clearScreen

/-- `Window::updateSizeIfChanged`. `probe` is what `GetConsoleScreenBufferInfo` reports:
`none` when the call fails, otherwise the new width and height computed from `srWindow`. -/
def updateSizeIfChanged (w : Window) (probe : Option (Int × Int)) : Window :=
  match probe with
  | none => w
  | some (newWidth, newHeight) =>
    if newWidth ≠ w.width ∨ newHeight ≠ w.height then
      clearScreen
        { width := newWidth, height := newHeight,
          buffer := List.replicate (newWidth * newHeight).toNat ⟨0, 0⟩ }
    else w

/-- The index stored to by `Window::drawChar`. -/
def drawCharWrites (w : Window) (x y : Int) : List Int :=
  let x := w.checkWidthBound x
  let y := w.checkHeightBound y
  [y * w.width + x]

/-- `Window::drawChar`. -/
def drawChar (w : Window) (x y : Int) (ch : Nat) (color : Nat) : Window :=
  { w with buffer := storeAll w.buffer (w.drawCharWrites x y) ⟨ch, color⟩ }

/-- The indices stored to by `Window::drawCircle`, in the order of its two nested loops
(`y` outer, `x` inner, both from `-r` to `r`). -/
def drawCircleWrites (w : Window) (cx cy r : Int) : List Int :=
  let cx := w.checkWidthBound cx
  let cy := w.checkHeightBound cy
  (loopRange (-r) r).flatMap fun y =>
    (loopRange (-r) r).filterMap fun x =>
      if x * x + (2 * y) * (2 * y) ≤ r * r then
        let px := cx + x
        let py := cy + y
        if px ≥ 0 ∧ px < w.width ∧ py ≥ 0 ∧ py < w.height then
          some (py * w.width + px)
        else none
      else none

/-- `Window::drawCircle`. -/
def drawCircle (w : Window) (cx cy r : Int) (ch : Nat) (color : Nat) : Window :=
  { w with buffer := storeAll w.buffer (w.drawCircleWrites cx cy r) ⟨ch, color⟩ }

/-- The indices stored to by `Window::drawBox`, in program order: row by row in filled mode;
in outline mode first the top and bottom cell of each column, then the left and right cell
of each row. All four arguments go through the coordinate clamps first. -/
def drawBoxWrites (win : Window) (x y w h : Int) (fullBox : Bool) : List Int :=
  let x := win.checkWidthBound x
  let y := win.checkHeightBound y
  let w := win.checkWidthBound w
  let h := win.checkHeightBound h
  if fullBox then
    (loopRange 0 (h - 1)).flatMap fun i =>
      (loopRange 0 (w - 1)).map fun j => (y + i) * win.width + (x + j)
  else
    ((loopRange 0 (w - 1)).flatMap fun i =>
      [y * win.width + (x + i), (y + h - 1) * win.width + (x + i)]) ++
    ((loopRange 0 (h - 1)).flatMap fun i =>
      [(y + i) * win.width + x, (y + i) * win.width + (x + w - 1)])

/-- `Window::drawBox`. -/
def drawBox (win : Window) (x y w h : Int) (border : Nat) (color : Nat) (fullBox : Bool) :
    Window :=
  { win with buffer := storeAll win.buffer (win.drawBoxWrites x y w h fullBox) ⟨border, color⟩ }

/-- The read `arr[index]` of the mask of `drawObject`; a read outside the list gives 0. -/
def maskAt (arr : List Int) (index : Int) : Int :=
  if 0 ≤ index then arr.getD index.toNat 0 else 0

/-- The indices stored to by `Window::drawObject`: the cells of the clamped `w` x `h` window
at the clamped (x, y) whose mask entry `arr[i * w + j]` is not 0. -/
def drawObjectWrites (win : Window) (arr : List Int) (w h x y : Int) : List Int :=
  let x := win.checkWidthBound x
  let y := win.checkHeightBound y
  let w := win.checkWidthBound w
  let h := win.checkHeightBound h
  (loopRange 0 (h - 1)).flatMap fun i =>
    (loopRange 0 (w - 1)).filterMap fun j =>
      let index := (y + i) * win.width + (x + j)
      if maskAt arr (i * w + j) ≠ 0 then some index else none

/-- `Window::drawObject`. -/
def drawObject (win : Window) (arr : List Int) (w h x y : Int) (ch : Nat) (color : Nat) :
    Window :=
  { win with buffer := storeAll win.buffer (win.drawObjectWrites arr w h x y) ⟨ch, color⟩ }

/-- The indices stored to by `Window::drawLine`: one `drawChar` per plotted point. -/
def drawLineWrites (win : Window) (fuel : Nat) (x0 y0 x1 y1 : Int) : Option (List Int) :=
  (drawLinePoints fuel x0 y0 x1 y1).map fun pts =>
    pts.flatMap fun p => win.drawCharWrites p.1 p.2

/-- `Window::drawLine`, for a loop that breaks within `fuel` passes. -/
def drawLine (win : Window) (fuel : Nat) (x0 y0 x1 y1 : Int) (ch : Nat) (color : Nat) :
    Option Window :=
  (drawLinePoints fuel x0 y0 x1 y1).map fun pts =>
    pts.foldl (fun wn p => wn.drawChar p.1 p.2 ch color) win

end Window

/-- A 120 x 30 window, the size `main` asks for, with every cell blank. -/
def blankWindow : Window :=
  { width := 120, height := 30, buffer := List.replicate 3600 ⟨32, 0⟩ }

/-- A 4 x 3 window with every cell blank. -/
def smallWindow : Window :=
  { width := 4, height := 3, buffer := List.replicate 12 ⟨32, 0⟩ }

/-- The `Paddle` class: position, extent and occupancy mask. -/
structure Paddle where
  pos : position
  _width : Int
  _height : Int
  _shape : List Int
deriving DecidableEq, Repr

namespace Paddle

/-- The constructor `Paddle(width, height)`: the mask is zero-filled and then set to 1 by
`createPaddle`. The constructor does not initialise `pos`; `pos0` stands for its value. -/
def create (width height : Int) (pos0 : position) : Paddle :=
  { pos := pos0, _width := width, _height := height,
    _shape := List.replicate (width * height).toNat 1 }

def setPosition (p : Paddle) (x y : Int) : Paddle := { p with pos := ⟨x, y⟩ }
def getX (p : Paddle) : Int := p.pos.x
def getY (p : Paddle) : Int := p.pos.y
def getWidth (p : Paddle) : Int := p._width
def getHeight (p : Paddle) : Int := p._height
def getRect (p : Paddle) : Rect := ⟨p.pos.x, p.pos.y, p._width, p._height⟩
def move (p : Paddle) (dx dy : Int) : Paddle := { p with pos := ⟨p.pos.x + dx, p.pos.y + dy⟩ }

end Paddle

/-- The `Ball` class; its glyph is the constant `L'O'`. -/
structure Ball where
  pos : position
deriving DecidableEq, Repr

namespace Ball

def setPosition (_b : Ball) (x y : Int) : Ball := { pos := ⟨x, y⟩ }
def getX (b : Ball) : Int := b.pos.x
def getY (b : Ball) : Int := b.pos.y
def getRect (b : Ball) : Rect := ⟨b.pos.x, b.pos.y, 1, 1⟩
def move (b : Ball) (x y : Int) : Ball := { pos := ⟨b.pos.x + x, b.pos.y + y⟩ }

end Ball

/-- The `Brick` class. -/
structure Brick where
  pos : position
  width : Int
  height : Int
  destroyed : Bool
deriving DecidableEq, Repr

namespace Brick

/-- The constructor `Brick(x, y, w, h)`; `destroyed` starts false. -/
def create (x y w h : Int) : Brick := { pos := ⟨x, y⟩, width := w, height := h, destroyed := false }

def getWidth (b : Brick) : Int := b.width
def getHeight (b : Brick) : Int := b.height
def getRect (b : Brick) : Rect := ⟨b.pos.x, b.pos.y, b.width, b.height⟩
def destroy (b : Brick) : Brick := { b with destroyed := true }
def isDestroyed (b : Brick) : Bool := b.destroyed

end Brick

/-- Win32 virtual-key codes used by the games (from `windows.h`). -/
def VK_LEFT : Int := 37
def VK_RIGHT : Int := 39
def VK_SPACE : Int := 32
def VK_ESCAPE : Int := 27
/-- The character constants `'A'`, `'D'`, `'W'`, `'S'` as `int`. -/
def key_A : Int := 65
def key_D : Int := 68
def key_W : Int := 87
def key_S : Int := 83

/-- The `InputHandler` class. An `unordered_map<int, bool>` is a partial function from keys
to booleans; `none` is an absent key. -/
structure InputHandler where
  currentKeys : Int → Option Bool
  previousKeys : Int → Option Bool

namespace InputHandler

/-- A default-constructed handler: both maps are empty. -/
def fresh : InputHandler := { currentKeys := fun _ => none, previousKeys := fun _ => none }

/-- The assignment `m[key] = value` on a map. -/
def assign (m : Int → Option Bool) (key : Int) (value : Bool) : Int → Option Bool :=
  fun k => if k = key then some value else m k

/-- The body of `InputHandler::update` for a given watch-list: `previousKeys = currentKeys`,
then `currentKeys[key] = (GetAsyncKeyState(key) & 0x8000) != 0` for each watched key.
`hw key` is the result of that hardware test at the moment of the call. -/
def updateWith (keys : List Int) (h : InputHandler) (hw : Int → Bool) : InputHandler :=
  { previousKeys := h.currentKeys,
    currentKeys := keys.foldl (fun m key => assign m key (hw key)) h.currentKeys }

/-- The watch-list of arkanoid.cpp. -/
def keys : List Int := [VK_LEFT, VK_RIGHT, VK_SPACE, key_A, key_D, VK_ESCAPE]

/-- `InputHandler::update` of arkanoid.cpp. -/
def update (h : InputHandler) (hw : Int → Bool) : InputHandler :=
  updateWith keys h hw

/-- `InputHandler::isKeyDown`. -/
def isKeyDown (h : InputHandler) (key : Int) : Bool :=
  match h.currentKeys key with
  | some v => v
  | none => false

/-- `InputHandler::wasKeyDown`. -/
def wasKeyDown (h : InputHandler) (key : Int) : Bool :=
  match h.previousKeys key with
  | some v => v
  | none => false

/-- `InputHandler::isKeyPressed`. -/
def isKeyPressed (h : InputHandler) (key : Int) : Bool :=
  h.isKeyDown key && !h.wasKeyDown key

/-- `InputHandler::isKeyReleased`. -/
def isKeyReleased (h : InputHandler) (key : Int) : Bool :=
  !h.isKeyDown key && h.wasKeyDown key

end InputHandler

/-- The free function `checkXBound`. -/
def checkXBound (window : Window) (bound : Int) : Bool :=
  if bound ≥ window.width ∨ bound ≤ 0 then true else false

/-- The free function `checkYBound`. -/
def checkYBound (window : Window) (bound : Int) : Bool :=
  if bound ≥ window.height ∨ bound ≤ 0 then true else false

/-- The `GameManager` class. `_window` and `_paddle` are the pointed-to objects. -/
structure GameManager where
  _window : Window
  _paddle : Paddle
  ball : Ball
  bricks : List Brick
  input : InputHandler
  ball_x_dir : Int
  ball_y_dir : Int
  paddle_x_dir : Int
  speed : Int
  ballDestroy : Bool
  lives : Int

namespace GameManager

/-- `GameManager::createBlockOfBricks`: the collection is emptied, then 13 rows of 50 bricks
are appended row by row. -/
def createBlockOfBricks (g : GameManager) : GameManager :=
  let brickRows : Nat := 13
  let brickCols : Nat := 50
  let brickW : Int := 1
  let brickH : Int := 1
  { g with
    bricks :=
      (List.range brickRows).flatMap fun (row : Nat) =>
        (List.range brickCols).map fun (col : Nat) =>
          let x := (col : Int) * brickW + (g._window.width - (brickCols : Int)).tdiv 2
          let y := (row : Int) * brickH + 2
          Brick.create x y brickW brickH }

/-- `GameManager::start`. -/
def start (g : GameManager) : GameManager :=
  { g with
    ball_x_dir := 1, ball_y_dir := 1, paddle_x_dir := 1, speed := 3, lives := 3,
    _paddle := g._paddle.setPosition (g._window.width.tdiv 2) (g._window.height - 1),
    ball := g.ball.setPosition (g._window.width.tdiv 2 - 5) (g._window.height.tdiv 2) }

/-- The constructor `GameManager(window, paddle)`. It stores the two objects and builds the
brick block; `g0` stands for the members it leaves uninitialised. -/
def create (window : Window) (paddle : Paddle) (g0 : GameManager) : GameManager :=
  createBlockOfBricks { g0 with _window := window, _paddle := paddle,
                                bricks := [], input := InputHandler.fresh }

/-- The `control` section of the loop body: the paddle moves by `speed` cells when `D` or
`A` is held, the game is live and the paddle's edge on that side is not at the wall.
`collidedLeft` and `collidedRight` are taken before the move. -/
def control (g : GameManager) : GameManager :=
  let collidedLeft := checkXBound g._window g._paddle.getRect.left
  let collidedRight := checkXBound g._window g._paddle.getRect.right
  if g.lives > 0 then
    if g.input.isKeyDown key_D && !collidedRight then
      { g with paddle_x_dir := 1, _paddle := g._paddle.move (1 * g.speed) 0 }
    else if g.input.isKeyDown key_A && !collidedLeft then
      { g with paddle_x_dir := -1, _paddle := g._paddle.move (-1 * g.speed) 0 }
    else g
  else g

/-- The horizontal wall check that opens the collision section. Both operands of `||`
test `ball.getRect().left()`, as in the source. -/
def wallCheck (g : GameManager) : GameManager :=
  if checkXBound g._window g.ball.getRect.left || checkXBound g._window g.ball.getRect.left then
    { g with ball_x_dir := g.ball_x_dir * -1 }
  else g

/-- The local `nextBallRect`: the ball's rect moved by the current direction. -/
def nextBallRect (g : GameManager) : Rect :=
  let r := g.ball.getRect
  { r with _x := r._x + g.ball_x_dir, _y := r._y + g.ball_y_dir }

/-- The vertical check on the ball's top edge. -/
def ceilingCheck (g : GameManager) : GameManager :=
  if checkYBound g._window g.ball.getRect.top then
    { g with ball_y_dir := g.ball_y_dir * -1 }
  else g

/-- Paddle contact, and otherwise the loss test on the ball's bottom edge. `next` is the
`nextBallRect` computed before the vertical check. -/
def paddleBounce (g : GameManager) (next : Rect) : GameManager :=
  if next.intersects g._paddle.getRect then
    let ballCenterX := g.ball.getX
    let paddleCenter := g._paddle.getX + g._paddle.getWidth.tdiv 2
    let diff := ballCenterX - paddleCenter
    if diff < 0 then
      { g with ball_y_dir := g.ball_y_dir * -1, ball_x_dir := -1 }
    else if diff > 0 then
      { g with ball_y_dir := g.ball_y_dir * -1, ball_x_dir := 1 }
    else
      { g with ball_y_dir := g.ball_y_dir * -1, ball_x_dir := 0 }
  else if checkYBound g._window g.ball.getRect.bottom then
    { g with ballDestroy := true, lives := g.lives - 1 }
  else g

/-- The brick loop over a list of bricks: the first brick that is not destroyed and whose
rect meets `ballRect` is destroyed and the loop breaks. Returns the bricks and whether a
brick was hit. -/
def scanBricks (ballRect : Rect) : List Brick → List Brick × Bool
  | [] => ([], false)
  | brick :: rest =>
    if !brick.isDestroyed && ballRect.intersects brick.getRect then
      (brick.destroy :: rest, true)
    else
      let r := scanBricks ballRect rest
      (brick :: r.1, r.2)

/-- The `brick collision` loop of the loop body. -/
def brickCollision (g : GameManager) : GameManager :=
  let r := scanBricks g.ball.getRect g.bricks
  if r.2 then { g with bricks := r.1, ball_y_dir := g.ball_y_dir * -1 }
  else { g with bricks := r.1 }

/-- The `game logic` section without its drawing calls: game over, won, or advance the
ball. -/
def gameLogic (g : GameManager) : GameManager :=
  if g.lives ≤ 0 then
    if g.input.isKeyPressed VK_SPACE then createBlockOfBricks (start g) else g
  else if g.bricks.isEmpty then
    if g.input.isKeyPressed VK_SPACE then createBlockOfBricks (start g) else g
  else if !g.ballDestroy then
    { g with ball := g.ball.move g.ball_x_dir g.ball_y_dir }
  else g

/-- The `if (ballDestroy)` block of the rendering section: the ball is put back and the
delay becomes 500. Returns the state and the value of `timer`. -/
def respawn (g : GameManager) (timer : Int) : GameManager × Int :=
  if g.ballDestroy then
    ({ g with ball := g.ball.setPosition (g._window.width.tdiv 2 - 5) (g._window.height.tdiv 2) },
      500)
  else (g, timer)

/-- One iteration of the `while (true)` loop of `GameManager::gameLoop`. `hw` is the
keyboard as sampled by `input.update()` and `probe` the console size read by
`updateSizeIfChanged`. The result is the next state and the argument of `Sleep`.
The drawing calls store only to the frame buffer, which `render()` flushes and clears at the
end of the iteration; they are modelled by the `Window` functions and the iteration keeps
the cleared buffer. -/
def gameLoopBody (g : GameManager) (hw : Int → Bool) (probe : Option (Int × Int)) :
    GameManager × Int :=
  let timer : Int := 50
  let g := { g with ballDestroy := false }
  let g := { g with input := g.input.update hw }
  let g := control g
  let g := wallCheck g
  let next := nextBallRect g
  let g := ceilingCheck g
  let g := paddleBounce g next
  let g := brickCollision g
  let g := gameLogic g
  let r := respawn g timer
  ({ r.1 with _window := r.1._window.render.updateSizeIfChanged probe }, r.2)

/-- The game as `main` builds it and `gameLoop` starts it: a 120 x 30 window, a 10 x 1
paddle, the constructor and `start()`. Members that are not initialised at that point are
given fixed values. -/
def initial : GameManager :=
  start (create
    (Window.clearScreen { width := 120, height := 30, buffer := List.replicate 3600 ⟨0, 0⟩ })
    (Paddle.create 10 1 ⟨0, 0⟩)
    { _window := ⟨0, 0, []⟩, _paddle := Paddle.create 0 0 ⟨0, 0⟩, ball := ⟨⟨0, 0⟩⟩,
      bricks := [], input := InputHandler.fresh, ball_x_dir := 0, ball_y_dir := 0,
      paddle_x_dir := 0, speed := 0, ballDestroy := false, lives := 0 })

/-- The state in which the collision section of an iteration runs: `ballDestroy` reset,
the keyboard sampled, the control section and the horizontal wall check done. -/
def atCollision (g : GameManager) (hw : Int → Bool) : GameManager :=
  wallCheck (control { g with ballDestroy := false, input := g.input.update hw })

/-- Whether the game logic of an iteration started from `g` with keyboard `hw` restarts the
round: a rising edge of SPACE while no life is left or the brick collection is empty. -/
def restarts (g : GameManager) (hw : Int → Bool) : Bool :=
  (decide (g.lives ≤ 0) || g.bricks.isEmpty) && (g.input.update hw).isKeyPressed VK_SPACE

/-- The state after the collision section of an iteration (wall and ceiling checks, paddle
test, brick loop), before the game logic. -/
def afterCollision (g : GameManager) (hw : Int → Bool) : GameManager :=
  brickCollision (paddleBounce (ceilingCheck (atCollision g hw)) (nextBallRect (atCollision g hw)))

/-- Whether an iteration started from `g` with keyboard `hw` takes the loss branch of the
paddle test: the predicted rect misses the paddle and `checkYBound` holds of the ball's
bottom edge. -/
def lossDetected (g : GameManager) (hw : Int → Bool) : Bool :=
  !(nextBallRect (atCollision g hw)).intersects (atCollision g hw)._paddle.getRect &&
    checkYBound (atCollision g hw)._window (atCollision g hw).ball.getRect.bottom

/-- The states of the game in a console that keeps its 120 x 30 size: the started game, and
every state an iteration leads to from such a state, for any keyboard, when the size query
fails or reports 120 x 30. -/
inductive Reachable : GameManager → Prop
  | start : Reachable initial
  | step (g : GameManager) (hw : Int → Bool) (probe : Option (Int × Int)) :
      Reachable g → (probe = none ∨ probe = some (120, 30)) →
      Reachable (gameLoopBody g hw probe).1

/-- What stays fixed while the console keeps its 120 x 30 size: the window size, the
paddle's row and extent, a vertical direction of +1 or -1, and the rects of the bricks. -/
def Playfield (g : GameManager) : Prop :=
  g._window.width = 120 ∧ g._window.height = 30 ∧
  g._paddle.pos.y = 29 ∧ g._paddle._width = 10 ∧ g._paddle._height = 1 ∧
  (g.ball_y_dir = 1 ∨ g.ball_y_dir = -1) ∧
  g.bricks.map Brick.getRect = initial.bricks.map Brick.getRect

/-- A keyboard with only `A` held. -/
def holdA : Int → Bool := fun k => decide (k = key_A)

/-- Whether the game logic of an iteration started from `g` with keyboard `hw` calls
`start()`: its test, on the state the collision section leaves. -/
def restartTaken (g : GameManager) (hw : Int → Bool) : Bool :=
  (decide ((afterCollision g hw).lives ≤ 0) || (afterCollision g hw).bricks.isEmpty) &&
    (afterCollision g hw).input.isKeyPressed VK_SPACE

/-- The state after a sequence of iterations of the started game, one keyboard sample per
iteration, the console size query failing each time. -/
def run (keyboards : List (Int → Bool)) : GameManager :=
  keyboards.foldl (fun g hw => (gameLoopBody g hw none).1) initial

/-- The life counter facts of the 120 x 30 game: between 0 and 3, and at 0 only with the
ball at the respawn cell. -/
def LivesInRange (g : GameManager) : Prop :=
  0 ≤ g.lives ∧ g.lives ≤ 3 ∧ (g.lives = 0 → g.ball.pos = ⟨55, 15⟩)

/-- A keyboard with only `D` held. -/
def holdD : Int → Bool := fun k => decide (k = key_D)

/-- A keyboard with no key held. -/
def noKeys : Int → Bool := fun _ => false

/-- A keyboard with only SPACE held. -/
def spaceHeld : Int → Bool := fun k => decide (k = VK_SPACE)

/-- The started game with the ball moved to column 119, row 10, direction still (1, 1). -/
def ballAtRightEdge : GameManager :=
  { initial with ball := ⟨⟨119, 10⟩⟩ }

/-- The started game with the ball one row above the paddle at column `x`, direction
(1, 1); the paddle is at column 60 of row 29 and 10 wide, so its centre column is 65. -/
def ballAbovePaddle (x : Int) : GameManager :=
  { initial with ball := ⟨⟨x, 28⟩⟩ }

/-- The started game with every brick of the block destroyed. -/
def allBricksDestroyed : GameManager :=
  { initial with bricks := initial.bricks.map Brick.destroy }

/-- A game over after the console was resized to 134 x 57: no life left, the ball at the
respawn cell (134/2 - 5, 57/2) = (62, 28) with direction (1, 1), the paddle still on row 29
at column 60. -/
def gameOverAbovePaddle : GameManager :=
  { initial with
    _window := Window.clearScreen
      { width := 134, height := 57, buffer := List.replicate (134 * 57) ⟨0, 0⟩ },
    ball := ⟨⟨62, 28⟩⟩, lives := 0 }

/-- The started game with three bricks on the ball's cell (55, 15): the first already
destroyed, the other two not. -/
def overlappingBricks : GameManager :=
  { initial with
    bricks := [(Brick.create 55 15 1 1).destroy, Brick.create 55 15 1 1, Brick.create 55 15 1 1] }

/-- A state of the 120 x 30 game with one life left and the ball on the floor row: the ball
at (69, 29) with direction (1, 1), the paddle away at column 18. -/
def lastBallOnFloor : GameManager :=
  { initial with lives := 1, ball := ⟨⟨69, 29⟩⟩, _paddle := initial._paddle.setPosition 18 29 }

/-- A game over of the 120 x 30 game: no life left, the ball at the respawn cell (55, 15),
the paddle at column 60 of row 29. -/
def gameOverState : GameManager :=
  { initial with lives := 0 }

end GameManager

end Arkanoid

namespace SpaceShooter

/-- The `Position` struct of SpaceShooter.cpp. -/
structure Position where
  x : Int
  y : Int
deriving DecidableEq, Repr

/-- The free function `isColliding` of SpaceShooter.cpp. -/
def isColliding (aPos : Position) (aWidth aHeight : Int)
    (bPos : Position) (bWidth bHeight : Int) : Bool :=
  !(decide (aPos.x + aWidth ≤ bPos.x) ||
    decide (aPos.x ≥ bPos.x + bWidth) ||
    decide (aPos.y + aHeight ≤ bPos.y) ||
    decide (aPos.y ≥ bPos.y + bHeight))

/-- The strict overlap formula as the specification words it, on the four edges of two
boxes: `A.left < B.right ∧ A.right > B.left ∧ A.top < B.bottom ∧ A.bottom > B.top`. -/
def specOverlap (aLeft aRight aTop aBottom bLeft bRight bTop bBottom : Int) : Prop :=
  aLeft < bRight ∧ aRight > bLeft ∧ aTop < bBottom ∧ aBottom > bTop

/-- The `Window` class of ConsoleGameEnigne/Window.h, reduced like the one of arkanoid.cpp. -/
structure Window where
  m_width : Int
  m_height : Int
  m_buffer : List Arkanoid.Cell
deriving DecidableEq, Repr

namespace Window

/-- `Window::checkWidthBound` of Window.h. -/
def checkWidthBound (w : Window) (x : Int) : Int :=
  if x ≥ w.m_width then w.m_width - 1 else (if x < 0 then 0 else x)

/-- `Window::checkHeightBound` of Window.h. -/
def checkHeightBound (w : Window) (y : Int) : Int :=
  if y ≥ w.m_height then w.m_height - 1 else (if y < 0 then 0 else y)

/-- The same grid seen as a window of arkanoid.cpp (the two classes have the same members
up to the `m_` prefix). -/
def toArkanoid (w : Window) : Arkanoid.Window :=
  { width := w.m_width, height := w.m_height, buffer := w.m_buffer }

/-- The indices stored to by `Window::drawCircle` of Window.h. -/
def drawCircleWrites (w : Window) (cx cy r : Int) : List Int :=
  let cx := w.checkWidthBound cx
  let cy := w.checkHeightBound cy
  (Arkanoid.loopRange (-r) r).flatMap fun y =>
    (Arkanoid.loopRange (-r) r).filterMap fun x =>
      if x * x + (2 * y) * (2 * y) ≤ r * r then
        let px := cx + x
        let py := cy + y
        if px ≥ 0 ∧ px < w.m_width ∧ py ≥ 0 ∧ py < w.m_height then
          some (py * w.m_width + px)
        else none
      else none

/-- `Window::drawCircle` of Window.h. -/
def drawCircle (w : Window) (cx cy r : Int) (ch : Nat) (color : Nat) : Window :=
  { w with m_buffer := Arkanoid.storeAll w.m_buffer (w.drawCircleWrites cx cy r) ⟨ch, color⟩ }

/-- The index stored to by `Window::drawChar` of Window.h. -/
def drawCharWrites (w : Window) (x y : Int) : List Int :=
  let x := w.checkWidthBound x
  let y := w.checkHeightBound y
  [y * w.m_width + x]

/-- `Window::drawChar` of Window.h. -/
def drawChar (w : Window) (x y : Int) (ch : Nat) (color : Nat) : Window :=
  { w with m_buffer := Arkanoid.storeAll w.m_buffer (w.drawCharWrites x y) ⟨ch, color⟩ }

/-- The indices stored to by `Window::drawBox` of Window.h. -/
def drawBoxWrites (win : Window) (x y w h : Int) (fullBox : Bool) : List Int :=
  let x := win.checkWidthBound x
  let y := win.checkHeightBound y
  let w := win.checkWidthBound w
  let h := win.checkHeightBound h
  if fullBox then
    (Arkanoid.loopRange 0 (h - 1)).flatMap fun i =>
      (Arkanoid.loopRange 0 (w - 1)).map fun j => (y + i) * win.m_width + (x + j)
  else
    ((Arkanoid.loopRange 0 (w - 1)).flatMap fun i =>
      [y * win.m_width + (x + i), (y + h - 1) * win.m_width + (x + i)]) ++
    ((Arkanoid.loopRange 0 (h - 1)).flatMap fun i =>
      [(y + i) * win.m_width + x, (y + i) * win.m_width + (x + w - 1)])

/-- `Window::drawBox` of Window.h. -/
def drawBox (win : Window) (x y w h : Int) (border : Nat) (color : Nat) (fullBox : Bool) :
    Window :=
  { win with
    m_buffer := Arkanoid.storeAll win.m_buffer (win.drawBoxWrites x y w h fullBox) ⟨border, color⟩ }

/-- `Window::drawLine` of Window.h; its loop is the one of arkanoid.cpp. -/
def drawLine (win : Window) (fuel : Nat) (x0 y0 x1 y1 : Int) (ch : Nat) (color : Nat) :
    Option Window :=
  (Arkanoid.drawLinePoints fuel x0 y0 x1 y1).map fun pts =>
    pts.foldl (fun wn p => wn.drawChar p.1 p.2 ch color) win

end Window

namespace InputHandler

/-- The watch-list of ConsoleGameEnigne/InputHandler.h. -/
def keys : List Int :=
  [Arkanoid.VK_LEFT, Arkanoid.VK_RIGHT, Arkanoid.VK_SPACE, Arkanoid.key_A, Arkanoid.key_D,
    Arkanoid.key_W, Arkanoid.key_S, Arkanoid.VK_ESCAPE]

/-- `InputHandler::update` of InputHandler.h. The class has the members and queries of the
one in arkanoid.cpp and a longer watch-list. -/
def update (h : Arkanoid.InputHandler) (hw : Int → Bool) : Arkanoid.InputHandler :=
  Arkanoid.InputHandler.updateWith keys h hw

end InputHandler

/-- The global `g_globalWidth`; no routine assigns to it. -/
def g_globalWidth : Int := 200

/-- The global `g_globalHeight`; no routine assigns to it. -/
def g_globalHeight : Int := 30

/-- The colour macros used by the routines below. -/
def FG_BLACK : Nat := 0
def FG_RED : Nat := 4
def FG_WHITE : Nat := 7
def FG_YELLOW : Nat := 6

/-- `Position::isOutOfBounds`. -/
def Position.isOutOfBounds (p : Position) : Bool :=
  decide (p.x < 0) || decide (p.x ≥ g_globalWidth) ||
  decide (p.y < 0) || decide (p.y ≥ g_globalHeight)

/-- The `Sprite` class. A glyph (`short`) is identified with the 16-bit code it stores. -/
structure Sprite where
  m_width : Int
  m_height : Int
  m_Glyphs : List Nat
  m_Colours : List Nat
  m_position : Position
  m_color : Nat
deriving DecidableEq, Repr

/-- The text of an asset file as `std::getline` hands it over, line by line, each line a
list of character codes; `none` is a file that cannot be opened. -/
abbrev TextFile := Option (List (List Nat))

namespace Sprite

/-- The constructor `Sprite(Position pos)`: no glyphs, size 0 x 0, colour `FG_WHITE`. -/
def create (pos : Position) : Sprite :=
  { m_width := 0, m_height := 0, m_Glyphs := [], m_Colours := [], m_position := pos,
    m_color := FG_WHITE }

/-- `Sprite::Create`: fresh arrays of `w * h` blanks and `FG_BLACK`. -/
def Create (s : Sprite) (w h : Int) : Sprite :=
  { s with
    m_width := w, m_height := h,
    m_Glyphs := List.replicate (w * h).toNat 32,
    m_Colours := List.replicate (w * h).toNat FG_BLACK }

/-- `Sprite::SetGlyph`. -/
def SetGlyph (s : Sprite) (x y : Int) (c : Nat) : Sprite :=
  if x < 0 ∨ x ≥ s.m_width ∨ y < 0 ∨ y ≥ s.m_height then s
  else { s with m_Glyphs := s.m_Glyphs.set (y * s.m_width + x).toNat c }

/-- `Sprite::SetColour`. -/
def SetColour (s : Sprite) (color : Nat) : Sprite := { s with m_color := color }

/-- `Sprite::setPosition`. -/
def setPosition (s : Sprite) (pos : Position) : Sprite := { s with m_position := ⟨pos.x, pos.y⟩ }

/-- `Sprite::GetGlyph`. -/
def GetGlyph (s : Sprite) (x y : Int) : Nat :=
  if x < 0 ∨ x ≥ s.m_width ∨ y < 0 ∨ y ≥ s.m_height then 32
  else s.m_Glyphs.getD (y * s.m_width + x).toNat 32

def getWidth (s : Sprite) : Int := s.m_width
def getHeight (s : Sprite) : Int := s.m_height

/-- The carriage-return strip of the read loop of `LoadFromText`: a line that is not empty
and ends in code 13 loses that last character. -/
def stripCR (line : List Nat) : List Nat :=
  if line ≠ [] ∧ line.getLast? = some 13 then line.dropLast else line

/-- The read loop of `LoadFromText`: the stripped lines in order, and `maxw`. -/
def readLines (raw : List (List Nat)) : List (List Nat) × Nat :=
  raw.foldl
    (fun (acc : List (List Nat) × Nat) (line : List Nat) =>
      (acc.1 ++ [stripCR line],
        if (stripCR line).length > acc.2 then (stripCR line).length else acc.2))
    ([], 0)

/-- The two nested loops of `LoadFromText` that copy the lines into the glyph array. -/
def fillGlyphs (s : Sprite) (lines : List (List Nat)) (maxw : Nat) : Sprite :=
  (List.range lines.length).foldl
    (fun (s : Sprite) (y : Nat) =>
      (List.range maxw).foldl
        (fun (s : Sprite) (x : Nat) =>
          s.SetGlyph (x : Int) (y : Int)
            (if x < (lines.getD y []).length then (lines.getD y []).getD x 32 else 32))
        s)
    s

/-- `Sprite::LoadFromText`: the returned flag and the sprite afterwards. -/
def LoadFromText (s : Sprite) (file : TextFile) : Bool × Sprite :=
  match file with
  | none => (false, s)
  | some raw =>
    if (readLines raw).1.isEmpty then (false, s)
    else
      (true,
        fillGlyphs (s.Create ((readLines raw).2 : Int) ((readLines raw).1.length : Int))
          (readLines raw).1 (readLines raw).2)

/-- The shape `Create w h` gives a sprite, which `SetGlyph` keeps: the stored size and a
glyph array of `w * h` entries. -/
def Shaped (s : Sprite) (w h : Nat) : Prop :=
  s.m_width = (w : Int) ∧ s.m_height = (h : Int) ∧ s.m_Glyphs.length = w * h

end Sprite

/-- The `Bullet` class. -/
structure Bullet where
  m_position : Position
  sprite : Sprite
deriving DecidableEq, Repr

namespace Bullet

/-- The constructor `Bullet()`. It leaves `m_position` uninitialised; every use below sets
the position before reading it, and (0, 0) stands for the initial value. -/
def create : Bullet := { m_position := ⟨0, 0⟩, sprite := Sprite.create ⟨0, 0⟩ }

def setPosition (b : Bullet) (x y : Int) : Bullet :=
  { m_position := ⟨x, y⟩, sprite := b.sprite.setPosition ⟨x, y⟩ }

def getPosition (b : Bullet) : Position := b.m_position

def move (b : Bullet) (x y : Int) : Bullet :=
  { m_position := ⟨b.m_position.x + x, b.m_position.y + y⟩,
    sprite := b.sprite.setPosition ⟨b.m_position.x + x, b.m_position.y + y⟩ }

/-- `Bullet::update`. -/
def update (b : Bullet) (x : Int) : Bullet := b.move x 0

end Bullet

/-- The `Enemy` class; `lastTimeShot` is a clock reading. -/
structure Enemy where
  m_position : Position
  lastTimeShot : Nat
  sprite : Sprite
  bullets : List Bullet
deriving DecidableEq, Repr

namespace Enemy

/-- The constructor `Enemy()`, with the clock reading it stores; the position is set by the
caller before it is read, and (0, 0) stands for the initial value. -/
def create (now : Nat) : Enemy :=
  { m_position := ⟨0, 0⟩, lastTimeShot := now, sprite := Sprite.create ⟨0, 0⟩, bullets := [] }

def setPosition (e : Enemy) (x y : Int) : Enemy :=
  { e with m_position := ⟨x, y⟩, sprite := e.sprite.setPosition ⟨x, y⟩ }

def getPosition (e : Enemy) : Position := e.m_position
def getBullets (e : Enemy) : List Bullet := e.bullets

def move (e : Enemy) (x y : Int) : Enemy :=
  { e with
    m_position := ⟨e.m_position.x + x, e.m_position.y + y⟩,
    sprite := e.sprite.setPosition ⟨e.m_position.x + x, e.m_position.y + y⟩ }

def outOfBound (e : Enemy) : Bool := e.m_position.isOutOfBounds

/-- `Enemy::shoot`, with the text of `Bullet.txt`. -/
def shoot (e : Enemy) (bulletFile : TextFile) : Enemy :=
  let centerX := e.m_position.x + e.sprite.getWidth.tdiv 2
  let centerY := e.m_position.y + e.sprite.getHeight.tdiv 2
  let bullet := Bullet.create.setPosition centerX centerY
  let bullet := { bullet with sprite := bullet.sprite.SetColour FG_RED }
  let bullet := { bullet with sprite := (bullet.sprite.LoadFromText bulletFile).2 }
  { e with bullets := e.bullets ++ [bullet] }

/-- `Enemy::update`. `now` is the clock reading and `due` the outcome of the test
`elapsed.count() >= 2.f` on it. -/
def update (e : Enemy) (now : Nat) (due : Bool) (bulletFile : TextFile) : Enemy :=
  let e := if due then ({ e with lastTimeShot := now } : Enemy).shoot bulletFile else e
  let e := e.move (-1) 0
  { e with bullets := e.bullets.map fun b => b.update (-2) }

end Enemy

/-- The `Player` class. -/
structure Player where
  m_position : Position
  m_health : Int
  sprite : Sprite
  bullets : List Bullet
deriving DecidableEq, Repr

namespace Player

/-- The constructor `Player()`: health 5, no bullets; (0, 0) stands for the uninitialised
position. -/
def create : Player :=
  { m_position := ⟨0, 0⟩, m_health := 5, sprite := Sprite.create ⟨0, 0⟩, bullets := [] }

def setPosition (p : Player) (x y : Int) : Player :=
  { p with m_position := ⟨x, y⟩, sprite := p.sprite.setPosition ⟨x, y⟩ }

def setHealth (p : Player) (health : Int) : Player := { p with m_health := health }
def getPosition (p : Player) : Position := p.m_position
def getHealth (p : Player) : Int := p.m_health
def getBullets (p : Player) : List Bullet := p.bullets

/-- `Player::takeDamage`. -/
def takeDamage (p : Player) : Player := { p with m_health := p.m_health - 1 }

/-- `Player::isDeath`: the returned flag and the player afterwards. -/
def isDeath (p : Player) : Bool × Player :=
  if p.m_health ≤ 0 then (true, { p with m_health := 0 }) else (false, p)

/-- `Player::checkLeft`. -/
def checkLeft (p : Player) : Bool := decide (p.m_position.x > 0)

/-- `Player::checkRight`. -/
def checkRight (p : Player) : Bool := decide (p.m_position.x + p.sprite.getWidth < 120)

/-- `Player::checkUp`. -/
def checkUp (p : Player) : Bool := decide (p.m_position.y > 1)

/-- `Player::checkDown`. -/
def checkDown (p : Player) : Bool :=
  decide (p.m_position.y + p.sprite.getHeight < g_globalHeight)

/-- `Player::move`. -/
def move (p : Player) (x y : Int) : Player :=
  { p with
    m_position := ⟨p.m_position.x + x, p.m_position.y + y⟩,
    sprite := p.sprite.setPosition ⟨p.m_position.x + x, p.m_position.y + y⟩ }

/-- `Player::shoot`, with the text of `PBullet.txt`. -/
def shoot (p : Player) (bulletFile : TextFile) : Player :=
  let centerX := p.m_position.x + p.sprite.getWidth.tdiv 2
  let centerY := p.m_position.y + p.sprite.getHeight.tdiv 2
  let bullet := Bullet.create.setPosition centerX centerY
  let bullet := { bullet with sprite := bullet.sprite.SetColour FG_RED }
  let bullet := { bullet with sprite := (bullet.sprite.LoadFromText bulletFile).2 }
  { p with bullets := p.bullets ++ [bullet] }

/-- The four movement tests of `Player::update`, in program order: S, W, D, A. Each test
reads the position the tests before it have left. -/
def steer (p : Player) (input : Arkanoid.InputHandler) : Player :=
  let p := if input.isKeyDown Arkanoid.key_S && p.checkDown then p.move 0 1 else p
  let p := if input.isKeyDown Arkanoid.key_W && p.checkUp then p.move 0 (-1) else p
  let p := if input.isKeyDown Arkanoid.key_D && p.checkRight then p.move 1 0 else p
  if input.isKeyDown Arkanoid.key_A && p.checkLeft then p.move (-1) 0 else p

/-- `Player::update`: the movement tests, the shot on a rising edge of SPACE, and the
advance of the player's bullets. -/
def update (p : Player) (input : Arkanoid.InputHandler) (bulletFile : TextFile) : Player :=
  let p := p.steer input
  let p := if input.isKeyPressed Arkanoid.VK_SPACE then p.shoot bulletFile else p
  { p with bullets := p.bullets.map fun b => b.update 5 }

end Player

/-- The test of the third loop of `checkCollisions`: a player bullet against an enemy. -/
def bulletHitsEnemy (bullet : Bullet) (e : Enemy) : Bool :=
  isColliding bullet.getPosition bullet.sprite.getWidth bullet.sprite.getHeight
    e.getPosition e.sprite.getWidth e.sprite.getHeight

/-- The test of the fourth loop of `checkCollisions`: an enemy bullet against the player. -/
def bulletHitsPlayer (player : Player) (bullet : Bullet) : Bool :=
  isColliding bullet.getPosition bullet.sprite.getWidth bullet.sprite.getHeight
    player.getPosition player.sprite.getWidth player.sprite.getHeight

/-- The test of the fifth loop of `checkCollisions`: the player against an enemy body. -/
def playerHitsEnemy (player : Player) (e : Enemy) : Bool :=
  isColliding player.getPosition player.sprite.getWidth player.sprite.getHeight
    e.getPosition e.sprite.getWidth e.sprite.getHeight

/-- The first loop of `checkCollisions`: enemies out of bounds are erased. -/
def eraseEnemiesOutOfBounds : List Enemy → List Enemy
  | [] => []
  | e :: rest =>
    if e.getPosition.isOutOfBounds then eraseEnemiesOutOfBounds rest
    else e :: eraseEnemiesOutOfBounds rest

/-- The second loop of `checkCollisions`: player bullets out of bounds are erased. -/
def eraseBulletsOutOfBounds : List Bullet → List Bullet
  | [] => []
  | bullet :: rest =>
    if bullet.getPosition.isOutOfBounds then eraseBulletsOutOfBounds rest
    else bullet :: eraseBulletsOutOfBounds rest

/-- The inner loop of the third loop: the enemies with the first one hit by `bullet` erased,
or `none` when the loop ends without a hit. -/
def eraseFirstHit (bullet : Bullet) : List Enemy → Option (List Enemy)
  | [] => none
  | e :: rest =>
    if bulletHitsEnemy bullet e then some rest
    else (eraseFirstHit bullet rest).map fun es => e :: es

/-- The third loop of `checkCollisions`, player bullets against enemies: the bullets, the
enemies and the score afterwards. -/
def bulletsVsEnemies : List Bullet → List Enemy → Int → List Bullet × List Enemy × Int
  | [], enemies, score => ([], enemies, score)
  | bullet :: rest, enemies, score =>
    match eraseFirstHit bullet enemies with
    | some enemies' => bulletsVsEnemies rest enemies' (score + 1)
    | none =>
      ((bullet :: (bulletsVsEnemies rest enemies score).1),
        (bulletsVsEnemies rest enemies score).2.1, (bulletsVsEnemies rest enemies score).2.2)

/-- The inner loop of the fourth loop, over the bullets of one enemy: the player and the
bullets afterwards. -/
def enemyBulletsLoop : Player → List Bullet → Player × List Bullet
  | player, [] => (player, [])
  | player, bullet :: rest =>
    if bulletHitsPlayer player bullet then enemyBulletsLoop player.takeDamage rest
    else ((enemyBulletsLoop player rest).1, bullet :: (enemyBulletsLoop player rest).2)

/-- The fourth loop of `checkCollisions`, enemy bullets against the player. -/
def enemyBulletsVsPlayer : Player → List Enemy → Player × List Enemy
  | player, [] => (player, [])
  | player, e :: rest =>
    ((enemyBulletsVsPlayer (enemyBulletsLoop player e.getBullets).1 rest).1,
      { e with bullets := (enemyBulletsLoop player e.getBullets).2 } ::
        (enemyBulletsVsPlayer (enemyBulletsLoop player e.getBullets).1 rest).2)

/-- The fifth loop of `checkCollisions`, the player against enemy bodies. An erased enemy
is deleted, and its destructor deletes its bullets. -/
def playerVsEnemies : Player → List Enemy → Player × List Enemy
  | player, [] => (player, [])
  | player, e :: rest =>
    if playerHitsEnemy player e then playerVsEnemies player.takeDamage rest
    else ((playerVsEnemies player rest).1, e :: (playerVsEnemies player rest).2)

/-- The `GameManager` class of SpaceShooter.cpp, with the members its collision, spawn and
restart routines use: the scratch buffer, the player, the enemies, the input handler and the
score. -/
structure GameManager where
  buffer : List Arkanoid.Cell
  player : Player
  enemies : List Enemy
  input : Arkanoid.InputHandler
  score : Int

namespace GameManager

/-- `GameManager::deleteEnemies`: every enemy is deleted, with its bullets, and the
collection is cleared. -/
def deleteEnemies (g : GameManager) : GameManager := { g with enemies := [] }

/-- `GameManager::start`. -/
def start (g : GameManager) : GameManager :=
  let g := { g with
    buffer := Arkanoid.storeAll g.buffer
      (Arkanoid.loopRange 0 (g_globalWidth * g_globalHeight - 1)) ⟨32, 0⟩ }
  let g := g.deleteEnemies
  let g := { g with player := g.player.setHealth 5 }
  let g := { g with player := g.player.setPosition 5 5 }
  { g with score := 0 }

/-- The branch of the loop of `GameManager::update` taken when the player is dead, without
its drawing calls: `start()` on a rising edge of SPACE. -/
def deadBranch (g : GameManager) : GameManager :=
  if g.input.isKeyPressed Arkanoid.VK_SPACE then g.start else g

/-- The body of the `while` loop of `spawnEnemies` up to the `push_back`: the enemy it
creates, from the clock reading `now` of the constructor, the text of `Enemy.txt` and the two
values `r1`, `r2` that `rand()` returns. -/
def spawned (enemyFile : TextFile) (now : Nat) (r1 r2 : Int) : Enemy :=
  let e := Enemy.create now
  let e := { e with sprite := (e.sprite.LoadFromText enemyFile).2 }
  let x := 130 + r1.tmod (140 - 130 + 1)
  let y := 1 + r2.tmod (g_globalHeight - 5)
  let e := e.setPosition x y
  { e with sprite := e.sprite.SetColour FG_YELLOW }

/-- The `while` loop of `spawnEnemies` run for at most `fuel` tests of its condition, `none`
if it has not ended by then. `rand k` is the `k`-th value `rand()` returns from now on and
`clock k` the clock reading of the constructor before draw `k`. -/
def spawnLoop (enemyFile : TextFile) (clock : Nat → Nat) (rand : Nat → Int) :
    Nat → Nat → List Enemy → Option (List Enemy)
  | 0, _, _ => none
  | fuel + 1, k, enemies =>
    if enemies.length < 10 then
      spawnLoop enemyFile clock rand fuel (k + 2)
        (enemies ++ [spawned enemyFile (clock k) (rand k) (rand (k + 1))])
    else some enemies

/-- `GameManager::spawnEnemies`. -/
def spawnEnemies (g : GameManager) (enemyFile : TextFile) (clock : Nat → Nat)
    (rand : Nat → Int) (fuel : Nat) : Option GameManager :=
  (spawnLoop enemyFile clock rand fuel 0 g.enemies).map fun es => { g with enemies := es }

/-- `GameManager::checkCollisions`: its five loops in order. -/
def checkCollisions (g : GameManager) : GameManager :=
  let g := { g with enemies := eraseEnemiesOutOfBounds g.enemies }
  let g := { g with player := { g.player with bullets := eraseBulletsOutOfBounds g.player.bullets } }
  let r := bulletsVsEnemies g.player.bullets g.enemies g.score
  let g := { g with player := { g.player with bullets := r.1 }, enemies := r.2.1, score := r.2.2 }
  let r := enemyBulletsVsPlayer g.player g.enemies
  let g := { g with player := r.1, enemies := r.2 }
  let r := playerVsEnemies g.player g.enemies
  { g with player := r.1, enemies := r.2 }

/-- Every bullet owned by an enemy of the collection, in order. -/
def enemyBullets (g : GameManager) : List Bullet := g.enemies.flatMap fun e => e.bullets

end GameManager

/-- A sprite text of one dash, as a bullet asset may hold. -/
def dashFile : TextFile := some [[45]]

/-- A sprite text of two lines, `<=>` ending in a carriage return and `<=`. -/
def shipFile : TextFile := some [[60, 61, 62, 13], [60, 61]]

/-- A bullet at (x, y) with the one-dash sprite. -/
def bulletAt (x y : Int) : Bullet :=
  let b := Bullet.create.setPosition x y
  { b with sprite := (b.sprite.LoadFromText dashFile).2 }

/-- An enemy at (x, y) with the two-line sprite and the given bullets. -/
def enemyAt (x y : Int) (bullets : List Bullet) : Enemy :=
  let e := Enemy.create 0
  let e := { e with sprite := (e.sprite.LoadFromText shipFile).2 }
  { e.setPosition x y with bullets := bullets }

/-- A player at (x, y) with the two-line sprite, the given health and bullets. -/
def playerAt (x y : Int) (health : Int) (bullets : List Bullet) : Player :=
  let p := Player.create
  let p := { p with sprite := (p.sprite.LoadFromText shipFile).2 }
  { (p.setPosition x y).setHealth health with bullets := bullets }

/-- The scratch buffer as the constructor allocates it, blanked. -/
def blankBuffer : List Arkanoid.Cell := List.replicate 6000 ⟨32, 0⟩

namespace GameManager

/-- An enemy at (40, 10) whose bullet has flown ahead of it to column 1. -/
def strayBullet : GameManager :=
  { buffer := blankBuffer, player := playerAt 5 5 5 [],
    enemies := [enemyAt 40 10 [bulletAt 1 11]],
    input := Arkanoid.InputHandler.fresh, score := 0 }

/-- A dead player with one bullet of its own still in flight, one enemy with a bullet, a
score of 7, and SPACE newly held. -/
def deadWithBullet : GameManager :=
  { buffer := blankBuffer, player := playerAt 30 12 0 [bulletAt 150 13],
    enemies := [enemyAt 100 3 [bulletAt 60 4]],
    input := InputHandler.update Arkanoid.InputHandler.fresh Arkanoid.GameManager.spaceHeld,
    score := 7 }

end GameManager

/-- A keyboard with every key held, opposite movement keys included. -/
def allKeys : Int → Bool := fun _ => true

/-- An enemy whose body overlaps a player at (5, 5), owning a bullet at (2, 6) that does
not overlap the player. -/
def ramming : Enemy := enemyAt 6 5 [bulletAt 2 6]

end SpaceShooter

/-! ## Collision predicates -/

/-- C3: `Rect::intersects` is symmetric, and so is `isColliding` under exchange of its two
(position, width, height) triples. -/
theorem C3_intersects_symmetric (a b : Arkanoid.Rect)
    (aPos bPos : SpaceShooter.Position) (aW aH bW bH : Int) :
    a.intersects b = b.intersects a ∧
    SpaceShooter.isColliding aPos aW aH bPos bW bH
      = SpaceShooter.isColliding bPos bW bH aPos aW aH := by
  constructor
  · simp only [Arkanoid.Rect.intersects]
    rw [Bool.eq_iff_iff]
    simp only [Bool.and_eq_true, decide_eq_true_eq]
    constructor <;> intro h <;> omega
  · simp only [SpaceShooter.isColliding]
    rw [Bool.eq_iff_iff]
    simp only [Bool.not_eq_true', Bool.or_eq_false_iff, decide_eq_false_iff_not]
    constructor <;> intro h <;> omega

/-- C4: two boxes that share an edge (one box's right edge on the other's left edge, or one
box's bottom edge on the other's top edge) do not intersect, for `Rect::intersects` and for
`isColliding` on the same boxes. -/
theorem C4_touching_edges_do_not_intersect (a b : Arkanoid.Rect)
    (h : a.right = b.left ∨ a.left = b.right ∨ a.bottom = b.top ∨ a.top = b.bottom) :
    a.intersects b = false ∧
    SpaceShooter.isColliding ⟨a._x, a._y⟩ a._width a._height ⟨b._x, b._y⟩ b._width b._height
      = false := by
  simp only [Arkanoid.Rect.right, Arkanoid.Rect.left, Arkanoid.Rect.bottom,
    Arkanoid.Rect.top] at h
  constructor
  · simp only [Arkanoid.Rect.intersects]
    rw [Bool.eq_false_iff]
    simp only [ne_eq, Bool.and_eq_true, decide_eq_true_eq]
    omega
  · simp only [SpaceShooter.isColliding]
    rw [Bool.eq_false_iff]
    simp only [ne_eq, Bool.not_eq_true', Bool.or_eq_false_iff, decide_eq_false_iff_not]
    omega

/-- Two boxes side by side, the first ending at column 3 where the second begins. -/
theorem C4_touching_edges_witness :
    (Arkanoid.Rect.mk 0 0 3 2).right = (Arkanoid.Rect.mk 3 0 4 2).left ∧
    (Arkanoid.Rect.mk 0 0 3 2).intersects (Arkanoid.Rect.mk 3 0 4 2) = false ∧
    SpaceShooter.isColliding ⟨0, 0⟩ 3 2 ⟨3, 0⟩ 4 2 = false :=
  ⟨by decide, C4_touching_edges_do_not_intersect ⟨0, 0, 3, 2⟩ ⟨3, 0, 4, 2⟩ (Or.inl (by decide))⟩

/-- C5: `isColliding` is true exactly when the strict overlap formula of the specification
holds on the edges of the two boxes, and it equals `Rect::intersects` on the rects built from
the same positions and extents. -/
theorem C5_isColliding_refines_overlap (aPos bPos : SpaceShooter.Position) (aW aH bW bH : Int) :
    (SpaceShooter.isColliding aPos aW aH bPos bW bH = true ↔
      SpaceShooter.specOverlap aPos.x (aPos.x + aW) aPos.y (aPos.y + aH)
        bPos.x (bPos.x + bW) bPos.y (bPos.y + bH)) ∧
    SpaceShooter.isColliding aPos aW aH bPos bW bH
      = (Arkanoid.Rect.mk aPos.x aPos.y aW aH).intersects (Arkanoid.Rect.mk bPos.x bPos.y bW bH) := by
  constructor
  · simp only [SpaceShooter.isColliding, SpaceShooter.specOverlap, Bool.not_eq_true',
      Bool.or_eq_false_iff, decide_eq_false_iff_not]
    constructor <;> intro h <;> omega
  · simp only [SpaceShooter.isColliding, Arkanoid.Rect.intersects]
    rw [Bool.eq_iff_iff]
    simp only [Bool.not_eq_true', Bool.or_eq_false_iff, decide_eq_false_iff_not,
      Bool.and_eq_true, decide_eq_true_eq]
    constructor <;> intro h <;> omega


/-! ## Clamping -/

/-- C6: for a grid bound of at least 1, `checkWidthBound` and `checkHeightBound` (of both
window classes) return a value in `[0, bound - 1]` and are idempotent. -/
theorem C6_clamp_range_idempotent (w : Arkanoid.Window) (sw : SpaceShooter.Window) (v : Int)
    (hw : 1 ≤ w.width) (hh : 1 ≤ w.height) (hsw : 1 ≤ sw.m_width) (hsh : 1 ≤ sw.m_height) :
    (0 ≤ w.checkWidthBound v ∧ w.checkWidthBound v ≤ w.width - 1 ∧
      w.checkWidthBound (w.checkWidthBound v) = w.checkWidthBound v) ∧
    (0 ≤ w.checkHeightBound v ∧ w.checkHeightBound v ≤ w.height - 1 ∧
      w.checkHeightBound (w.checkHeightBound v) = w.checkHeightBound v) ∧
    (0 ≤ sw.checkWidthBound v ∧ sw.checkWidthBound v ≤ sw.m_width - 1 ∧
      sw.checkWidthBound (sw.checkWidthBound v) = sw.checkWidthBound v) ∧
    (0 ≤ sw.checkHeightBound v ∧ sw.checkHeightBound v ≤ sw.m_height - 1 ∧
      sw.checkHeightBound (sw.checkHeightBound v) = sw.checkHeightBound v) := by
  simp only [Arkanoid.Window.checkWidthBound, Arkanoid.Window.checkHeightBound,
    SpaceShooter.Window.checkWidthBound, SpaceShooter.Window.checkHeightBound]
  refine ⟨?_, ?_, ?_, ?_⟩ <;> split_ifs <;> omega

/-- The clamp of 500 in the 120-wide window. -/
theorem C6_clamp_witness :
    (0 ≤ (Arkanoid.Window.mk 120 30 []).checkWidthBound 500 ∧
      (Arkanoid.Window.mk 120 30 []).checkWidthBound 500 ≤ 120 - 1 ∧
      (Arkanoid.Window.mk 120 30 []).checkWidthBound
        ((Arkanoid.Window.mk 120 30 []).checkWidthBound 500)
        = (Arkanoid.Window.mk 120 30 []).checkWidthBound 500) :=
  (C6_clamp_range_idempotent ⟨120, 30, []⟩ ⟨200, 30, []⟩ 500
    (by decide) (by decide) (by decide) (by decide)).1

/-! ## Input handler -/

namespace Arkanoid

theorem InputHandler.foldl_assign_of_not_mem (hw : Int → Bool) (k : Int) :
    ∀ (keys : List Int) (m : Int → Option Bool), k ∉ keys →
      (keys.foldl (fun m key => InputHandler.assign m key (hw key)) m) k = m k := by
  intro keys
  induction keys with
  | nil => intro m _; rfl
  | cons key rest ih =>
    intro m hk
    simp only [List.mem_cons, not_or] at hk
    rw [List.foldl_cons, ih _ hk.2]
    simp [InputHandler.assign, hk.1]

theorem InputHandler.foldl_assign_of_mem (hw : Int → Bool) (k : Int) :
    ∀ (keys : List Int) (m : Int → Option Bool), k ∈ keys →
      (keys.foldl (fun m key => InputHandler.assign m key (hw key)) m) k = some (hw k) := by
  intro keys
  induction keys with
  | nil => intro m hk; simp at hk
  | cons key rest ih =>
    intro m hk
    rw [List.foldl_cons]
    by_cases hr : k ∈ rest
    · exact ih _ hr
    · have hkey : k = key := by
        rcases List.mem_cons.mp hk with h | h
        · exact h
        · exact absurd h hr
      rw [InputHandler.foldl_assign_of_not_mem hw k rest _ hr]
      simp [InputHandler.assign, hkey]

end Arkanoid

/-- C10: for a watched key `k`, after two consecutive `update()` calls that sample the
hardware states `hw1 k` (earlier) and `hw2 k` (later), `isKeyDown k` is the later sample,
`isKeyPressed k` is "later and not earlier" and `isKeyReleased k` is "not later and earlier";
after a single `update()` on a fresh handler the previous state counts as not down. -/
theorem C10_edge_queries_after_two_updates (h : Arkanoid.InputHandler) (hw1 hw2 : Int → Bool)
    (k : Int) (hk : k ∈ Arkanoid.InputHandler.keys) :
    (((h.update hw1).update hw2).isKeyDown k = hw2 k ∧
      ((h.update hw1).update hw2).isKeyPressed k = (hw2 k && !hw1 k) ∧
      ((h.update hw1).update hw2).isKeyReleased k = (!hw2 k && hw1 k)) ∧
    ((Arkanoid.InputHandler.fresh.update hw1).wasKeyDown k = false ∧
      (Arkanoid.InputHandler.fresh.update hw1).isKeyDown k = hw1 k ∧
      (Arkanoid.InputHandler.fresh.update hw1).isKeyPressed k = hw1 k ∧
      (Arkanoid.InputHandler.fresh.update hw1).isKeyReleased k = false) := by
  have cur : ∀ (h0 : Arkanoid.InputHandler) (hw : Int → Bool),
      (h0.update hw).currentKeys k = some (hw k) := fun h0 hw =>
    Arkanoid.InputHandler.foldl_assign_of_mem hw k _ h0.currentKeys hk
  have prev : ∀ (h0 : Arkanoid.InputHandler) (hw : Int → Bool),
      (h0.update hw).previousKeys k = h0.currentKeys k := fun _ _ => rfl
  have hfresh : Arkanoid.InputHandler.fresh.currentKeys k = none := rfl
  simp only [Arkanoid.InputHandler.isKeyPressed, Arkanoid.InputHandler.isKeyReleased,
    Arkanoid.InputHandler.isKeyDown, Arkanoid.InputHandler.wasKeyDown, cur, prev, hfresh]
  simp

/-- SPACE sampled up and then down on a fresh handler reports a press. -/
theorem C10_edge_queries_witness :
    Arkanoid.VK_SPACE ∈ Arkanoid.InputHandler.keys ∧
    ((Arkanoid.InputHandler.fresh.update Arkanoid.GameManager.noKeys).update
        Arkanoid.GameManager.spaceHeld).isKeyPressed Arkanoid.VK_SPACE
      = (Arkanoid.GameManager.spaceHeld Arkanoid.VK_SPACE
          && !Arkanoid.GameManager.noKeys Arkanoid.VK_SPACE) :=
  ⟨by decide,
    (C10_edge_queries_after_two_updates Arkanoid.InputHandler.fresh
      Arkanoid.GameManager.noKeys Arkanoid.GameManager.spaceHeld Arkanoid.VK_SPACE
      (by decide)).1.2.1⟩

/-! ## The loop body of the brick game -/

set_option maxRecDepth 100000 in
/-- C1 (the code departs from it): with the ball at column 119 of the 120-wide field and
direction (1, 1), the ball's right edge has reached the right boundary, yet the boundary
check leaves the x-direction at 1, and the iteration moves the ball on to column 120 still
heading right. The check tests the left edge twice and the right edge never. -/
theorem C1_wallCheck_misses_right_edge :
    Arkanoid.GameManager.ballAtRightEdge.ball.getRect.right
        ≥ Arkanoid.GameManager.ballAtRightEdge._window.width ∧
    Arkanoid.GameManager.ballAtRightEdge.ball_x_dir = 1 ∧
    (Arkanoid.GameManager.wallCheck Arkanoid.GameManager.ballAtRightEdge).ball_x_dir = 1 ∧
    (Arkanoid.GameManager.gameLoopBody Arkanoid.GameManager.ballAtRightEdge
        Arkanoid.GameManager.noKeys none).1.ball_x_dir = 1 ∧
    (Arkanoid.GameManager.gameLoopBody Arkanoid.GameManager.ballAtRightEdge
        Arkanoid.GameManager.noKeys none).1.ball.pos = ⟨120, 11⟩ := by
  decide

set_option maxRecDepth 100000 in
/-- C2 (the code departs from it): in the started game with all 650 bricks destroyed and
3 lives, an iteration with a rising edge of SPACE does not take the Won branch: the ball
is advanced from (55, 15) to (56, 16), the bricks stay destroyed and no restart happens.
The Won test is `bricks.empty()`, and destroyed bricks are never removed. -/
theorem C2_all_destroyed_is_not_won :
    Arkanoid.GameManager.allBricksDestroyed.lives = 3 ∧
    Arkanoid.GameManager.allBricksDestroyed.bricks.length = 650 ∧
    Arkanoid.GameManager.allBricksDestroyed.bricks.all Arkanoid.Brick.isDestroyed = true ∧
    (Arkanoid.GameManager.allBricksDestroyed.input.update
        Arkanoid.GameManager.spaceHeld).isKeyPressed Arkanoid.VK_SPACE = true ∧
    Arkanoid.GameManager.allBricksDestroyed.ball.pos = ⟨55, 15⟩ ∧
    (Arkanoid.GameManager.gameLoopBody Arkanoid.GameManager.allBricksDestroyed
        Arkanoid.GameManager.spaceHeld none).1.ball.pos = ⟨56, 16⟩ ∧
    (Arkanoid.GameManager.gameLoopBody Arkanoid.GameManager.allBricksDestroyed
        Arkanoid.GameManager.spaceHeld none).1.bricks.all Arkanoid.Brick.isDestroyed = true := by
  decide

namespace Arkanoid

theorem GameManager.control_frame (g : GameManager) :
    (GameManager.control g).lives = g.lives ∧ (GameManager.control g).bricks = g.bricks ∧
    (GameManager.control g).input = g.input ∧ (GameManager.control g).ball = g.ball ∧
    (GameManager.control g).ball_x_dir = g.ball_x_dir ∧
    (GameManager.control g).ball_y_dir = g.ball_y_dir ∧
    (GameManager.control g)._window = g._window ∧
    (GameManager.control g).ballDestroy = g.ballDestroy ∧
    (GameManager.control g).speed = g.speed := by
  simp only [GameManager.control]
  split_ifs <;> simp

theorem GameManager.wallCheck_frame (g : GameManager) :
    (GameManager.wallCheck g).lives = g.lives ∧ (GameManager.wallCheck g).bricks = g.bricks ∧
    (GameManager.wallCheck g).input = g.input ∧ (GameManager.wallCheck g).ball = g.ball ∧
    (GameManager.wallCheck g)._paddle = g._paddle ∧
    (GameManager.wallCheck g).ball_y_dir = g.ball_y_dir ∧
    (GameManager.wallCheck g)._window = g._window ∧
    (GameManager.wallCheck g).ballDestroy = g.ballDestroy ∧
    (GameManager.wallCheck g).speed = g.speed := by
  unfold GameManager.wallCheck
  split_ifs <;> simp

theorem GameManager.ceilingCheck_frame (g : GameManager) :
    (GameManager.ceilingCheck g).lives = g.lives ∧
    (GameManager.ceilingCheck g).bricks = g.bricks ∧
    (GameManager.ceilingCheck g).input = g.input ∧ (GameManager.ceilingCheck g).ball = g.ball ∧
    (GameManager.ceilingCheck g)._paddle = g._paddle ∧
    (GameManager.ceilingCheck g).ball_x_dir = g.ball_x_dir ∧
    (GameManager.ceilingCheck g)._window = g._window ∧
    (GameManager.ceilingCheck g).ballDestroy = g.ballDestroy ∧
    (GameManager.ceilingCheck g).speed = g.speed := by
  unfold GameManager.ceilingCheck
  split_ifs <;> simp

theorem GameManager.scanBricks_isEmpty (r : Rect) (bs : List Brick) :
    (GameManager.scanBricks r bs).1.isEmpty = bs.isEmpty := by
  cases bs with
  | nil => rfl
  | cons b rest =>
    unfold GameManager.scanBricks
    split_ifs <;> rfl

theorem GameManager.brickCollision_frame (g : GameManager) :
    (GameManager.brickCollision g).lives = g.lives ∧
    (GameManager.brickCollision g).bricks.isEmpty = g.bricks.isEmpty ∧
    (GameManager.brickCollision g).input = g.input ∧
    (GameManager.brickCollision g).ball = g.ball ∧
    (GameManager.brickCollision g)._paddle = g._paddle ∧
    (GameManager.brickCollision g).ball_x_dir = g.ball_x_dir ∧
    (GameManager.brickCollision g)._window = g._window ∧
    (GameManager.brickCollision g).ballDestroy = g.ballDestroy ∧
    (GameManager.brickCollision g).speed = g.speed := by
  simp only [GameManager.brickCollision]
  split_ifs <;> simp [GameManager.scanBricks_isEmpty]

/-- The x-direction after the game logic: 1 after a restart, otherwise as before. -/
theorem GameManager.gameLogic_ball_x_dir (g : GameManager) :
    (GameManager.gameLogic g).ball_x_dir =
      if (g.lives ≤ 0 ∨ g.bricks.isEmpty = true) ∧ g.input.isKeyPressed VK_SPACE = true
      then 1 else g.ball_x_dir := by
  unfold GameManager.gameLogic
  by_cases hl : g.lives ≤ 0 <;> by_cases he : g.bricks.isEmpty = true <;>
    by_cases hs : g.input.isKeyPressed VK_SPACE = true <;>
    simp [hl, he, hs, GameManager.createBlockOfBricks, GameManager.start] <;>
    split_ifs <;> rfl

theorem GameManager.respawn_ball_x_dir (g : GameManager) (timer : Int) :
    (GameManager.respawn g timer).1.ball_x_dir = g.ball_x_dir := by
  unfold GameManager.respawn
  split_ifs <;> rfl

/-- The x-direction at the end of an iteration in terms of the state after the paddle
test. -/
theorem GameManager.gameLoopBody_ball_x_dir (g : GameManager) (hw : Int → Bool)
    (probe : Option (Int × Int)) :
    (GameManager.gameLoopBody g hw probe).1.ball_x_dir =
      (GameManager.gameLogic (GameManager.brickCollision
        (GameManager.paddleBounce (GameManager.ceilingCheck (GameManager.atCollision g hw))
          (GameManager.nextBallRect (GameManager.atCollision g hw))))).ball_x_dir := by
  simp only [GameManager.gameLoopBody, GameManager.atCollision,
    GameManager.respawn_ball_x_dir]

theorem GameManager.atCollision_frame (g : GameManager) (hw : Int → Bool) :
    (GameManager.atCollision g hw).lives = g.lives ∧
    (GameManager.atCollision g hw).bricks = g.bricks ∧
    (GameManager.atCollision g hw).input = g.input.update hw ∧
    (GameManager.atCollision g hw).ball = g.ball ∧
    (GameManager.atCollision g hw)._window = g._window ∧
    (GameManager.atCollision g hw).ballDestroy = false := by
  unfold GameManager.atCollision
  obtain ⟨w1, w2, w3, w4, -, -, w7, w8, -⟩ := GameManager.wallCheck_frame
    (GameManager.control { g with ballDestroy := false, input := g.input.update hw })
  obtain ⟨c1, c2, c3, c4, -, -, c7, c8, -⟩ := GameManager.control_frame
    { g with ballDestroy := false, input := g.input.update hw }
  rw [w1, w2, w3, w4, w7, w8, c1, c2, c3, c4, c7, c8]
  exact ⟨rfl, rfl, rfl, rfl, rfl, rfl⟩

/-- The paddle test when the predicted rect meets the paddle: only the two directions
change, and the x-direction is the sign of `ball.x - (paddle.x + paddle.width / 2)`. -/
theorem GameManager.paddleBounce_contact (g : GameManager) (next : Rect)
    (h : next.intersects g._paddle.getRect = true) :
    (GameManager.paddleBounce g next).lives = g.lives ∧
    (GameManager.paddleBounce g next).bricks = g.bricks ∧
    (GameManager.paddleBounce g next).input = g.input ∧
    (GameManager.paddleBounce g next).ball = g.ball ∧
    (GameManager.paddleBounce g next).ballDestroy = g.ballDestroy ∧
    (GameManager.paddleBounce g next).ball_y_dir = g.ball_y_dir * -1 ∧
    (GameManager.paddleBounce g next).ball_x_dir =
      if g.ball.getX < g._paddle.getX + g._paddle.getWidth.tdiv 2 then -1
      else if g.ball.getX > g._paddle.getX + g._paddle.getWidth.tdiv 2 then 1 else 0 := by
  simp only [GameManager.paddleBounce, h, if_true]
  split_ifs <;> first | (exfalso; omega) | simp

end Arkanoid

/-- C7 (amended): in an iteration in which the ball's predicted rect (position plus the
direction after the wall check) intersects the paddle rect (after the paddle's move), and
which does not restart the round, the x-direction at the end of the iteration is -1 if
`ball.x < paddle.x + paddle.width / 2`, +1 if it is greater and 0 if equal, whatever it was
before; if the iteration restarts the round the x-direction ends at 1. -/
theorem C7_paddle_bounce_direction (g : Arkanoid.GameManager) (hw : Int → Bool)
    (probe : Option (Int × Int))
    (hcontact : (Arkanoid.GameManager.nextBallRect (Arkanoid.GameManager.atCollision g hw)).intersects
      (Arkanoid.GameManager.atCollision g hw)._paddle.getRect = true) :
    (Arkanoid.GameManager.restarts g hw = false →
      (g.ball.getX < (Arkanoid.GameManager.atCollision g hw)._paddle.getX
          + ((Arkanoid.GameManager.atCollision g hw)._paddle.getWidth).tdiv 2 →
        (Arkanoid.GameManager.gameLoopBody g hw probe).1.ball_x_dir = -1) ∧
      (g.ball.getX > (Arkanoid.GameManager.atCollision g hw)._paddle.getX
          + ((Arkanoid.GameManager.atCollision g hw)._paddle.getWidth).tdiv 2 →
        (Arkanoid.GameManager.gameLoopBody g hw probe).1.ball_x_dir = 1) ∧
      (g.ball.getX = (Arkanoid.GameManager.atCollision g hw)._paddle.getX
          + ((Arkanoid.GameManager.atCollision g hw)._paddle.getWidth).tdiv 2 →
        (Arkanoid.GameManager.gameLoopBody g hw probe).1.ball_x_dir = 0)) ∧
    (Arkanoid.GameManager.restarts g hw = true →
      (Arkanoid.GameManager.gameLoopBody g hw probe).1.ball_x_dir = 1) := by
  obtain ⟨a1, a2, a3, a4, -, -⟩ := Arkanoid.GameManager.atCollision_frame g hw
  obtain ⟨c1, c2, c3, c4, c5, -, -, -, -⟩ :=
    Arkanoid.GameManager.ceilingCheck_frame (Arkanoid.GameManager.atCollision g hw)
  rw [← c5] at hcontact
  obtain ⟨p1, p2, p3, -, -, -, p7⟩ := Arkanoid.GameManager.paddleBounce_contact _ _ hcontact
  obtain ⟨b1, b2, b3, -, -, b6, -, -, -⟩ := Arkanoid.GameManager.brickCollision_frame
    (Arkanoid.GameManager.paddleBounce
      (Arkanoid.GameManager.ceilingCheck (Arkanoid.GameManager.atCollision g hw))
      (Arkanoid.GameManager.nextBallRect (Arkanoid.GameManager.atCollision g hw)))
  rw [Arkanoid.GameManager.gameLoopBody_ball_x_dir, Arkanoid.GameManager.gameLogic_ball_x_dir,
    b1, b2, b3, b6, p1, p2, p3, p7, c1, c2, c3, c4, c5, a1, a2, a3, a4]
  simp only [Arkanoid.GameManager.restarts, Bool.and_eq_false_imp, Bool.and_eq_true,
    Bool.or_eq_true, decide_eq_true_eq]
  constructor
  · intro hno
    have hcond : ¬ ((g.lives ≤ 0 ∨ g.bricks.isEmpty = true) ∧
        (g.input.update hw).isKeyPressed Arkanoid.VK_SPACE = true) := by
      rintro ⟨hl, hs⟩
      have := hno hl
      rw [hs] at this
      exact Bool.noConfusion this
    rw [if_neg hcond]
    refine ⟨fun h => ?_, fun h => ?_, fun h => ?_⟩
    · rw [if_pos h]
    · rw [if_neg (by omega), if_pos h]
    · rw [if_neg (by omega), if_neg (by omega)]
  · intro hyes
    rw [if_pos hyes]

set_option maxRecDepth 100000 in
/-- C7 as stated fails: in the game over after a resize, with a rising edge of SPACE, the
ball's predicted rect meets the paddle and `ball.x = 62 < 65 = paddle.x + paddle.width / 2`,
yet the x-direction at the end of the iteration is 1, not -1: the restart resets it. -/
theorem C7_counterexample_restart_resets_direction :
    (Arkanoid.GameManager.nextBallRect
        (Arkanoid.GameManager.atCollision Arkanoid.GameManager.gameOverAbovePaddle
          Arkanoid.GameManager.spaceHeld)).intersects
      (Arkanoid.GameManager.atCollision Arkanoid.GameManager.gameOverAbovePaddle
          Arkanoid.GameManager.spaceHeld)._paddle.getRect = true ∧
    Arkanoid.GameManager.gameOverAbovePaddle.ball.getX
      < (Arkanoid.GameManager.atCollision Arkanoid.GameManager.gameOverAbovePaddle
            Arkanoid.GameManager.spaceHeld)._paddle.getX
        + ((Arkanoid.GameManager.atCollision Arkanoid.GameManager.gameOverAbovePaddle
            Arkanoid.GameManager.spaceHeld)._paddle.getWidth).tdiv 2 ∧
    (Arkanoid.GameManager.gameLoopBody Arkanoid.GameManager.gameOverAbovePaddle
        Arkanoid.GameManager.spaceHeld none).1.ball_x_dir = 1 ∧
    ¬ (Arkanoid.GameManager.gameLoopBody Arkanoid.GameManager.gameOverAbovePaddle
        Arkanoid.GameManager.spaceHeld none).1.ball_x_dir = -1 := by
  decide

set_option maxRecDepth 100000 in
/-- Paddle centre 65: the ball at column 62, 68 and 65 leaves with x-direction -1, +1 and 0. -/
theorem C7_paddle_bounce_witness :
    (Arkanoid.GameManager.gameLoopBody (Arkanoid.GameManager.ballAbovePaddle 62)
        Arkanoid.GameManager.noKeys none).1.ball_x_dir = -1 ∧
    (Arkanoid.GameManager.gameLoopBody (Arkanoid.GameManager.ballAbovePaddle 68)
        Arkanoid.GameManager.noKeys none).1.ball_x_dir = 1 ∧
    (Arkanoid.GameManager.gameLoopBody (Arkanoid.GameManager.ballAbovePaddle 65)
        Arkanoid.GameManager.noKeys none).1.ball_x_dir = 0 :=
  ⟨((C7_paddle_bounce_direction (Arkanoid.GameManager.ballAbovePaddle 62)
      Arkanoid.GameManager.noKeys none (by decide)).1 (by decide)).1 (by decide),
   ((C7_paddle_bounce_direction (Arkanoid.GameManager.ballAbovePaddle 68)
      Arkanoid.GameManager.noKeys none (by decide)).1 (by decide)).2.1 (by decide),
   ((C7_paddle_bounce_direction (Arkanoid.GameManager.ballAbovePaddle 65)
      Arkanoid.GameManager.noKeys none (by decide)).1 (by decide)).2.2 (by decide)⟩

/-! ## The brick block -/

namespace Arkanoid

theorem grid_length {α : Type} (f : Nat → Nat → α) (m : Nat) :
    ∀ n, ((List.range n).flatMap (fun r => (List.range m).map (f r))).length = n * m := by
  intro n
  induction n with
  | zero => simp
  | succ n ih =>
    rw [List.range_succ, List.flatMap_append, List.length_append, ih]
    simp [Nat.succ_mul]

theorem grid_getElem? {α : Type} (f : Nat → Nat → α) (m : Nat) :
    ∀ n i j, i < n → j < m →
      ((List.range n).flatMap (fun r => (List.range m).map (f r)))[i * m + j]? = some (f i j) := by
  intro n
  induction n with
  | zero => intro i j hi; omega
  | succ n ih =>
    intro i j hi hj
    rw [List.range_succ, List.flatMap_append]
    by_cases hin : i < n
    · have hlt : i * m + j < n * m := by
        calc i * m + j < i * m + m := by omega
          _ = (i + 1) * m := by rw [Nat.succ_mul]
          _ ≤ n * m := Nat.mul_le_mul_right m hin
      rw [List.getElem?_append_left (by rw [grid_length]; exact hlt)]
      exact ih i j hin hj
    · have hi' : i = n := by omega
      subst hi'
      rw [List.getElem?_append_right (by rw [grid_length]; omega), grid_length]
      simp [hj]

end Arkanoid

/-- C8: for every field width `W`, `createBlockOfBricks` leaves exactly 650 bricks, the brick
of (row, col) at index `row * 50 + col`, at `x = col + (W - 50) / 2`, `y = row + 2`, of size
1 x 1 and not destroyed, whatever the collection held before the call; in the 120-wide field
the occupied columns are exactly 35..84, which leaves columns 0..34 and 85..119 free. -/
theorem C8_createBlockOfBricks_grid (g : Arkanoid.GameManager) :
    (Arkanoid.GameManager.createBlockOfBricks g).bricks.length = 650 ∧
    (∀ row col : Nat, row < 13 → col < 50 →
      (Arkanoid.GameManager.createBlockOfBricks g).bricks[row * 50 + col]? =
        some { pos := ⟨(col : Int) + (g._window.width - 50).tdiv 2, (row : Int) + 2⟩,
               width := 1, height := 1, destroyed := false }) ∧
    (∀ b ∈ (Arkanoid.GameManager.createBlockOfBricks g).bricks,
      b.width = 1 ∧ b.height = 1 ∧ b.destroyed = false) ∧
    (∀ bs : List Arkanoid.Brick,
      (Arkanoid.GameManager.createBlockOfBricks { g with bricks := bs }).bricks =
        (Arkanoid.GameManager.createBlockOfBricks g).bricks) ∧
    (g._window.width = 120 → ∀ x : Int,
      (∃ b ∈ (Arkanoid.GameManager.createBlockOfBricks g).bricks, b.pos.x = x) ↔
        35 ≤ x ∧ x ≤ 84) := by
  refine ⟨?_, ?_, ?_, ?_, ?_⟩
  · simp only [Arkanoid.GameManager.createBlockOfBricks]
    rw [Arkanoid.grid_length]
  · intro row col hrow hcol
    simp only [Arkanoid.GameManager.createBlockOfBricks]
    rw [Arkanoid.grid_getElem? _ 50 13 row col hrow hcol]
    simp [Arkanoid.Brick.create]
  · intro b hb
    simp only [Arkanoid.GameManager.createBlockOfBricks, List.mem_flatMap, List.mem_map] at hb
    obtain ⟨row, -, col, -, rfl⟩ := hb
    exact ⟨rfl, rfl, rfl⟩
  · intro bs
    rfl
  · intro hW x
    simp only [Arkanoid.GameManager.createBlockOfBricks, List.mem_flatMap, List.mem_map,
      List.mem_range, hW]
    constructor
    · rintro ⟨b, ⟨row, -, col, hcol, rfl⟩, rfl⟩
      simp only [Arkanoid.Brick.create]
      have : ((120 : Int) - ((50 : Nat) : Int)).tdiv 2 = 35 := by decide
      rw [this]
      omega
    · rintro ⟨h1, h2⟩
      refine ⟨Arkanoid.Brick.create x 2 1 1, ⟨0, by omega, (x - 35).toNat, by omega, ?_⟩, rfl⟩
      have : ((120 : Int) - ((50 : Nat) : Int)).tdiv 2 = 35 := by decide
      rw [this]
      have hx : (((x - 35).toNat : Nat) : Int) = x - 35 := Int.toNat_of_nonneg (by omega)
      simp only [hx]
      congr 1
      simp

set_option maxRecDepth 100000 in
/-- The brick of row 3, column 7 and the last occupied column of the 120-wide field. -/
theorem C8_createBlockOfBricks_witness :
    Arkanoid.GameManager.initial._window.width = 120 ∧
    (Arkanoid.GameManager.createBlockOfBricks Arkanoid.GameManager.initial).bricks[3 * 50 + 7]? =
      some { pos := ⟨(7 : Int) + ((120 : Int) - 50).tdiv 2, (3 : Int) + 2⟩,
             width := 1, height := 1, destroyed := false } ∧
    ((∃ b ∈ (Arkanoid.GameManager.createBlockOfBricks Arkanoid.GameManager.initial).bricks,
        b.pos.x = 84) ↔ (35 : Int) ≤ 84 ∧ (84 : Int) ≤ 84) :=
  ⟨by decide,
   (C8_createBlockOfBricks_grid Arkanoid.GameManager.initial).2.1 3 7 (by decide) (by decide),
   (C8_createBlockOfBricks_grid Arkanoid.GameManager.initial).2.2.2.2 (by decide) 84⟩

/-! ## The frame buffer -/

namespace Arkanoid

theorem mem_loopRange (lo hi v : Int) : v ∈ loopRange lo hi ↔ lo ≤ v ∧ v ≤ hi := by
  simp only [loopRange, List.mem_map, List.mem_range]
  constructor
  · rintro ⟨i, hi', rfl⟩
    omega
  · rintro ⟨h1, h2⟩
    exact ⟨(v - lo).toNat, by omega, by omega⟩

theorem store_length (buf : List Cell) (i : Int) (c : Cell) :
    (store buf i c).length = buf.length := by
  unfold store
  split_ifs <;> simp

theorem storeAll_length (c : Cell) : ∀ (idxs : List Int) (buf : List Cell),
    (storeAll buf idxs c).length = buf.length := by
  intro idxs
  induction idxs with
  | nil => intro buf; rfl
  | cons i rest ih =>
    intro buf
    show (storeAll (store buf i c) rest c).length = buf.length
    rw [ih, store_length]

theorem store_getElem? (buf : List Cell) (i : Int) (c : Cell) (n : Nat) (hn : n < buf.length) :
    (store buf i c)[n]? = if i = (n : Int) then some c else buf[n]? := by
  unfold store
  by_cases hin : 0 ≤ i ∧ i < (buf.length : Int)
  · rw [if_pos hin, List.getElem?_set]
    by_cases hi : i = (n : Int)
    · have : i.toNat = n := by omega
      rw [if_pos this, if_pos hi, if_pos (by omega)]
    · have : ¬ i.toNat = n := by omega
      rw [if_neg this, if_neg hi]
  · rw [if_neg hin]
    have : ¬ i = (n : Int) := by omega
    rw [if_neg this]

/-- The buffer after a run of stores of one cell value: a cell whose index is among the
stores holds that value, every other cell is as before. -/
theorem storeAll_getElem? (c : Cell) (n : Nat) : ∀ (idxs : List Int) (buf : List Cell),
    n < buf.length →
    (storeAll buf idxs c)[n]? = if (n : Int) ∈ idxs then some c else buf[n]? := by
  intro idxs
  induction idxs with
  | nil => intro buf _; simp [storeAll]
  | cons i rest ih =>
    intro buf hn
    show (storeAll (store buf i c) rest c)[n]? = _
    rw [ih _ (by rw [store_length]; exact hn), store_getElem? buf i c n hn]
    by_cases h1 : (n : Int) ∈ rest
    · simp [h1]
    · by_cases h2 : i = (n : Int)
      · simp [h2]
      · have h3 : ¬ (n : Int) = i := fun h => h2 h.symm
        simp [h1, h2, h3]

/-- Two cells of the grid with the same buffer index are the same cell. -/
theorem index_injective (W x y x' y' : Int) (hx : 0 ≤ x ∧ x < W) (hx' : 0 ≤ x' ∧ x' < W)
    (h : y * W + x = y' * W + x') : x = x' ∧ y = y' := by
  have e1 : (y * W + x) % W = x := by
    rw [add_comm, Int.add_mul_emod_self, Int.emod_eq_of_lt hx.1 hx.2]
  have e2 : (y' * W + x') % W = x' := by
    rw [add_comm, Int.add_mul_emod_self, Int.emod_eq_of_lt hx'.1 hx'.2]
  have hxx : x = x' := by rw [← e1, ← e2, h]
  subst hxx
  have hW : W ≠ 0 := by omega
  exact ⟨rfl, mul_right_cancel₀ hW (by omega)⟩

/-- The buffer index of a cell of the grid lies inside the buffer. -/
theorem index_in_range (W H x y : Int) (hx : 0 ≤ x ∧ x < W) (hy : 0 ≤ y ∧ y < H) :
    0 ≤ y * W + x ∧ y * W + x < W * H := by
  constructor
  · have : 0 ≤ y * W := mul_nonneg hy.1 (by omega)
    omega
  · have h1 : (y + 1) * W ≤ H * W := mul_le_mul_of_nonneg_right (by omega) (by omega)
    have h2 : (y + 1) * W = y * W + W := by ring
    have h3 : H * W = W * H := mul_comm _ _
    omega

/-- The observed cell of the grid after a run of stores. -/
theorem cellAt_storeAll (w : Window) (idxs : List Int) (c : Cell) (x y : Int)
    (hsize : (w.buffer.length : Int) = w.width * w.height)
    (hx : 0 ≤ x ∧ x < w.width) (hy : 0 ≤ y ∧ y < w.height) :
    Window.cellAt { w with buffer := storeAll w.buffer idxs c } x y =
      if y * w.width + x ∈ idxs then some c else w.cellAt x y := by
  obtain ⟨h0, h1⟩ := index_in_range w.width w.height x y hx hy
  have hn : (y * w.width + x).toNat < w.buffer.length := by omega
  have hcast : (((y * w.width + x).toNat : Nat) : Int) = y * w.width + x :=
    Int.toNat_of_nonneg h0
  simp only [Window.cellAt, if_pos h0]
  rw [storeAll_getElem? c _ idxs w.buffer hn, hcast]

end Arkanoid

namespace Arkanoid

theorem Window.mem_drawCircleWrites (w : Window) (cx cy r idx : Int) :
    idx ∈ w.drawCircleWrites cx cy r ↔
      ∃ y x, (-r ≤ y ∧ y ≤ r) ∧ (-r ≤ x ∧ x ≤ r) ∧ x * x + (2 * y) * (2 * y) ≤ r * r ∧
        (w.checkWidthBound cx + x ≥ 0 ∧ w.checkWidthBound cx + x < w.width ∧
          w.checkHeightBound cy + y ≥ 0 ∧ w.checkHeightBound cy + y < w.height) ∧
        (w.checkHeightBound cy + y) * w.width + (w.checkWidthBound cx + x) = idx := by
  simp only [Window.drawCircleWrites, List.mem_flatMap, List.mem_filterMap, mem_loopRange]
  constructor
  · rintro ⟨y, hy, x, hx, h⟩
    split_ifs at h with h1 h2
    exact ⟨y, x, hy, hx, h1, h2, Option.some.inj h⟩
  · rintro ⟨y, x, hy, hx, h1, h2, h3⟩
    refine ⟨y, hy, x, hx, ?_⟩
    rw [if_pos h1, if_pos h2, h3]

/-- A point inside the squashed disc lies inside the square the two loops range over. -/
theorem disc_in_square (x y r : Int) (hr : 0 ≤ r) (h : x * x + (2 * y) * (2 * y) ≤ r * r) :
    (-r ≤ y ∧ y ≤ r) ∧ (-r ≤ x ∧ x ≤ r) := by
  refine ⟨⟨?_, ?_⟩, ⟨?_, ?_⟩⟩
  · by_contra hc
    nlinarith [mul_self_nonneg x]
  · by_contra hc
    nlinarith [mul_self_nonneg x]
  · by_contra hc
    nlinarith [mul_self_nonneg (2 * y)]
  · by_contra hc
    nlinarith [mul_self_nonneg (2 * y)]

end Arkanoid

/-- C9: for a radius `r ≥ 0` and a centre inside the grid, `drawCircle` stores only inside
the buffer, a cell (px, py) of the grid is stored to if and only if
`(px - cx)^2 + (2 * (py - cy))^2 ≤ r^2`, such a cell then holds the glyph and colour, and every
other cell of the grid is unchanged. -/
theorem C9_drawCircle_membership (w : Arkanoid.Window) (cx cy r : Int) (g c : Nat)
    (hsize : (w.buffer.length : Int) = w.width * w.height) (hr : 0 ≤ r)
    (hcx : 0 ≤ cx ∧ cx < w.width) (hcy : 0 ≤ cy ∧ cy < w.height) :
    (∀ i ∈ w.drawCircleWrites cx cy r, 0 ≤ i ∧ i < w.width * w.height) ∧
    (∀ px py : Int, 0 ≤ px ∧ px < w.width → 0 ≤ py ∧ py < w.height →
      (py * w.width + px ∈ w.drawCircleWrites cx cy r ↔
        (px - cx) ^ 2 + (2 * (py - cy)) ^ 2 ≤ r ^ 2) ∧
      ((px - cx) ^ 2 + (2 * (py - cy)) ^ 2 ≤ r ^ 2 →
        (w.drawCircle cx cy r g c).cellAt px py = some ⟨g, c⟩) ∧
      (¬ (px - cx) ^ 2 + (2 * (py - cy)) ^ 2 ≤ r ^ 2 →
        (w.drawCircle cx cy r g c).cellAt px py = w.cellAt px py)) ∧
    (∀ sw : SpaceShooter.Window, sw.toArkanoid = w →
      sw.drawCircleWrites cx cy r = w.drawCircleWrites cx cy r ∧
      (sw.drawCircle cx cy r g c).toArkanoid = w.drawCircle cx cy r g c) := by
  have hcw : w.checkWidthBound cx = cx := by
    simp only [Arkanoid.Window.checkWidthBound]
    split_ifs <;> omega
  have hch : w.checkHeightBound cy = cy := by
    simp only [Arkanoid.Window.checkHeightBound]
    split_ifs <;> omega
  have hmem : ∀ px py : Int, 0 ≤ px ∧ px < w.width → 0 ≤ py ∧ py < w.height →
      (py * w.width + px ∈ w.drawCircleWrites cx cy r ↔
        (px - cx) ^ 2 + (2 * (py - cy)) ^ 2 ≤ r ^ 2) := by
    intro px py hpx hpy
    rw [Arkanoid.Window.mem_drawCircleWrites, hcw, hch]
    constructor
    · rintro ⟨y, x, -, -, h1, h2, h3⟩
      obtain ⟨ex, ey⟩ := Arkanoid.index_injective w.width (cx + x) (cy + y) px py
        ⟨h2.1, h2.2.1⟩ hpx h3
      have hx : px - cx = x := by omega
      have hy : py - cy = y := by omega
      rw [hx, hy]
      nlinarith
    · intro h
      have h' : (px - cx) * (px - cx) + (2 * (py - cy)) * (2 * (py - cy)) ≤ r * r := by
        nlinarith
      obtain ⟨hy, hx⟩ := Arkanoid.disc_in_square _ _ r hr h'
      refine ⟨py - cy, px - cx, hy, hx, h', ⟨by omega, by omega, by omega, by omega⟩, ?_⟩
      have e1 : cy + (py - cy) = py := by ring
      have e2 : cx + (px - cx) = px := by ring
      rw [e1, e2]
  refine ⟨?_, ?_, ?_⟩
  · intro i hi
    rw [Arkanoid.Window.mem_drawCircleWrites, hcw, hch] at hi
    obtain ⟨y, x, -, -, -, h2, rfl⟩ := hi
    exact Arkanoid.index_in_range w.width w.height _ _ ⟨h2.1, h2.2.1⟩ ⟨h2.2.2.1, h2.2.2.2⟩
  rotate_left
  · rintro sw rfl
    exact ⟨rfl, rfl⟩
  · intro px py hpx hpy
    refine ⟨hmem px py hpx hpy, ?_, ?_⟩
    · intro h
      simp only [Arkanoid.Window.drawCircle]
      rw [Arkanoid.cellAt_storeAll w _ _ px py hsize hpx hpy,
        if_pos ((hmem px py hpx hpy).2 h)]
    · intro h
      simp only [Arkanoid.Window.drawCircle]
      rw [Arkanoid.cellAt_storeAll w _ _ px py hsize hpx hpy,
        if_neg (fun hm => h ((hmem px py hpx hpy).1 hm))]

set_option maxRecDepth 100000 in
/-- Radius 5 at (10, 10) in the blank 120 x 30 window: (10, 12) is stored to, (10, 13) is
not. -/
theorem C9_drawCircle_witness :
    (12 * Arkanoid.blankWindow.width + 10 ∈ Arkanoid.blankWindow.drawCircleWrites 10 10 5) ∧
    ¬ (13 * Arkanoid.blankWindow.width + 10 ∈ Arkanoid.blankWindow.drawCircleWrites 10 10 5) ∧
    (Arkanoid.blankWindow.drawCircle 10 10 5 42 7).cellAt 10 12 = some ⟨42, 7⟩ ∧
    (Arkanoid.blankWindow.drawCircle 10 10 5 42 7).cellAt 10 13
      = Arkanoid.blankWindow.cellAt 10 13 :=
  ⟨((C9_drawCircle_membership Arkanoid.blankWindow 10 10 5 42 7
      (by simp only [Arkanoid.blankWindow, List.length_replicate]; decide) (by decide) (by decide) (by decide)).2.1 10 12 (by decide) (by decide)).1.2
      (by decide),
   fun h => absurd (((C9_drawCircle_membership Arkanoid.blankWindow 10 10 5 42 7
      (by simp only [Arkanoid.blankWindow, List.length_replicate]; decide) (by decide) (by decide) (by decide)).2.1 10 13 (by decide) (by decide)).1.1 h)
      (by decide),
   ((C9_drawCircle_membership Arkanoid.blankWindow 10 10 5 42 7
      (by simp only [Arkanoid.blankWindow, List.length_replicate]; decide) (by decide) (by decide) (by decide)).2.1 10 12 (by decide) (by decide)).2.1
      (by decide),
   ((C9_drawCircle_membership Arkanoid.blankWindow 10 10 5 42 7
      (by simp only [Arkanoid.blankWindow, List.length_replicate]; decide) (by decide) (by decide) (by decide)).2.1 10 13 (by decide) (by decide)).2.2
      (by decide)⟩

/-! ## Edge queries over three samples -/

namespace Arkanoid

/-- The two maps after an update with a watch-list, at a watched key. -/
theorem InputHandler.updateWith_watched (keys : List Int) (h : InputHandler) (hw : Int → Bool)
    (k : Int) (hk : k ∈ keys) :
    (InputHandler.updateWith keys h hw).currentKeys k = some (hw k) ∧
    (InputHandler.updateWith keys h hw).previousKeys k = h.currentKeys k :=
  ⟨InputHandler.foldl_assign_of_mem hw k keys h.currentKeys hk, rfl⟩

/-- Rising-edge query over three updates with a watch-list that sample a watched key as up,
down, down. -/
theorem InputHandler.pressed_once (keys : List Int) (h : InputHandler) (hw1 hw2 hw3 : Int → Bool)
    (k : Int) (hk : k ∈ keys) (h1 : hw1 k = false) (h2 : hw2 k = true) (h3 : hw3 k = true) :
    (InputHandler.updateWith keys h hw1).isKeyPressed k = false ∧
    (InputHandler.updateWith keys (InputHandler.updateWith keys h hw1) hw2).isKeyPressed k
      = true ∧
    (InputHandler.updateWith keys
      (InputHandler.updateWith keys (InputHandler.updateWith keys h hw1) hw2) hw3).isKeyPressed k
      = false := by
  have cur : ∀ (h0 : InputHandler) (hw : Int → Bool),
      (InputHandler.updateWith keys h0 hw).currentKeys k = some (hw k) := fun h0 hw =>
    (InputHandler.updateWith_watched keys h0 hw k hk).1
  have prev : ∀ (h0 : InputHandler) (hw : Int → Bool),
      (InputHandler.updateWith keys h0 hw).previousKeys k = h0.currentKeys k := fun _ _ => rfl
  simp only [InputHandler.isKeyPressed, InputHandler.isKeyDown, InputHandler.wasKeyDown,
    cur, prev, h1, h2, h3]
  simp

end Arkanoid

/-- C11: for a watched key `k` and any handler state (in particular one in which `k` is
recorded as not down), three further `update()` calls that sample `k` as false, true, true
give `isKeyPressed k` false after the first, true after the second and false after the
third; this holds for the handler of arkanoid.cpp and for the one of InputHandler.h. -/
theorem C11_pressed_for_exactly_one_tick (h : Arkanoid.InputHandler) (hw1 hw2 hw3 : Int → Bool)
    (k : Int) (h1 : hw1 k = false) (h2 : hw2 k = true) (h3 : hw3 k = true) :
    (k ∈ Arkanoid.InputHandler.keys →
      (h.update hw1).isKeyPressed k = false ∧
      ((h.update hw1).update hw2).isKeyPressed k = true ∧
      (((h.update hw1).update hw2).update hw3).isKeyPressed k = false) ∧
    (k ∈ SpaceShooter.InputHandler.keys →
      (SpaceShooter.InputHandler.update h hw1).isKeyPressed k = false ∧
      (SpaceShooter.InputHandler.update (SpaceShooter.InputHandler.update h hw1) hw2).isKeyPressed k
        = true ∧
      (SpaceShooter.InputHandler.update (SpaceShooter.InputHandler.update
        (SpaceShooter.InputHandler.update h hw1) hw2) hw3).isKeyPressed k = false) :=
  ⟨fun hk => Arkanoid.InputHandler.pressed_once _ h hw1 hw2 hw3 k hk h1 h2 h3,
   fun hk => Arkanoid.InputHandler.pressed_once _ h hw1 hw2 hw3 k hk h1 h2 h3⟩

/-- SPACE up, then held for two samples, on a fresh handler of each kind. -/
theorem C11_pressed_witness :
    ((Arkanoid.InputHandler.fresh.update Arkanoid.GameManager.noKeys).isKeyPressed
        Arkanoid.VK_SPACE = false ∧
      ((Arkanoid.InputHandler.fresh.update Arkanoid.GameManager.noKeys).update
        Arkanoid.GameManager.spaceHeld).isKeyPressed Arkanoid.VK_SPACE = true ∧
      (((Arkanoid.InputHandler.fresh.update Arkanoid.GameManager.noKeys).update
        Arkanoid.GameManager.spaceHeld).update
        Arkanoid.GameManager.spaceHeld).isKeyPressed Arkanoid.VK_SPACE = false) ∧
    (SpaceShooter.InputHandler.update (SpaceShooter.InputHandler.update
        (SpaceShooter.InputHandler.update Arkanoid.InputHandler.fresh
          Arkanoid.GameManager.noKeys)
        Arkanoid.GameManager.spaceHeld)
        Arkanoid.GameManager.spaceHeld).isKeyPressed Arkanoid.VK_SPACE = false :=
  ⟨(C11_pressed_for_exactly_one_tick Arkanoid.InputHandler.fresh Arkanoid.GameManager.noKeys
      Arkanoid.GameManager.spaceHeld Arkanoid.GameManager.spaceHeld Arkanoid.VK_SPACE
      (by decide) (by decide) (by decide)).1 (by decide),
   ((C11_pressed_for_exactly_one_tick Arkanoid.InputHandler.fresh Arkanoid.GameManager.noKeys
      Arkanoid.GameManager.spaceHeld Arkanoid.GameManager.spaceHeld Arkanoid.VK_SPACE
      (by decide) (by decide) (by decide)).2 (by decide)).2.2⟩

/-! ## The brick scan -/

namespace Arkanoid

/-- The scan when no brick is both live and in contact: nothing changes. -/
theorem GameManager.scanBricks_miss (r : Rect) :
    ∀ bs : List Brick, (∀ p ∈ bs, p.isDestroyed = true ∨ r.intersects p.getRect = false) →
      GameManager.scanBricks r bs = (bs, false) := by
  intro bs
  induction bs with
  | nil => intro _; rfl
  | cons b rest ih =>
    intro h
    have hb := h b (List.mem_cons_self _ _)
    have hrest := ih (fun p hp => h p (List.mem_cons_of_mem _ hp))
    have hc : (!b.isDestroyed && r.intersects b.getRect) = false := by
      rcases hb with hb | hb <;> simp [hb]
    simp only [GameManager.scanBricks, hc, hrest]
    simp

/-- The scan when a first live brick in contact exists: that brick alone is destroyed. -/
theorem GameManager.scanBricks_hit (r : Rect) (b : Brick) (post : List Brick)
    (hb : b.isDestroyed = false) (hr : r.intersects b.getRect = true) :
    ∀ pre : List Brick, (∀ p ∈ pre, p.isDestroyed = true ∨ r.intersects p.getRect = false) →
      GameManager.scanBricks r (pre ++ b :: post) = (pre ++ b.destroy :: post, true) := by
  intro pre
  induction pre with
  | nil =>
    intro _
    simp [GameManager.scanBricks, hb, hr]
  | cons p rest ih =>
    intro h
    have hp := h p (List.mem_cons_self _ _)
    have hrest := ih (fun q hq => h q (List.mem_cons_of_mem _ hq))
    have hc : (!p.isDestroyed && r.intersects p.getRect) = false := by
      rcases hp with hp | hp <;> simp [hp]
    show GameManager.scanBricks r (p :: (rest ++ b :: post)) = _
    rw [GameManager.scanBricks, hc, hrest]
    simp

/-- The scan raises the number of destroyed bricks by at most one. -/
theorem GameManager.scanBricks_countP (r : Rect) : ∀ bs : List Brick,
    (GameManager.scanBricks r bs).1.countP Brick.isDestroyed
      ≤ bs.countP Brick.isDestroyed + 1 := by
  intro bs
  induction bs with
  | nil => simp [GameManager.scanBricks]
  | cons b rest ih =>
    by_cases hc : (!b.isDestroyed && r.intersects b.getRect) = true
    · simp only [GameManager.scanBricks, hc, if_true, List.countP_cons]
      split_ifs <;> omega
    · simp only [GameManager.scanBricks, hc]
      simp only [Bool.false_eq_true, if_false, List.countP_cons]
      split_ifs <;> omega

end Arkanoid

/-- C12: the brick scan of an iteration destroys at most one brick. If some brick that is
not destroyed meets the ball's current rect, the first such brick in collection order is
marked destroyed (its flag is set, its position and size stay), the vertical direction is
negated, every other brick is left as it was and the number of destroyed bricks rises by
exactly one; if none does, the scan changes no brick and no direction. -/
theorem C12_brick_scan_first_hit (g : Arkanoid.GameManager) :
    (∀ (pre : List Arkanoid.Brick) (b : Arkanoid.Brick) (post : List Arkanoid.Brick),
      g.bricks = pre ++ b :: post →
      (∀ p ∈ pre, p.isDestroyed = true ∨ g.ball.getRect.intersects p.getRect = false) →
      b.isDestroyed = false → g.ball.getRect.intersects b.getRect = true →
        (Arkanoid.GameManager.brickCollision g).bricks = pre ++ b.destroy :: post ∧
        (Arkanoid.GameManager.brickCollision g).ball_y_dir = g.ball_y_dir * -1 ∧
        (Arkanoid.GameManager.brickCollision g).ball_x_dir = g.ball_x_dir ∧
        b.destroy.isDestroyed = true ∧
        b.destroy = { b with destroyed := true } ∧
        b.destroy.getRect = b.getRect ∧
        (Arkanoid.GameManager.brickCollision g).bricks.countP Arkanoid.Brick.isDestroyed
          = g.bricks.countP Arkanoid.Brick.isDestroyed + 1) ∧
    ((∀ p ∈ g.bricks, p.isDestroyed = true ∨ g.ball.getRect.intersects p.getRect = false) →
        (Arkanoid.GameManager.brickCollision g).bricks = g.bricks ∧
        (Arkanoid.GameManager.brickCollision g).ball_y_dir = g.ball_y_dir ∧
        (Arkanoid.GameManager.brickCollision g).ball_x_dir = g.ball_x_dir) ∧
    (Arkanoid.GameManager.brickCollision g).bricks.countP Arkanoid.Brick.isDestroyed
      ≤ g.bricks.countP Arkanoid.Brick.isDestroyed + 1 := by
  refine ⟨?_, ?_, ?_⟩
  · intro pre b post hsplit hpre hb hr
    have hs := Arkanoid.GameManager.scanBricks_hit g.ball.getRect b post hb hr pre hpre
    rw [← hsplit] at hs
    have hbricks : (Arkanoid.GameManager.brickCollision g).bricks = pre ++ b.destroy :: post := by
      simp [Arkanoid.GameManager.brickCollision, hs]
    have hflag : b.destroy.isDestroyed = true := rfl
    refine ⟨hbricks, by simp [Arkanoid.GameManager.brickCollision, hs],
      by simp [Arkanoid.GameManager.brickCollision, hs], hflag, rfl, rfl, ?_⟩
    rw [hbricks, hsplit, List.countP_append, List.countP_append,
      List.countP_cons_of_pos _ _ hflag,
      List.countP_cons_of_neg _ _ (by rw [hb]; exact Bool.false_ne_true)]
    omega
  · intro hall
    have hs := Arkanoid.GameManager.scanBricks_miss g.ball.getRect g.bricks hall
    simp [Arkanoid.GameManager.brickCollision, hs]
  · have hs := Arkanoid.GameManager.scanBricks_countP g.ball.getRect g.bricks
    simp only [Arkanoid.GameManager.brickCollision]
    split_ifs <;> exact hs

/-- Three bricks on the ball's cell, the first already destroyed: the scan destroys the
second, which is then flagged destroyed, and leaves the third; two bricks are destroyed
after the scan where one was before. -/
theorem C12_brick_scan_witness :
    (Arkanoid.GameManager.brickCollision Arkanoid.GameManager.overlappingBricks).bricks =
      [(Arkanoid.Brick.create 55 15 1 1).destroy] ++
        (Arkanoid.Brick.create 55 15 1 1).destroy :: [Arkanoid.Brick.create 55 15 1 1] ∧
    (Arkanoid.GameManager.brickCollision Arkanoid.GameManager.overlappingBricks).ball_y_dir =
      Arkanoid.GameManager.overlappingBricks.ball_y_dir * -1 ∧
    (Arkanoid.Brick.create 55 15 1 1).destroy.isDestroyed = true ∧
    (Arkanoid.GameManager.brickCollision
        Arkanoid.GameManager.overlappingBricks).bricks.countP Arkanoid.Brick.isDestroyed =
      Arkanoid.GameManager.overlappingBricks.bricks.countP Arkanoid.Brick.isDestroyed + 1 :=
  ⟨((C12_brick_scan_first_hit Arkanoid.GameManager.overlappingBricks).1
      [(Arkanoid.Brick.create 55 15 1 1).destroy] (Arkanoid.Brick.create 55 15 1 1)
      [Arkanoid.Brick.create 55 15 1 1] (by decide) (by decide) (by decide) (by decide)).1,
   ((C12_brick_scan_first_hit Arkanoid.GameManager.overlappingBricks).1
      [(Arkanoid.Brick.create 55 15 1 1).destroy] (Arkanoid.Brick.create 55 15 1 1)
      [Arkanoid.Brick.create 55 15 1 1] (by decide) (by decide) (by decide) (by decide)).2.1,
   ((C12_brick_scan_first_hit Arkanoid.GameManager.overlappingBricks).1
      [(Arkanoid.Brick.create 55 15 1 1).destroy] (Arkanoid.Brick.create 55 15 1 1)
      [Arkanoid.Brick.create 55 15 1 1] (by decide) (by decide) (by decide)
      (by decide)).2.2.2.1,
   ((C12_brick_scan_first_hit Arkanoid.GameManager.overlappingBricks).1
      [(Arkanoid.Brick.create 55 15 1 1).destroy] (Arkanoid.Brick.create 55 15 1 1)
      [Arkanoid.Brick.create 55 15 1 1] (by decide) (by decide) (by decide)
      (by decide)).2.2.2.2.2.2⟩

/-! ## Drawing a single cell and a filled box -/

namespace Arkanoid

theorem Window.checkWidthBound_eq (w : Window) (x : Int) (h : 0 ≤ x ∧ x < w.width) :
    w.checkWidthBound x = x := by
  simp only [Window.checkWidthBound]
  split_ifs <;> omega

theorem Window.checkHeightBound_eq (w : Window) (y : Int) (h : 0 ≤ y ∧ y < w.height) :
    w.checkHeightBound y = y := by
  simp only [Window.checkHeightBound]
  split_ifs <;> omega

theorem Window.checkWidthBound_mem (w : Window) (x : Int) (h : 1 ≤ w.width) :
    0 ≤ w.checkWidthBound x ∧ w.checkWidthBound x < w.width := by
  simp only [Window.checkWidthBound]
  split_ifs <;> omega

theorem Window.checkHeightBound_mem (w : Window) (y : Int) (h : 1 ≤ w.height) :
    0 ≤ w.checkHeightBound y ∧ w.checkHeightBound y < w.height := by
  simp only [Window.checkHeightBound]
  split_ifs <;> omega

theorem Window.mem_drawBoxWrites_filled (win : Window) (x y w h idx : Int) :
    idx ∈ win.drawBoxWrites x y w h true ↔
      ∃ i j, (0 ≤ i ∧ i ≤ win.checkHeightBound h - 1) ∧
        (0 ≤ j ∧ j ≤ win.checkWidthBound w - 1) ∧
        (win.checkHeightBound y + i) * win.width + (win.checkWidthBound x + j) = idx := by
  simp only [Window.drawBoxWrites, if_true, List.mem_flatMap, List.mem_map, mem_loopRange]
  constructor
  · rintro ⟨i, hi, j, hj, rfl⟩
    exact ⟨i, j, hi, hj, rfl⟩
  · rintro ⟨i, j, hi, hj, rfl⟩
    exact ⟨i, hi, j, hj, rfl⟩

end Arkanoid

/-- C17: on a grid with width and height at least 1, `drawChar x y g c` stores to exactly
one index, `clampY y * width + clampX x`, which lies in `[0, width * height)`; afterwards
that cell holds (g, c) and every other cell of the grid is unchanged; for (x, y) inside the
grid the cell is (x, y) itself. The routine of Window.h is the same function. -/
theorem C17_drawChar_one_cell (w : Arkanoid.Window) (x y : Int) (g c : Nat)
    (hsize : (w.buffer.length : Int) = w.width * w.height)
    (hw : 1 ≤ w.width) (hh : 1 ≤ w.height) :
    w.drawCharWrites x y = [w.checkHeightBound y * w.width + w.checkWidthBound x] ∧
    (0 ≤ w.checkHeightBound y * w.width + w.checkWidthBound x ∧
      w.checkHeightBound y * w.width + w.checkWidthBound x < w.width * w.height) ∧
    (w.drawChar x y g c).cellAt (w.checkWidthBound x) (w.checkHeightBound y) = some ⟨g, c⟩ ∧
    (∀ px py : Int, 0 ≤ px ∧ px < w.width → 0 ≤ py ∧ py < w.height →
      ¬ (px = w.checkWidthBound x ∧ py = w.checkHeightBound y) →
      (w.drawChar x y g c).cellAt px py = w.cellAt px py) ∧
    (0 ≤ x ∧ x < w.width → 0 ≤ y ∧ y < w.height →
      w.checkWidthBound x = x ∧ w.checkHeightBound y = y) ∧
    (∀ sw : SpaceShooter.Window, sw.toArkanoid = w →
      sw.drawCharWrites x y = w.drawCharWrites x y ∧
      (sw.drawChar x y g c).toArkanoid = w.drawChar x y g c) := by
  have hx := Arkanoid.Window.checkWidthBound_mem w x hw
  have hy := Arkanoid.Window.checkHeightBound_mem w y hh
  refine ⟨rfl, Arkanoid.index_in_range _ _ _ _ hx hy, ?_, ?_, ?_, ?_⟩
  · simp only [Arkanoid.Window.drawChar]
    rw [Arkanoid.cellAt_storeAll w _ _ _ _ hsize hx hy]
    simp [Arkanoid.Window.drawCharWrites]
  · intro px py hpx hpy hne
    simp only [Arkanoid.Window.drawChar]
    rw [Arkanoid.cellAt_storeAll w _ _ _ _ hsize hpx hpy, if_neg]
    simp only [Arkanoid.Window.drawCharWrites, List.mem_singleton]
    intro heq
    obtain ⟨e1, e2⟩ := Arkanoid.index_injective w.width _ _ _ _ hpx hx heq
    exact hne ⟨e1, e2⟩
  · intro h1 h2
    exact ⟨Arkanoid.Window.checkWidthBound_eq w x h1, Arkanoid.Window.checkHeightBound_eq w y h2⟩
  · rintro sw rfl
    exact ⟨rfl, rfl⟩

/-- A glyph drawn at (500, -3) in the blank 120 x 30 window lands in cell (119, 0). -/
theorem C17_drawChar_witness :
    Arkanoid.blankWindow.drawCharWrites 500 (-3) =
      [Arkanoid.blankWindow.checkHeightBound (-3) * Arkanoid.blankWindow.width
        + Arkanoid.blankWindow.checkWidthBound 500] ∧
    (Arkanoid.blankWindow.drawChar 500 (-3) 79 7).cellAt
      (Arkanoid.blankWindow.checkWidthBound 500) (Arkanoid.blankWindow.checkHeightBound (-3))
        = some ⟨79, 7⟩ :=
  ⟨(C17_drawChar_one_cell Arkanoid.blankWindow 500 (-3) 79 7
      (by simp only [Arkanoid.blankWindow, List.length_replicate]; decide)
      (by decide) (by decide)).1,
   (C17_drawChar_one_cell Arkanoid.blankWindow 500 (-3) 79 7
      (by simp only [Arkanoid.blankWindow, List.length_replicate]; decide)
      (by decide) (by decide)).2.2.1⟩

/-- C15 (amended): for a rectangle inside the grid that is narrower than the grid and lower
than the grid (`0 ≤ w < width`, `0 ≤ h < height`, `x, y ≥ 0`, `x + w ≤ width`,
`y + h ≤ height`), filled `drawBox` stores only inside the buffer, leaves every cell
(px, py) of the rectangle holding (g, c) and every other cell of the grid unchanged. The
routine of Window.h is the same function. -/
theorem C15_drawBox_filled (win : Arkanoid.Window) (x y w h : Int) (g c : Nat)
    (hsize : (win.buffer.length : Int) = win.width * win.height)
    (hx : 0 ≤ x) (hy : 0 ≤ y) (hw : 0 ≤ w ∧ w < win.width) (hh : 0 ≤ h ∧ h < win.height)
    (hxw : x + w ≤ win.width) (hyh : y + h ≤ win.height) :
    (∀ i ∈ win.drawBoxWrites x y w h true, 0 ≤ i ∧ i < win.width * win.height) ∧
    (∀ px py : Int, 0 ≤ px ∧ px < win.width → 0 ≤ py ∧ py < win.height →
      ((x ≤ px ∧ px < x + w) ∧ (y ≤ py ∧ py < y + h) →
        (win.drawBox x y w h g c true).cellAt px py = some ⟨g, c⟩) ∧
      (¬ ((x ≤ px ∧ px < x + w) ∧ (y ≤ py ∧ py < y + h)) →
        (win.drawBox x y w h g c true).cellAt px py = win.cellAt px py)) ∧
    (∀ sw : SpaceShooter.Window, sw.toArkanoid = win →
      sw.drawBoxWrites x y w h true = win.drawBoxWrites x y w h true ∧
      (sw.drawBox x y w h g c true).toArkanoid = win.drawBox x y w h g c true) := by
  have hcw : win.checkWidthBound w = w := Arkanoid.Window.checkWidthBound_eq win w hw
  have hch : win.checkHeightBound h = h := Arkanoid.Window.checkHeightBound_eq win h hh
  have hmem : ∀ idx, idx ∈ win.drawBoxWrites x y w h true ↔
      ∃ i j, (0 ≤ i ∧ i ≤ h - 1) ∧ (0 ≤ j ∧ j ≤ w - 1) ∧ (y + i) * win.width + (x + j) = idx := by
    intro idx
    rw [Arkanoid.Window.mem_drawBoxWrites_filled, hcw, hch]
    constructor
    · rintro ⟨i, j, hi, hj, he⟩
      rw [Arkanoid.Window.checkWidthBound_eq win x ⟨hx, by omega⟩,
        Arkanoid.Window.checkHeightBound_eq win y ⟨hy, by omega⟩] at he
      exact ⟨i, j, hi, hj, he⟩
    · rintro ⟨i, j, hi, hj, he⟩
      rw [← Arkanoid.Window.checkWidthBound_eq win x ⟨hx, by omega⟩,
        ← Arkanoid.Window.checkHeightBound_eq win y ⟨hy, by omega⟩] at he
      exact ⟨i, j, hi, hj, he⟩
  have hcell : ∀ px py : Int, 0 ≤ px ∧ px < win.width → 0 ≤ py ∧ py < win.height →
      (py * win.width + px ∈ win.drawBoxWrites x y w h true ↔
        (x ≤ px ∧ px < x + w) ∧ (y ≤ py ∧ py < y + h)) := by
    intro px py hpx hpy
    rw [hmem]
    constructor
    · rintro ⟨i, j, hi, hj, he⟩
      obtain ⟨e1, e2⟩ := Arkanoid.index_injective win.width (x + j) (y + i) px py
        ⟨by omega, by omega⟩ hpx he
      omega
    · rintro ⟨h1, h2⟩
      refine ⟨py - y, px - x, by omega, by omega, ?_⟩
      have e1 : y + (py - y) = py := by ring
      have e2 : x + (px - x) = px := by ring
      rw [e1, e2]
  refine ⟨?_, ?_, ?_⟩
  · intro idx hidx
    obtain ⟨i, j, hi, hj, rfl⟩ := (hmem idx).1 hidx
    exact Arkanoid.index_in_range win.width win.height _ _ ⟨by omega, by omega⟩
      ⟨by omega, by omega⟩
  · intro px py hpx hpy
    simp only [Arkanoid.Window.drawBox]
    rw [Arkanoid.cellAt_storeAll win _ _ px py hsize hpx hpy]
    exact ⟨fun hin => if_pos ((hcell px py hpx hpy).2 hin),
      fun hout => if_neg (fun hm => hout ((hcell px py hpx hpy).1 hm))⟩
  · rintro sw rfl
    exact ⟨rfl, rfl⟩

/-- C15 as stated fails: in the 4 x 3 grid the box at (0, 0) of width 4 and height 3 lies
inside the grid, yet after the filled `drawBox` the cell (3, 0) of its last column and the
cell (0, 2) of its last row are still blank: the extent goes through the coordinate clamp
and is cut to 3 x 2. -/
theorem C15_counterexample_full_size_box :
    ((0 : Int) + 4 ≤ Arkanoid.smallWindow.width ∧ (0 : Int) + 3 ≤ Arkanoid.smallWindow.height) ∧
    (Arkanoid.smallWindow.drawBox 0 0 4 3 35 7 true).cellAt 3 0 = some ⟨32, 0⟩ ∧
    (Arkanoid.smallWindow.drawBox 0 0 4 3 35 7 true).cellAt 0 2 = some ⟨32, 0⟩ ∧
    ¬ (Arkanoid.smallWindow.drawBox 0 0 4 3 35 7 true).cellAt 3 0 = some ⟨35, 7⟩ := by
  decide

/-- A 2 x 1 box at (1, 1) in the 4 x 3 grid: cell (2, 1) is stamped, cell (3, 1) is not. -/
theorem C15_drawBox_filled_witness :
    (Arkanoid.smallWindow.drawBox 1 1 2 1 35 7 true).cellAt 2 1 = some ⟨35, 7⟩ ∧
    (Arkanoid.smallWindow.drawBox 1 1 2 1 35 7 true).cellAt 3 1 =
      Arkanoid.smallWindow.cellAt 3 1 :=
  ⟨((C15_drawBox_filled Arkanoid.smallWindow 1 1 2 1 35 7 (by decide) (by decide) (by decide)
      (by decide) (by decide) (by decide) (by decide)).2.1 2 1 (by decide) (by decide)).1
      (by decide),
   ((C15_drawBox_filled Arkanoid.smallWindow 1 1 2 1 35 7 (by decide) (by decide) (by decide)
      (by decide) (by decide) (by decide) (by decide)).2.1 3 1 (by decide) (by decide)).2
      (by decide)⟩

/-! ## Stamping a mask and drawing an outline -/

namespace Arkanoid

theorem Window.mem_drawObjectWrites (win : Window) (arr : List Int) (w h x y idx : Int) :
    idx ∈ win.drawObjectWrites arr w h x y ↔
      ∃ i j, (0 ≤ i ∧ i ≤ win.checkHeightBound h - 1) ∧
        (0 ≤ j ∧ j ≤ win.checkWidthBound w - 1) ∧
        maskAt arr (i * win.checkWidthBound w + j) ≠ 0 ∧
        (win.checkHeightBound y + i) * win.width + (win.checkWidthBound x + j) = idx := by
  simp only [Window.drawObjectWrites, List.mem_flatMap, List.mem_filterMap, mem_loopRange]
  constructor
  · rintro ⟨i, hi, j, hj, he⟩
    split_ifs at he with hm
    exact ⟨i, j, hi, hj, hm, Option.some.inj he⟩
  · rintro ⟨i, j, hi, hj, hm, he⟩
    refine ⟨i, hi, j, hj, ?_⟩
    rw [if_pos hm, he]

theorem Window.mem_drawBoxWrites_outline (win : Window) (x y w h idx : Int) :
    idx ∈ win.drawBoxWrites x y w h false ↔
      (∃ i, (0 ≤ i ∧ i ≤ win.checkWidthBound w - 1) ∧
        (idx = win.checkHeightBound y * win.width + (win.checkWidthBound x + i) ∨
          idx = (win.checkHeightBound y + win.checkHeightBound h - 1) * win.width
            + (win.checkWidthBound x + i))) ∨
      (∃ i, (0 ≤ i ∧ i ≤ win.checkHeightBound h - 1) ∧
        (idx = (win.checkHeightBound y + i) * win.width + win.checkWidthBound x ∨
          idx = (win.checkHeightBound y + i) * win.width
            + (win.checkWidthBound x + win.checkWidthBound w - 1))) := by
  simp only [Window.drawBoxWrites, Bool.false_eq_true, if_false, List.mem_append,
    List.mem_flatMap, mem_loopRange, List.mem_cons, List.mem_singleton, List.not_mem_nil,
    or_false]

end Arkanoid

/-- C19: for a `w` x `h` mask with `0 ≤ w < width` and `0 ≤ h < height` placed inside the
grid, `drawObject` reads only inside the mask and stores only inside the buffer; afterwards
the cell (x + j, y + i) holds (g, c) when `mask[i * w + j] ≠ 0` and is unchanged when it is 0,
and every cell of the grid outside the `w` x `h` window is unchanged. -/
theorem C19_drawObject_stamps_mask (win : Arkanoid.Window) (arr : List Int) (w h x y : Int)
    (g c : Nat) (hsize : (win.buffer.length : Int) = win.width * win.height)
    (hmask : (arr.length : Int) = w * h)
    (hw : 0 ≤ w ∧ w < win.width) (hh : 0 ≤ h ∧ h < win.height) (hx : 0 ≤ x) (hy : 0 ≤ y)
    (hxw : x + w ≤ win.width) (hyh : y + h ≤ win.height) :
    (∀ i ∈ win.drawObjectWrites arr w h x y, 0 ≤ i ∧ i < win.width * win.height) ∧
    (∀ i j : Int, 0 ≤ i ∧ i < h → 0 ≤ j ∧ j < w →
      (0 ≤ i * w + j ∧ i * w + j < (arr.length : Int)) ∧
      (Arkanoid.Window.maskAt arr (i * w + j) ≠ 0 →
        (win.drawObject arr w h x y g c).cellAt (x + j) (y + i) = some ⟨g, c⟩) ∧
      (Arkanoid.Window.maskAt arr (i * w + j) = 0 →
        (win.drawObject arr w h x y g c).cellAt (x + j) (y + i) = win.cellAt (x + j) (y + i))) ∧
    (∀ px py : Int, 0 ≤ px ∧ px < win.width → 0 ≤ py ∧ py < win.height →
      ¬ ((x ≤ px ∧ px < x + w) ∧ (y ≤ py ∧ py < y + h)) →
      (win.drawObject arr w h x y g c).cellAt px py = win.cellAt px py) := by
  have hcw : win.checkWidthBound w = w := Arkanoid.Window.checkWidthBound_eq win w hw
  have hch : win.checkHeightBound h = h := Arkanoid.Window.checkHeightBound_eq win h hh
  have hmem : ∀ idx, idx ∈ win.drawObjectWrites arr w h x y ↔
      ∃ i j, (0 ≤ i ∧ i ≤ h - 1) ∧ (0 ≤ j ∧ j ≤ w - 1) ∧ Arkanoid.Window.maskAt arr (i * w + j) ≠ 0 ∧
        (y + i) * win.width + (x + j) = idx := by
    intro idx
    rw [Arkanoid.Window.mem_drawObjectWrites, hcw, hch]
    constructor
    · rintro ⟨i, j, hi, hj, hm, he⟩
      rw [Arkanoid.Window.checkWidthBound_eq win x ⟨hx, by omega⟩,
        Arkanoid.Window.checkHeightBound_eq win y ⟨hy, by omega⟩] at he
      exact ⟨i, j, hi, hj, hm, he⟩
    · rintro ⟨i, j, hi, hj, hm, he⟩
      rw [← Arkanoid.Window.checkWidthBound_eq win x ⟨hx, by omega⟩,
        ← Arkanoid.Window.checkHeightBound_eq win y ⟨hy, by omega⟩] at he
      exact ⟨i, j, hi, hj, hm, he⟩
  have hcell : ∀ i j : Int, 0 ≤ i ∧ i < h → 0 ≤ j ∧ j < w →
      ((y + i) * win.width + (x + j) ∈ win.drawObjectWrites arr w h x y ↔
        Arkanoid.Window.maskAt arr (i * w + j) ≠ 0) := by
    intro i j hi hj
    rw [hmem]
    constructor
    · rintro ⟨i', j', hi', hj', hm, he⟩
      obtain ⟨e1, e2⟩ := Arkanoid.index_injective win.width (x + j') (y + i') (x + j) (y + i)
        ⟨by omega, by omega⟩ ⟨by omega, by omega⟩ he
      have ej : j' = j := by omega
      have ei : i' = i := by omega
      rw [← ej, ← ei]
      exact hm
    · intro hm
      exact ⟨i, j, by omega, by omega, hm, rfl⟩
  refine ⟨?_, ?_, ?_⟩
  · intro idx hidx
    obtain ⟨i, j, hi, hj, -, rfl⟩ := (hmem idx).1 hidx
    exact Arkanoid.index_in_range win.width win.height _ _ ⟨by omega, by omega⟩
      ⟨by omega, by omega⟩
  · intro i j hi hj
    have hgx : 0 ≤ x + j ∧ x + j < win.width := ⟨by omega, by omega⟩
    have hgy : 0 ≤ y + i ∧ y + i < win.height := ⟨by omega, by omega⟩
    refine ⟨?_, ?_, ?_⟩
    · rw [hmask]
      exact Arkanoid.index_in_range w h j i hj hi
    · intro hm
      simp only [Arkanoid.Window.drawObject]
      rw [Arkanoid.cellAt_storeAll win _ _ _ _ hsize hgx hgy, if_pos ((hcell i j hi hj).2 hm)]
    · intro hm
      simp only [Arkanoid.Window.drawObject]
      rw [Arkanoid.cellAt_storeAll win _ _ _ _ hsize hgx hgy,
        if_neg (fun hin => (hcell i j hi hj).1 hin hm)]
  · intro px py hpx hpy hout
    simp only [Arkanoid.Window.drawObject]
    rw [Arkanoid.cellAt_storeAll win _ _ px py hsize hpx hpy, if_neg]
    intro hin
    obtain ⟨i, j, hi, hj, -, he⟩ := (hmem _).1 hin
    obtain ⟨e1, e2⟩ := Arkanoid.index_injective win.width (x + j) (y + i) px py
      ⟨by omega, by omega⟩ hpx he
    apply hout
    omega

/-- The paddle of the started game, 10 x 1 at (60, 29), drawn with `'='` into the blank
120 x 30 window: the cell (63, 29) holds the glyph. -/
theorem C19_drawObject_witness :
    (Arkanoid.blankWindow.drawObject Arkanoid.GameManager.initial._paddle._shape 10 1 60 29
      61 7).cellAt (60 + 3) (29 + 0) = some ⟨61, 7⟩ :=
  ((C19_drawObject_stamps_mask Arkanoid.blankWindow
      Arkanoid.GameManager.initial._paddle._shape 10 1 60 29 61 7
      (by simp only [Arkanoid.blankWindow, List.length_replicate]; decide)
      (by decide) (by decide) (by decide) (by decide) (by decide) (by decide)
      (by decide)).2.1 0 3 (by decide) (by decide)).2.1 (by decide)

/-- C20: for a rectangle inside the grid with `1 ≤ w < width` and `1 ≤ h < height`, outline
`drawBox` stores only inside the buffer; a cell of the grid is stored to exactly when it lies
on the rectangle's top row, bottom row, left column or right column, such a cell then holds
(g, c), and interior cells and cells outside the rectangle are unchanged. The routine of
Window.h is the same function. -/
theorem C20_drawBox_outline (win : Arkanoid.Window) (x y w h : Int) (g c : Nat)
    (hsize : (win.buffer.length : Int) = win.width * win.height)
    (hx : 0 ≤ x) (hy : 0 ≤ y) (hw : 1 ≤ w ∧ w < win.width) (hh : 1 ≤ h ∧ h < win.height)
    (hxw : x + w ≤ win.width) (hyh : y + h ≤ win.height) :
    (∀ i ∈ win.drawBoxWrites x y w h false, 0 ≤ i ∧ i < win.width * win.height) ∧
    (∀ px py : Int, 0 ≤ px ∧ px < win.width → 0 ≤ py ∧ py < win.height →
      (py * win.width + px ∈ win.drawBoxWrites x y w h false ↔
        ((x ≤ px ∧ px < x + w) ∧ (y ≤ py ∧ py < y + h)) ∧
          (py = y ∨ py = y + h - 1 ∨ px = x ∨ px = x + w - 1)) ∧
      (((x ≤ px ∧ px < x + w) ∧ (y ≤ py ∧ py < y + h)) ∧
          (py = y ∨ py = y + h - 1 ∨ px = x ∨ px = x + w - 1) →
        (win.drawBox x y w h g c false).cellAt px py = some ⟨g, c⟩) ∧
      (¬ (((x ≤ px ∧ px < x + w) ∧ (y ≤ py ∧ py < y + h)) ∧
          (py = y ∨ py = y + h - 1 ∨ px = x ∨ px = x + w - 1)) →
        (win.drawBox x y w h g c false).cellAt px py = win.cellAt px py)) ∧
    (∀ sw : SpaceShooter.Window, sw.toArkanoid = win →
      sw.drawBoxWrites x y w h false = win.drawBoxWrites x y w h false ∧
      (sw.drawBox x y w h g c false).toArkanoid = win.drawBox x y w h g c false) := by
  have hcw : win.checkWidthBound w = w := Arkanoid.Window.checkWidthBound_eq win w ⟨by omega, hw.2⟩
  have hch : win.checkHeightBound h = h :=
    Arkanoid.Window.checkHeightBound_eq win h ⟨by omega, hh.2⟩
  have hcx : win.checkWidthBound x = x := Arkanoid.Window.checkWidthBound_eq win x ⟨hx, by omega⟩
  have hcy : win.checkHeightBound y = y := Arkanoid.Window.checkHeightBound_eq win y ⟨hy, by omega⟩
  have hinj : ∀ (a b px py : Int), 0 ≤ px ∧ px < win.width → 0 ≤ a ∧ a < win.width →
      py * win.width + px = b * win.width + a → px = a ∧ py = b := by
    intro a b px py hpx ha he
    exact Arkanoid.index_injective win.width px py a b hpx ha he
  have hcell : ∀ px py : Int, 0 ≤ px ∧ px < win.width → 0 ≤ py ∧ py < win.height →
      (py * win.width + px ∈ win.drawBoxWrites x y w h false ↔
        ((x ≤ px ∧ px < x + w) ∧ (y ≤ py ∧ py < y + h)) ∧
          (py = y ∨ py = y + h - 1 ∨ px = x ∨ px = x + w - 1)) := by
    intro px py hpx hpy
    rw [Arkanoid.Window.mem_drawBoxWrites_outline, hcw, hch, hcx, hcy]
    constructor
    · rintro (⟨i, hi, he | he⟩ | ⟨i, hi, he | he⟩)
      · obtain ⟨e1, e2⟩ := hinj (x + i) y px py hpx ⟨by omega, by omega⟩ he
        omega
      · obtain ⟨e1, e2⟩ := hinj (x + i) (y + h - 1) px py hpx ⟨by omega, by omega⟩ he
        omega
      · obtain ⟨e1, e2⟩ := hinj x (y + i) px py hpx ⟨by omega, by omega⟩ he
        omega
      · obtain ⟨e1, e2⟩ := hinj (x + w - 1) (y + i) px py hpx ⟨by omega, by omega⟩ he
        omega
    · rintro ⟨⟨h1, h2⟩, hb | hb | hb | hb⟩
      · refine Or.inl ⟨px - x, by omega, Or.inl ?_⟩
        rw [hb]
        ring
      · refine Or.inl ⟨px - x, by omega, Or.inr ?_⟩
        rw [hb]
        ring
      · refine Or.inr ⟨py - y, by omega, Or.inl ?_⟩
        rw [hb]
        ring
      · refine Or.inr ⟨py - y, by omega, Or.inr ?_⟩
        rw [hb]
        ring
  refine ⟨?_, ?_, ?_⟩
  · intro idx hidx
    rw [Arkanoid.Window.mem_drawBoxWrites_outline, hcw, hch, hcx, hcy] at hidx
    rcases hidx with ⟨i, hi, rfl | rfl⟩ | ⟨i, hi, rfl | rfl⟩
    · exact Arkanoid.index_in_range win.width win.height _ _ ⟨by omega, by omega⟩
        ⟨by omega, by omega⟩
    · exact Arkanoid.index_in_range win.width win.height _ _ ⟨by omega, by omega⟩
        ⟨by omega, by omega⟩
    · exact Arkanoid.index_in_range win.width win.height _ _ ⟨by omega, by omega⟩
        ⟨by omega, by omega⟩
    · exact Arkanoid.index_in_range win.width win.height _ _ ⟨by omega, by omega⟩
        ⟨by omega, by omega⟩
  · intro px py hpx hpy
    refine ⟨hcell px py hpx hpy, ?_, ?_⟩
    · intro hin
      simp only [Arkanoid.Window.drawBox]
      rw [Arkanoid.cellAt_storeAll win _ _ px py hsize hpx hpy,
        if_pos ((hcell px py hpx hpy).2 hin)]
    · intro hout
      simp only [Arkanoid.Window.drawBox]
      rw [Arkanoid.cellAt_storeAll win _ _ px py hsize hpx hpy,
        if_neg (fun hm => hout ((hcell px py hpx hpy).1 hm))]
  · rintro sw rfl
    exact ⟨rfl, rfl⟩

/-- A 4 x 3 outline at (10, 5) in the blank 120 x 30 window: the corner (13, 7) is stamped,
the interior cell (11, 6) is not. -/
theorem C20_drawBox_outline_witness :
    (Arkanoid.blankWindow.drawBox 10 5 4 3 35 7 false).cellAt 13 7 = some ⟨35, 7⟩ ∧
    (Arkanoid.blankWindow.drawBox 10 5 4 3 35 7 false).cellAt 11 6 =
      Arkanoid.blankWindow.cellAt 11 6 :=
  ⟨((C20_drawBox_outline Arkanoid.blankWindow 10 5 4 3 35 7
      (by simp only [Arkanoid.blankWindow, List.length_replicate]; decide)
      (by decide) (by decide) (by decide) (by decide) (by decide) (by decide)).2.1 13 7
      (by decide) (by decide)).2.1 (by decide),
   ((C20_drawBox_outline Arkanoid.blankWindow 10 5 4 3 35 7
      (by simp only [Arkanoid.blankWindow, List.length_replicate]; decide)
      (by decide) (by decide) (by decide) (by decide) (by decide) (by decide)).2.1 11 6
      (by decide) (by decide)).2.2 (by decide)⟩

/-- C16 (the code departs from it): in the 120 x 30 window, whose buffer has the indices
0..3599, the filled `drawBox(119, 29, 2, 1)` stores to index 3600, the outline
`drawBox(0, 0, 2, 0)` stores to index -120, and `drawObject` of the 10 x 1 paddle at
(111, 29) stores to index 3600: each argument is clamped on its own, the stored cell
(x + j, y + i) is not. -/
theorem C16_stores_outside_the_buffer :
    (1 ≤ Arkanoid.blankWindow.width ∧ 1 ≤ Arkanoid.blankWindow.height) ∧
    Arkanoid.blankWindow.width * Arkanoid.blankWindow.height = 3600 ∧
    Arkanoid.blankWindow.drawBoxWrites 119 29 2 1 true = [3599, 3600] ∧
    Arkanoid.blankWindow.drawBoxWrites 0 0 2 0 false = [0, -120, 1, -119] ∧
    Arkanoid.blankWindow.drawObjectWrites Arkanoid.GameManager.initial._paddle._shape
      10 1 111 29 = [3591, 3592, 3593, 3594, 3595, 3596, 3597, 3598, 3599, 3600] := by
  decide

/-! ## The line loop -/

namespace Arkanoid

theorem lineStep_inv (x1 y1 dx dy sx sy : Int) (s : LineState)
    (hinv : LineInv x1 y1 dx dy sx sy s) (hnf : ¬ (s.x0 = x1 ∧ s.y0 = y1)) :
    LineInv x1 y1 dx dy sx sy (lineStep dx dy sx sy s) ∧
    lineRemaining x1 y1 sx sy (lineStep dx dy sx sy s) < lineRemaining x1 y1 sx sy s := by
  obtain ⟨hsx, hsy, hx0, hx1, hy0, hy1, herr⟩ := hinv
  have hsx2 : sx * sx = 1 := by rcases hsx with h | h <;> rw [h] <;> norm_num
  have hsy2 : sy * sy = 1 := by rcases hsy with h | h <;> rw [h] <;> norm_num
  have hstepx : sx * (x1 - (s.x0 + sx)) = sx * (x1 - s.x0) - 1 := by
    linear_combination -hsx2
  have hstepy : sy * (y1 - (s.y0 + sy)) = sy * (y1 - s.y0) - 1 := by
    linear_combination -hsy2
  have hpos : 1 ≤ sx * (x1 - s.x0) ∨ 1 ≤ sy * (y1 - s.y0) := by
    by_contra hc
    push_neg at hc
    apply hnf
    constructor
    · rcases hsx with h | h <;> rw [h] at hx0 hc <;> omega
    · rcases hsy with h | h <;> rw [h] at hy0 hc <;> omega
  generalize hrx : sx * (x1 - s.x0) = rx at *
  generalize hry : sy * (y1 - s.y0) = ry at *
  -- an x step is taken only while x steps remain, a y step only while y steps remain
  have hxok : 2 * s.err ≥ dy → 1 ≤ rx := by
    intro hc
    by_contra hlt
    have hrx0 : rx = 0 := by omega
    have hry1 : 1 ≤ ry := by omega
    have hp : 0 ≤ (ry - 1) * dx := mul_nonneg (by omega) (by omega)
    rw [hrx0] at herr
    nlinarith
  have hyok : 2 * s.err ≤ dx → 1 ≤ ry := by
    intro hc
    by_contra hlt
    have hry0 : ry = 0 := by omega
    have hrx1 : 1 ≤ rx := by omega
    have hp : 0 ≤ (rx - 1) * (-dy) := mul_nonneg (by omega) (by omega)
    rw [hry0] at herr
    nlinarith
  by_cases cx : 2 * s.err ≥ dy <;> by_cases cy : 2 * s.err ≤ dx
  · have h1 := hxok cx
    have h2 := hyok cy
    simp only [lineStep, cx, cy, if_true, LineInv, lineRemaining, hstepx, hstepy, hrx, hry]
    refine ⟨⟨hsx, hsy, by omega, by omega, by omega, by omega, ?_⟩, by omega⟩
    rw [herr]; ring
  · have h1 := hxok cx
    simp only [lineStep, cx, cy, if_true, if_false, LineInv, lineRemaining, hstepx, hrx, hry]
    refine ⟨⟨hsx, hsy, by omega, by omega, by omega, by omega, ?_⟩, by omega⟩
    rw [herr]; ring
  · have h2 := hyok cy
    simp only [lineStep, cx, cy, if_true, if_false, LineInv, lineRemaining, hstepy, hrx, hry]
    refine ⟨⟨hsx, hsy, by omega, by omega, by omega, by omega, ?_⟩, by omega⟩
    rw [herr]; ring
  · exfalso
    omega

end Arkanoid

namespace Arkanoid

/-- With more fuel than steps to go, the loop of `drawLine` breaks; the points it plots
start at the current point and end at (x1, y1). -/
theorem linePointsLoop_some (x1 y1 dx dy sx sy : Int) :
    ∀ (fuel : Nat) (s : LineState), LineInv x1 y1 dx dy sx sy s →
      lineRemaining x1 y1 sx sy s < (fuel : Int) →
      ∃ pts, linePointsLoop x1 y1 dx dy sx sy fuel s = some pts ∧
        (∃ rest, pts = (s.x0, s.y0) :: rest) ∧ (∃ init, pts = init ++ [(x1, y1)]) ∧
        (s.x0 = x1 ∧ s.y0 = y1 → pts = [(x1, y1)]) := by
  intro fuel
  induction fuel with
  | zero =>
    intro s hinv hrem
    obtain ⟨-, -, hx0, -, hy0, -, -⟩ := hinv
    simp only [lineRemaining] at hrem
    have : (0 : Int) ≤ sx * (x1 - s.x0) + sy * (y1 - s.y0) := by omega
    simp at hrem
    omega
  | succ n ih =>
    intro s hinv hrem
    by_cases hfin : s.x0 = x1 ∧ s.y0 = y1
    · refine ⟨[(s.x0, s.y0)], ?_, ⟨[], rfl⟩, ⟨[], ?_⟩, fun _ => ?_⟩
      · simp only [linePointsLoop, hfin, and_self, if_true]
      · rw [hfin.1, hfin.2]; rfl
      · rw [hfin.1, hfin.2]
    · obtain ⟨hinv', hlt⟩ := lineStep_inv x1 y1 dx dy sx sy s hinv hfin
      have hrem' : lineRemaining x1 y1 sx sy (lineStep dx dy sx sy s) < (n : Int) := by
        push_cast at hrem
        omega
      obtain ⟨pts, hpts, -, ⟨init, hinit⟩, -⟩ := ih _ hinv' hrem'
      refine ⟨(s.x0, s.y0) :: pts, ?_, ⟨pts, rfl⟩, ⟨(s.x0, s.y0) :: init, ?_⟩,
        fun h => absurd h hfin⟩
      · simp only [linePointsLoop, hfin, if_false, hpts, Option.map_some']
      · rw [hinit]; rfl

/-- The loop variables at entry satisfy the invariant, with as many steps to go as the two
axis distances together. -/
theorem lineInv_initial (x0 y0 x1 y1 : Int) :
    LineInv x1 y1 |x1 - x0| (-|y1 - y0|) (if x0 < x1 then 1 else -1)
      (if y0 < y1 then 1 else -1) ⟨x0, y0, |x1 - x0| + -|y1 - y0|⟩ ∧
    lineRemaining x1 y1 (if x0 < x1 then 1 else -1) (if y0 < y1 then 1 else -1)
      ⟨x0, y0, |x1 - x0| + -|y1 - y0|⟩ = |x1 - x0| + |y1 - y0| := by
  have hx : (if x0 < x1 then (1 : Int) else -1) * (x1 - x0) = |x1 - x0| := by
    split_ifs with h
    · rw [abs_of_nonneg (by omega)]; ring
    · rw [abs_of_nonpos (by omega)]; ring
  have hy : (if y0 < y1 then (1 : Int) else -1) * (y1 - y0) = |y1 - y0| := by
    split_ifs with h
    · rw [abs_of_nonneg (by omega)]; ring
    · rw [abs_of_nonpos (by omega)]; ring
  have ax := abs_nonneg (x1 - x0)
  have ay := abs_nonneg (y1 - y0)
  simp only [LineInv, lineRemaining, hx, hy]
  refine ⟨⟨?_, ?_, ax, le_refl _, ay, by omega, by ring⟩, trivial⟩
  · split_ifs <;> simp
  · split_ifs <;> simp

/-- The loop of `drawLine` breaks within `lineFuel` passes, for all endpoints. -/
theorem drawLinePoints_some (fuel : Nat) (x0 y0 x1 y1 : Int)
    (hfuel : lineFuel x0 y0 x1 y1 ≤ fuel) :
    ∃ pts, drawLinePoints fuel x0 y0 x1 y1 = some pts ∧
      (∃ rest, pts = (x0, y0) :: rest) ∧ (∃ init, pts = init ++ [(x1, y1)]) ∧
      (x0 = x1 ∧ y0 = y1 → pts = [(x1, y1)]) := by
  obtain ⟨hinv, hrem⟩ := lineInv_initial x0 y0 x1 y1
  have ax := abs_nonneg (x1 - x0)
  have ay := abs_nonneg (y1 - y0)
  have hlt : lineRemaining x1 y1 (if x0 < x1 then 1 else -1) (if y0 < y1 then 1 else -1)
      ⟨x0, y0, |x1 - x0| + -|y1 - y0|⟩ < (fuel : Int) := by
    rw [hrem]
    have : ((lineFuel x0 y0 x1 y1 : Nat) : Int) = |x1 - x0| + |y1 - y0| + 1 := by
      simp only [lineFuel]
      exact Int.toNat_of_nonneg (by omega)
    have h2 : ((lineFuel x0 y0 x1 y1 : Nat) : Int) ≤ (fuel : Int) := by exact_mod_cast hfuel
    omega
  exact linePointsLoop_some x1 y1 _ _ _ _ fuel _ hinv hlt

end Arkanoid

namespace Arkanoid

/-- A run of `drawChar` calls with one glyph is a run of stores at the clamped cells. -/
theorem Window.foldl_drawChar (g c : Nat) : ∀ (pts : List (Int × Int)) (win : Window),
    pts.foldl (fun wn p => wn.drawChar p.1 p.2 g c) win =
      { win with
        buffer := storeAll win.buffer (pts.flatMap fun p => win.drawCharWrites p.1 p.2) ⟨g, c⟩ } := by
  intro pts
  induction pts with
  | nil => intro win; rfl
  | cons p rest ih =>
    intro win
    rw [List.foldl_cons, ih]
    simp only [Window.drawChar, List.flatMap_cons, storeAll, List.foldl_append]
    rfl

end Arkanoid

namespace SpaceShooter

theorem Window.foldl_drawChar_toArkanoid (g c : Nat) :
    ∀ (pts : List (Int × Int)) (sw : Window),
      (pts.foldl (fun wn p => wn.drawChar p.1 p.2 g c) sw).toArkanoid =
        pts.foldl (fun wn p => Arkanoid.Window.drawChar wn p.1 p.2 g c) sw.toArkanoid := by
  intro pts
  induction pts with
  | nil => intro sw; rfl
  | cons p rest ih =>
    intro sw
    rw [List.foldl_cons, List.foldl_cons, ih]
    rfl

end SpaceShooter

/-- C18: for all integer endpoints the loop of `drawLine` breaks (any number of passes from
`lineFuel` on is enough), the points it plots start with (x0, y0) and end with (x1, y1), and
equal endpoints give the single point; when both endpoints are inside the grid the cells
(x0, y0) and (x1, y1) hold the line glyph afterwards, and for equal endpoints no other cell
of the grid changes. The routine of Window.h gives the same window. -/
theorem C18_drawLine_terminates (win : Arkanoid.Window) (x0 y0 x1 y1 : Int) (g c : Nat)
    (fuel : Nat) (hfuel : Arkanoid.lineFuel x0 y0 x1 y1 ≤ fuel) :
    ∃ pts win', Arkanoid.drawLinePoints fuel x0 y0 x1 y1 = some pts ∧
      win.drawLine fuel x0 y0 x1 y1 g c = some win' ∧
      (∃ rest, pts = (x0, y0) :: rest) ∧ (∃ init, pts = init ++ [(x1, y1)]) ∧
      (x0 = x1 ∧ y0 = y1 → pts = [(x0, y0)]) ∧
      ((win.buffer.length : Int) = win.width * win.height →
        0 ≤ x0 ∧ x0 < win.width → 0 ≤ y0 ∧ y0 < win.height →
        0 ≤ x1 ∧ x1 < win.width → 0 ≤ y1 ∧ y1 < win.height →
          win'.cellAt x0 y0 = some ⟨g, c⟩ ∧ win'.cellAt x1 y1 = some ⟨g, c⟩ ∧
          (x0 = x1 ∧ y0 = y1 → ∀ px py : Int, 0 ≤ px ∧ px < win.width →
            0 ≤ py ∧ py < win.height → ¬ (px = x0 ∧ py = y0) →
            win'.cellAt px py = win.cellAt px py)) ∧
      (∀ sw : SpaceShooter.Window, sw.toArkanoid = win →
        (sw.drawLine fuel x0 y0 x1 y1 g c).map SpaceShooter.Window.toArkanoid = some win') := by
  obtain ⟨pts, hpts, ⟨rest, hrest⟩, ⟨init, hinit⟩, hsingle⟩ :=
    Arkanoid.drawLinePoints_some fuel x0 y0 x1 y1 hfuel
  refine ⟨pts, pts.foldl (fun wn p => wn.drawChar p.1 p.2 g c) win, hpts, ?_, ⟨rest, hrest⟩,
    ⟨init, hinit⟩, ?_, ?_, ?_⟩
  · simp only [Arkanoid.Window.drawLine, hpts, Option.map_some']
  · intro h
    rw [hsingle h, h.1, h.2]
  · intro hsize hx0 hy0 hx1 hy1
    rw [Arkanoid.Window.foldl_drawChar]
    have hwr : ∀ (px py : Int), 0 ≤ px ∧ px < win.width → 0 ≤ py ∧ py < win.height →
        win.drawCharWrites px py = [py * win.width + px] := by
      intro px py hpx hpy
      simp only [Arkanoid.Window.drawCharWrites, Arkanoid.Window.checkWidthBound_eq win px hpx,
        Arkanoid.Window.checkHeightBound_eq win py hpy]
    refine ⟨?_, ?_, ?_⟩
    · rw [Arkanoid.cellAt_storeAll win _ _ x0 y0 hsize hx0 hy0, if_pos]
      rw [List.mem_flatMap]
      exact ⟨(x0, y0), by rw [hrest]; exact List.mem_cons_self _ _,
        by rw [hwr x0 y0 hx0 hy0]; exact List.mem_singleton_self _⟩
    · rw [Arkanoid.cellAt_storeAll win _ _ x1 y1 hsize hx1 hy1, if_pos]
      rw [List.mem_flatMap]
      exact ⟨(x1, y1), by rw [hinit]; simp,
        by rw [hwr x1 y1 hx1 hy1]; exact List.mem_singleton_self _⟩
    · intro heq px py hpx hpy hne
      rw [Arkanoid.cellAt_storeAll win _ _ px py hsize hpx hpy, if_neg]
      rw [hsingle heq, ← heq.1, ← heq.2]
      simp only [List.flatMap_cons, List.flatMap_nil, List.append_nil, hwr x0 y0 hx0 hy0,
        List.mem_singleton]
      intro he
      obtain ⟨e1, e2⟩ := Arkanoid.index_injective win.width px py x0 y0 hpx hx0 he
      exact hne ⟨e1, e2⟩
  · rintro sw rfl
    simp only [SpaceShooter.Window.drawLine, hpts, Option.map_some',
      SpaceShooter.Window.foldl_drawChar_toArkanoid]

set_option maxRecDepth 100000 in
/-- The line from (0, 0) to (5, 2) in the blank 120 x 30 window, with 20 passes allowed:
the loop breaks and both end cells hold the glyph. -/
theorem C18_drawLine_witness :
    ∃ pts win', Arkanoid.drawLinePoints 20 0 0 5 2 = some pts ∧
      Arkanoid.blankWindow.drawLine 20 0 0 5 2 42 7 = some win' ∧
      win'.cellAt 0 0 = some ⟨42, 7⟩ ∧ win'.cellAt 5 2 = some ⟨42, 7⟩ :=
  match C18_drawLine_terminates Arkanoid.blankWindow 0 0 5 2 42 7 20 (by decide) with
  | ⟨pts, win', h1, h2, _, _, _, h6, _⟩ =>
    ⟨pts, win', h1, h2,
      (h6 (by simp only [Arkanoid.blankWindow, List.length_replicate]; decide)
        (by decide) (by decide) (by decide) (by decide)).1,
      (h6 (by simp only [Arkanoid.blankWindow, List.length_replicate]; decide)
        (by decide) (by decide) (by decide) (by decide)).2.1⟩

/-! ## Loss, pacing and game over -/

namespace Arkanoid

/-- The paddle test leaves everything but the directions, `ballDestroy` and `lives` alone;
the last two change exactly in the loss branch. -/
theorem GameManager.paddleBounce_frame (g : GameManager) (next : Rect) :
    (GameManager.paddleBounce g next).bricks = g.bricks ∧
    (GameManager.paddleBounce g next).input = g.input ∧
    (GameManager.paddleBounce g next).ball = g.ball ∧
    (GameManager.paddleBounce g next)._paddle = g._paddle ∧
    (GameManager.paddleBounce g next)._window = g._window ∧
    (GameManager.paddleBounce g next).speed = g.speed ∧
    (GameManager.paddleBounce g next).lives =
      (if (!next.intersects g._paddle.getRect &&
          checkYBound g._window g.ball.getRect.bottom) = true
        then g.lives - 1 else g.lives) ∧
    (GameManager.paddleBounce g next).ballDestroy =
      (if (!next.intersects g._paddle.getRect &&
          checkYBound g._window g.ball.getRect.bottom) = true
        then true else g.ballDestroy) := by
  simp only [GameManager.paddleBounce]
  by_cases hc : next.intersects g._paddle.getRect = true
  · simp only [hc, if_true, Bool.not_true, Bool.false_and, Bool.false_eq_true, if_false]
    split_ifs <;> simp
  · have hc' : next.intersects g._paddle.getRect = false := by simpa using hc
    by_cases hf : checkYBound g._window g.ball.getRect.bottom = true
    · simp [hc', hf]
    · have hf' : checkYBound g._window g.ball.getRect.bottom = false := by simpa using hf
      simp [hc', hf']

/-- The state after the collision section, field by field. -/
theorem GameManager.afterCollision_frame (g : GameManager) (hw : Int → Bool) :
    (GameManager.afterCollision g hw).lives =
      (if GameManager.lossDetected g hw = true then g.lives - 1 else g.lives) ∧
    (GameManager.afterCollision g hw).ballDestroy = GameManager.lossDetected g hw ∧
    (GameManager.afterCollision g hw).bricks.isEmpty = g.bricks.isEmpty ∧
    (GameManager.afterCollision g hw).input = g.input.update hw ∧
    (GameManager.afterCollision g hw).ball = g.ball ∧
    (GameManager.afterCollision g hw)._window = g._window := by
  obtain ⟨a1, a2, a3, a4, a5, a6⟩ := GameManager.atCollision_frame g hw
  obtain ⟨c1, c2, c3, c4, c5, -, c7, c8, -⟩ :=
    GameManager.ceilingCheck_frame (GameManager.atCollision g hw)
  obtain ⟨p1, p2, p3, p4, p5, -, p7, p8⟩ := GameManager.paddleBounce_frame
    (GameManager.ceilingCheck (GameManager.atCollision g hw))
    (GameManager.nextBallRect (GameManager.atCollision g hw))
  obtain ⟨b1, b2, b3, b4, -, -, b7, b8, -⟩ := GameManager.brickCollision_frame
    (GameManager.paddleBounce (GameManager.ceilingCheck (GameManager.atCollision g hw))
      (GameManager.nextBallRect (GameManager.atCollision g hw)))
  simp only [GameManager.afterCollision]
  rw [b1, b2, b3, b4, b7, b8, p1, p2, p3, p5, p7, p8, c1, c2, c3, c4, c5, c7, c8,
    a1, a2, a3, a4, a5, a6]
  have hl : GameManager.lossDetected g hw =
      (!(GameManager.nextBallRect (GameManager.atCollision g hw)).intersects
          (GameManager.atCollision g hw)._paddle.getRect &&
        checkYBound g._window g.ball.getRect.bottom) := by
    simp only [GameManager.lossDetected, a4, a5]
  rw [hl]
  refine ⟨rfl, ?_, rfl, rfl, rfl, rfl⟩
  split_ifs with h
  · exact h.symm
  · simpa using h

theorem GameManager.gameLogic_frame (g : GameManager) :
    (GameManager.gameLogic g).lives =
      (if (g.lives ≤ 0 ∨ g.bricks.isEmpty = true) ∧ g.input.isKeyPressed VK_SPACE = true
        then 3 else g.lives) ∧
    (GameManager.gameLogic g).ballDestroy = g.ballDestroy ∧
    (GameManager.gameLogic g)._window = g._window ∧
    (GameManager.gameLogic g).input = g.input := by
  unfold GameManager.gameLogic
  by_cases hl : g.lives ≤ 0 <;> by_cases he : g.bricks.isEmpty = true <;>
    by_cases hs : g.input.isKeyPressed VK_SPACE = true <;>
    simp [hl, he, hs, GameManager.createBlockOfBricks, GameManager.start] <;>
    split_ifs <;> simp

theorem GameManager.respawn_frame (g : GameManager) (timer : Int) :
    (GameManager.respawn g timer).1.lives = g.lives ∧
    (GameManager.respawn g timer).1.bricks = g.bricks ∧
    (GameManager.respawn g timer).1._paddle = g._paddle ∧
    (GameManager.respawn g timer).1.ball_y_dir = g.ball_y_dir ∧
    (GameManager.respawn g timer).1._window = g._window ∧
    (GameManager.respawn g timer).2 = (if g.ballDestroy = true then 500 else timer) ∧
    (g.ballDestroy = true → (GameManager.respawn g timer).1.ball.pos =
      ⟨g._window.width.tdiv 2 - 5, g._window.height.tdiv 2⟩) ∧
    (g.ballDestroy = false → (GameManager.respawn g timer).1.ball = g.ball) := by
  unfold GameManager.respawn
  split_ifs with h <;> simp [h, Ball.setPosition]

/-- An iteration is the collision section followed by the game logic, the respawn block and
the window update. -/
theorem GameManager.gameLoopBody_eq (g : GameManager) (hw : Int → Bool)
    (probe : Option (Int × Int)) :
    GameManager.gameLoopBody g hw probe =
      ({ (GameManager.respawn (GameManager.gameLogic (GameManager.afterCollision g hw)) 50).1 with
          _window := (GameManager.respawn
            (GameManager.gameLogic (GameManager.afterCollision g hw)) 50).1._window.render.updateSizeIfChanged
              probe },
        (GameManager.respawn (GameManager.gameLogic (GameManager.afterCollision g hw)) 50).2) :=
  rfl

/-- The life counter and the delay at the end of an iteration. -/
theorem GameManager.gameLoopBody_lives_timer (g : GameManager) (hw : Int → Bool)
    (probe : Option (Int × Int)) :
    (GameManager.gameLoopBody g hw probe).1.lives =
      (if ((if GameManager.lossDetected g hw = true then g.lives - 1 else g.lives) ≤ 0 ∨
            g.bricks.isEmpty = true) ∧ (g.input.update hw).isKeyPressed VK_SPACE = true
        then 3 else (if GameManager.lossDetected g hw = true then g.lives - 1 else g.lives)) ∧
    (GameManager.gameLoopBody g hw probe).2 =
      (if GameManager.lossDetected g hw = true then 500 else 50) ∧
    (GameManager.lossDetected g hw = true → (GameManager.gameLoopBody g hw probe).1.ball.pos =
      ⟨g._window.width.tdiv 2 - 5, g._window.height.tdiv 2⟩) := by
  obtain ⟨a1, a2, a3, a4, -, a6⟩ := GameManager.afterCollision_frame g hw
  obtain ⟨l1, l2, l3, -⟩ := GameManager.gameLogic_frame (GameManager.afterCollision g hw)
  obtain ⟨r1, -, -, -, -, r6, r7, -⟩ :=
    GameManager.respawn_frame (GameManager.gameLogic (GameManager.afterCollision g hw)) 50
  rw [GameManager.gameLoopBody_eq]
  refine ⟨?_, ?_, ?_⟩
  · show (GameManager.respawn (GameManager.gameLogic (GameManager.afterCollision g hw)) 50).1.lives
      = _
    rw [r1, l1, a1, a3, a4]
  · show (GameManager.respawn (GameManager.gameLogic (GameManager.afterCollision g hw)) 50).2 = _
    rw [r6, l2, a2]
  · intro hloss
    show (GameManager.respawn (GameManager.gameLogic (GameManager.afterCollision g hw))
      50).1.ball.pos = _
    rw [r7 (by rw [l2, a2]; exact hloss), l3, a6]

end Arkanoid

/-- C13 (amended): in an iteration in which the ball's bottom edge is at or past the floor
and the predicted rect misses the paddle, the life counter ends one lower unless the same
iteration restarts the round, in which case it ends at 3; the ball ends the iteration at the
respawn cell and the delay is 500. In an iteration that does not take the loss branch the
delay is 50 and the life counter is unchanged, or 3 after a restart. -/
theorem C13_ball_loss_and_pacing (g : Arkanoid.GameManager) (hw : Int → Bool)
    (probe : Option (Int × Int)) :
    (g.ball.pos.y + 1 ≥ g._window.height →
      (Arkanoid.GameManager.nextBallRect (Arkanoid.GameManager.atCollision g hw)).intersects
        (Arkanoid.GameManager.atCollision g hw)._paddle.getRect = false →
      (Arkanoid.GameManager.restarts { g with lives := g.lives - 1 } hw = false →
        (Arkanoid.GameManager.gameLoopBody g hw probe).1.lives = g.lives - 1) ∧
      (Arkanoid.GameManager.restarts { g with lives := g.lives - 1 } hw = true →
        (Arkanoid.GameManager.gameLoopBody g hw probe).1.lives = 3) ∧
      (Arkanoid.GameManager.gameLoopBody g hw probe).1.ball.pos =
        ⟨g._window.width.tdiv 2 - 5, g._window.height.tdiv 2⟩ ∧
      (Arkanoid.GameManager.gameLoopBody g hw probe).2 = 500) ∧
    (Arkanoid.GameManager.lossDetected g hw = false →
      (Arkanoid.GameManager.gameLoopBody g hw probe).2 = 50 ∧
      (Arkanoid.GameManager.restarts g hw = false →
        (Arkanoid.GameManager.gameLoopBody g hw probe).1.lives = g.lives) ∧
      (Arkanoid.GameManager.restarts g hw = true →
        (Arkanoid.GameManager.gameLoopBody g hw probe).1.lives = 3)) := by
  obtain ⟨hlives, htimer, hball⟩ := Arkanoid.GameManager.gameLoopBody_lives_timer g hw probe
  constructor
  · intro hfloor hmiss
    obtain ⟨-, -, -, a4, a5, -⟩ := Arkanoid.GameManager.atCollision_frame g hw
    have hloss : Arkanoid.GameManager.lossDetected g hw = true := by
      simp only [Arkanoid.GameManager.lossDetected, hmiss, a4, a5, Bool.not_false,
        Bool.true_and, Arkanoid.checkYBound, Arkanoid.Ball.getRect, Arkanoid.Rect.bottom]
      rw [if_pos (Or.inl hfloor)]
    rw [hloss] at hlives htimer
    simp only [if_true] at hlives htimer
    refine ⟨?_, ?_, hball hloss, htimer⟩
    · intro hno
      rw [hlives, if_neg]
      simp only [Arkanoid.GameManager.restarts, Bool.and_eq_false_imp, Bool.or_eq_true,
        decide_eq_true_eq] at hno
      rintro ⟨hl, hs⟩
      have := hno hl
      rw [hs] at this
      exact Bool.noConfusion this
    · intro hyes
      rw [hlives, if_pos]
      simpa [Arkanoid.GameManager.restarts] using hyes
  · intro hnoloss
    rw [hnoloss] at hlives htimer
    simp only [Bool.false_eq_true, if_false] at hlives htimer
    refine ⟨htimer, ?_, ?_⟩
    · intro hno
      rw [hlives, if_neg]
      simp only [Arkanoid.GameManager.restarts, Bool.and_eq_false_imp, Bool.or_eq_true,
        decide_eq_true_eq] at hno
      rintro ⟨hl, hs⟩
      have := hno hl
      rw [hs] at this
      exact Bool.noConfusion this
    · intro hyes
      rw [hlives, if_pos]
      simpa [Arkanoid.GameManager.restarts] using hyes

set_option maxRecDepth 100000 in
/-- C13 as stated fails: with one life left, the ball on the floor row and clear of the
paddle, and SPACE newly held, the iteration ends with 3 lives, not 0: the loss brings the
counter to 0 and the game logic of the same iteration restarts the round. -/
theorem C13_counterexample_loss_then_restart :
    Arkanoid.GameManager.lastBallOnFloor.lives = 1 ∧
    Arkanoid.GameManager.lastBallOnFloor.ball.pos.y + 1
      ≥ Arkanoid.GameManager.lastBallOnFloor._window.height ∧
    (Arkanoid.GameManager.nextBallRect (Arkanoid.GameManager.atCollision
        Arkanoid.GameManager.lastBallOnFloor Arkanoid.GameManager.spaceHeld)).intersects
      (Arkanoid.GameManager.atCollision Arkanoid.GameManager.lastBallOnFloor
        Arkanoid.GameManager.spaceHeld)._paddle.getRect = false ∧
    (Arkanoid.GameManager.gameLoopBody Arkanoid.GameManager.lastBallOnFloor
      Arkanoid.GameManager.spaceHeld none).1.lives = 3 ∧
    ¬ (Arkanoid.GameManager.gameLoopBody Arkanoid.GameManager.lastBallOnFloor
      Arkanoid.GameManager.spaceHeld none).1.lives
        = Arkanoid.GameManager.lastBallOnFloor.lives - 1 := by
  decide

set_option maxRecDepth 100000 in
/-- The last ball lost with no key held: the counter goes from 1 to 0, the ball is back at
(55, 15) and the delay is 500; an iteration of the started game has delay 50. -/
theorem C13_ball_loss_witness :
    (Arkanoid.GameManager.gameLoopBody Arkanoid.GameManager.lastBallOnFloor
      Arkanoid.GameManager.noKeys none).1.lives = Arkanoid.GameManager.lastBallOnFloor.lives - 1 ∧
    (Arkanoid.GameManager.gameLoopBody Arkanoid.GameManager.lastBallOnFloor
      Arkanoid.GameManager.noKeys none).2 = 500 ∧
    (Arkanoid.GameManager.gameLoopBody Arkanoid.GameManager.initial
      Arkanoid.GameManager.noKeys none).2 = 50 :=
  ⟨((C13_ball_loss_and_pacing Arkanoid.GameManager.lastBallOnFloor Arkanoid.GameManager.noKeys
      none).1 (by decide) (by decide)).1 (by decide),
   ((C13_ball_loss_and_pacing Arkanoid.GameManager.lastBallOnFloor Arkanoid.GameManager.noKeys
      none).1 (by decide) (by decide)).2.2.2,
   ((C13_ball_loss_and_pacing Arkanoid.GameManager.initial Arkanoid.GameManager.noKeys
      none).2 (by decide)).1⟩

namespace Arkanoid

theorem GameManager.scanBricks_map_getRect (r : Rect) : ∀ bs : List Brick,
    (GameManager.scanBricks r bs).1.map Brick.getRect = bs.map Brick.getRect := by
  intro bs
  induction bs with
  | nil => rfl
  | cons b rest ih =>
    by_cases hc : (!b.isDestroyed && r.intersects b.getRect) = true
    · simp only [GameManager.scanBricks, hc, if_true, List.map_cons]
      rfl
    · simp only [GameManager.scanBricks, hc, Bool.false_eq_true, if_false, List.map_cons, ih]

/-- In a 120-wide field the brick block is the one of the started game. -/
theorem GameManager.createBlockOfBricks_bricks (g : GameManager) (h : g._window.width = 120) :
    (GameManager.createBlockOfBricks g).bricks = GameManager.initial.bricks := by
  simp only [GameManager.createBlockOfBricks, h]
  rfl

/-- Every brick of the started game lies in the rows 2..14, is 1 x 1 and not destroyed. -/
theorem GameManager.initial_bricks (b : Brick) (hb : b ∈ GameManager.initial.bricks) :
    (2 ≤ b.pos.y ∧ b.pos.y ≤ 14) ∧ b.width = 1 ∧ b.height = 1 ∧ b.destroyed = false := by
  have hb' : b ∈ (GameManager.createBlockOfBricks GameManager.initial).bricks := by
    rw [GameManager.createBlockOfBricks_bricks _ rfl]
    exact hb
  simp only [GameManager.createBlockOfBricks, List.mem_flatMap, List.mem_map,
    List.mem_range] at hb'
  obtain ⟨row, hrow, col, -, rfl⟩ := hb'
  exact ⟨⟨by simp only [Brick.create]; omega, by simp only [Brick.create]; omega⟩,
    rfl, rfl, rfl⟩

/-- The window keeps the size 120 x 30 through `render` and a size query that fails or
reports 120 x 30. -/
theorem Window.updateSizeIfChanged_same (w : Window) (probe : Option (Int × Int))
    (hprobe : probe = none ∨ probe = some (120, 30)) (hw : w.width = 120) (hh : w.height = 30) :
    (w.render.updateSizeIfChanged probe).width = 120 ∧
    (w.render.updateSizeIfChanged probe).height = 30 := by
  rcases hprobe with rfl | rfl
  · exact ⟨hw, hh⟩
  · simp only [Window.updateSizeIfChanged, Window.render, Window.clearScreen]
    rw [if_neg (by simp [hw, hh])]
    exact ⟨hw, hh⟩

theorem GameManager.playfield_initial : GameManager.Playfield GameManager.initial :=
  ⟨rfl, rfl, rfl, rfl, rfl, Or.inl rfl, rfl⟩

/-- An iteration in a console that keeps its size preserves the playfield facts. -/
theorem GameManager.playfield_step (g : GameManager) (hw : Int → Bool)
    (probe : Option (Int × Int)) (hprobe : probe = none ∨ probe = some (120, 30))
    (h : GameManager.Playfield g) :
    GameManager.Playfield (GameManager.gameLoopBody g hw probe).1 := by
  have h0 : GameManager.Playfield { g with ballDestroy := false, input := g.input.update hw } := h
  have hcontrol : ∀ g' : GameManager, GameManager.Playfield g' →
      GameManager.Playfield (GameManager.control g') := by
    rintro g' ⟨h1, h2, h3, h4, h5, h6, h7⟩
    simp only [GameManager.control]
    split_ifs <;> exact ⟨h1, h2, by simpa [Paddle.move] using h3, h4, h5, h6, h7⟩
  have hwall : ∀ g' : GameManager, GameManager.Playfield g' →
      GameManager.Playfield (GameManager.wallCheck g') := by
    rintro g' ⟨h1, h2, h3, h4, h5, h6, h7⟩
    simp only [GameManager.wallCheck]
    split_ifs <;> exact ⟨h1, h2, h3, h4, h5, h6, h7⟩
  have hflip : ∀ d : Int, (d = 1 ∨ d = -1) → (d * -1 = 1 ∨ d * -1 = -1) := by
    intro d hd
    omega
  have hceil : ∀ g' : GameManager, GameManager.Playfield g' →
      GameManager.Playfield (GameManager.ceilingCheck g') := by
    rintro g' ⟨h1, h2, h3, h4, h5, h6, h7⟩
    simp only [GameManager.ceilingCheck]
    split_ifs
    · exact ⟨h1, h2, h3, h4, h5, hflip _ h6, h7⟩
    · exact ⟨h1, h2, h3, h4, h5, h6, h7⟩
  have hpaddle : ∀ (g' : GameManager) (next : Rect), GameManager.Playfield g' →
      GameManager.Playfield (GameManager.paddleBounce g' next) := by
    rintro g' next ⟨h1, h2, h3, h4, h5, h6, h7⟩
    simp only [GameManager.paddleBounce]
    split_ifs
    · exact ⟨h1, h2, h3, h4, h5, hflip _ h6, h7⟩
    · exact ⟨h1, h2, h3, h4, h5, hflip _ h6, h7⟩
    · exact ⟨h1, h2, h3, h4, h5, hflip _ h6, h7⟩
    · exact ⟨h1, h2, h3, h4, h5, h6, h7⟩
    · exact ⟨h1, h2, h3, h4, h5, h6, h7⟩
  have hbrick : ∀ g' : GameManager, GameManager.Playfield g' →
      GameManager.Playfield (GameManager.brickCollision g') := by
    rintro g' ⟨h1, h2, h3, h4, h5, h6, h7⟩
    have hm := GameManager.scanBricks_map_getRect g'.ball.getRect g'.bricks
    simp only [GameManager.brickCollision]
    split_ifs
    · exact ⟨h1, h2, h3, h4, h5, hflip _ h6, hm.trans h7⟩
    · exact ⟨h1, h2, h3, h4, h5, h6, hm.trans h7⟩
  have hrestart : ∀ g' : GameManager, GameManager.Playfield g' →
      GameManager.Playfield (GameManager.createBlockOfBricks (GameManager.start g')) := by
    rintro g' ⟨h1, h2, h3, h4, h5, h6, h7⟩
    have hb := GameManager.createBlockOfBricks_bricks (GameManager.start g') h1
    refine ⟨h1, h2, ?_, h4, h5, Or.inl rfl, by rw [hb]⟩
    show g'._window.height - 1 = 29
    omega
  have hlogic : ∀ g' : GameManager, GameManager.Playfield g' →
      GameManager.Playfield (GameManager.gameLogic g') := by
    intro g' hg'
    have hr := hrestart g' hg'
    obtain ⟨h1, h2, h3, h4, h5, h6, h7⟩ := hg'
    simp only [GameManager.gameLogic]
    split_ifs
    · exact hr
    · exact ⟨h1, h2, h3, h4, h5, h6, h7⟩
    · exact hr
    · exact ⟨h1, h2, h3, h4, h5, h6, h7⟩
    · exact ⟨h1, h2, h3, h4, h5, h6, h7⟩
    · exact ⟨h1, h2, h3, h4, h5, h6, h7⟩
  have hresp : ∀ (g' : GameManager) (t : Int), GameManager.Playfield g' →
      GameManager.Playfield (GameManager.respawn g' t).1 := by
    rintro g' t ⟨h1, h2, h3, h4, h5, h6, h7⟩
    simp only [GameManager.respawn]
    split_ifs <;> exact ⟨h1, h2, h3, h4, h5, h6, h7⟩
  have hlast := hresp _ 50 (hlogic _ (hbrick _ (hpaddle _
    (GameManager.nextBallRect (GameManager.atCollision g hw))
    (hceil _ (hwall _ (hcontrol _ h0))))))
  obtain ⟨h1, h2, h3, h4, h5, h6, h7⟩ := hlast
  obtain ⟨w1, w2⟩ := Window.updateSizeIfChanged_same _ probe hprobe h1 h2
  rw [GameManager.gameLoopBody_eq]
  exact ⟨w1, w2, h3, h4, h5, h6, h7⟩

/-- Every state of the game in a console that keeps its size has the playfield facts. -/
theorem GameManager.reachable_playfield (g : GameManager) (h : GameManager.Reachable g) :
    GameManager.Playfield g := by
  induction h with
  | start => exact GameManager.playfield_initial
  | step g hw probe _ hprobe ih => exact GameManager.playfield_step g hw probe hprobe ih

end Arkanoid

namespace Arkanoid

/-- In a game over of the 120 x 30 game the collision section does nothing: the paddle is
not moved, the ball at (55, 15) touches no wall, no paddle and no brick. -/
theorem GameManager.afterCollision_gameOver (g : GameManager) (hw : Int → Bool)
    (hfield : GameManager.Playfield g) (hl : g.lives = 0) (hb : g.ball.pos = ⟨55, 15⟩) :
    GameManager.afterCollision g hw =
      { g with ballDestroy := false, input := g.input.update hw } := by
  obtain ⟨h1, h2, h3, h4, h5, h6, h7⟩ := hfield
  have e1 : GameManager.control { g with ballDestroy := false, input := g.input.update hw } =
      { g with ballDestroy := false, input := g.input.update hw } := by
    simp [GameManager.control, hl]
  have e2 : GameManager.wallCheck { g with ballDestroy := false, input := g.input.update hw } =
      { g with ballDestroy := false, input := g.input.update hw } := by
    simp [GameManager.wallCheck, checkXBound, Ball.getRect, Rect.left, hb, h1]
  have e3 : GameManager.ceilingCheck { g with ballDestroy := false, input := g.input.update hw } =
      { g with ballDestroy := false, input := g.input.update hw } := by
    simp [GameManager.ceilingCheck, checkYBound, Ball.getRect, Rect.top, hb, h2]
  have hmiss : (GameManager.nextBallRect
      { g with ballDestroy := false, input := g.input.update hw }).intersects
        g._paddle.getRect = false := by
    simp only [GameManager.nextBallRect, Ball.getRect, Paddle.getRect, Rect.intersects, hb, h3, h5]
    rw [Bool.eq_false_iff]
    simp only [ne_eq, Bool.and_eq_true, decide_eq_true_eq]
    omega
  have e4 : GameManager.paddleBounce
      { g with ballDestroy := false, input := g.input.update hw }
      (GameManager.nextBallRect { g with ballDestroy := false, input := g.input.update hw }) =
      { g with ballDestroy := false, input := g.input.update hw } := by
    simp only [GameManager.paddleBounce, hmiss]
    simp [checkYBound, Ball.getRect, Rect.bottom, hb, h2]
  have hbricks : ∀ p ∈ g.bricks,
      p.isDestroyed = true ∨ g.ball.getRect.intersects p.getRect = false := by
    intro p hp
    right
    have hmem : p.getRect ∈ GameManager.initial.bricks.map Brick.getRect := by
      rw [← h7]
      exact List.mem_map_of_mem _ hp
    obtain ⟨q, hq, hqr⟩ := List.mem_map.1 hmem
    obtain ⟨⟨-, hy⟩, -, hh, -⟩ := GameManager.initial_bricks q hq
    rw [← hqr]
    simp only [Ball.getRect, Brick.getRect, Rect.intersects, hb, hh]
    rw [Bool.eq_false_iff]
    simp only [ne_eq, Bool.and_eq_true, decide_eq_true_eq]
    omega
  have e5 : GameManager.brickCollision
      { g with ballDestroy := false, input := g.input.update hw } =
      { g with ballDestroy := false, input := g.input.update hw } := by
    have hs := GameManager.scanBricks_miss g.ball.getRect g.bricks hbricks
    simp [GameManager.brickCollision, hs]
  simp only [GameManager.afterCollision, GameManager.atCollision]
  rw [e1, e2, e3, e4, e5]

end Arkanoid

/-- C14: every state of the 120 x 30 game has the playfield facts, and for every such state
with no life left and the ball at the respawn cell (55, 15): an iteration without a rising
edge of SPACE leaves lives, the ball position, the paddle position and every brick as they
were, whatever keys are held; an iteration with a rising edge of SPACE ends with 3 lives,
ball direction (1, 1), the paddle at (60, 29), the ball at (55, 15) and 650 bricks, none
destroyed. -/
theorem C14_game_over_until_restart :
    (∀ g : Arkanoid.GameManager, Arkanoid.GameManager.Reachable g →
      Arkanoid.GameManager.Playfield g) ∧
    (∀ (g : Arkanoid.GameManager) (hw : Int → Bool) (probe : Option (Int × Int)),
      Arkanoid.GameManager.Playfield g → g.lives = 0 → g.ball.pos = ⟨55, 15⟩ →
      ((g.input.update hw).isKeyPressed Arkanoid.VK_SPACE = false →
        (Arkanoid.GameManager.gameLoopBody g hw probe).1.lives = g.lives ∧
        (Arkanoid.GameManager.gameLoopBody g hw probe).1.ball.pos = g.ball.pos ∧
        (Arkanoid.GameManager.gameLoopBody g hw probe).1._paddle.pos = g._paddle.pos ∧
        (Arkanoid.GameManager.gameLoopBody g hw probe).1.bricks = g.bricks) ∧
      ((g.input.update hw).isKeyPressed Arkanoid.VK_SPACE = true →
        (Arkanoid.GameManager.gameLoopBody g hw probe).1.lives = 3 ∧
        (Arkanoid.GameManager.gameLoopBody g hw probe).1.ball_x_dir = 1 ∧
        (Arkanoid.GameManager.gameLoopBody g hw probe).1.ball_y_dir = 1 ∧
        (Arkanoid.GameManager.gameLoopBody g hw probe).1._paddle.pos = ⟨60, 29⟩ ∧
        (Arkanoid.GameManager.gameLoopBody g hw probe).1.ball.pos = ⟨55, 15⟩ ∧
        (Arkanoid.GameManager.gameLoopBody g hw probe).1.bricks.length = 650 ∧
        ∀ b ∈ (Arkanoid.GameManager.gameLoopBody g hw probe).1.bricks, b.destroyed = false)) := by
  refine ⟨Arkanoid.GameManager.reachable_playfield, ?_⟩
  intro g hw probe hfield hl hb
  have hafter := Arkanoid.GameManager.afterCollision_gameOver g hw hfield hl hb
  obtain ⟨h1, h2, -, -, -, -, -⟩ := hfield
  rw [Arkanoid.GameManager.gameLoopBody_eq, hafter]
  constructor
  · intro hs
    simp [Arkanoid.GameManager.gameLogic, Arkanoid.GameManager.respawn, hl, hs]
  · intro hs
    have hbr : (Arkanoid.GameManager.createBlockOfBricks (Arkanoid.GameManager.start
        { g with ballDestroy := false, input := g.input.update hw })).bricks =
        Arkanoid.GameManager.initial.bricks :=
      Arkanoid.GameManager.createBlockOfBricks_bricks _ h1
    have hlen : Arkanoid.GameManager.initial.bricks.length = 650 := by
      rw [← Arkanoid.GameManager.createBlockOfBricks_bricks Arkanoid.GameManager.initial rfl]
      simp only [Arkanoid.GameManager.createBlockOfBricks]
      rw [Arkanoid.grid_length]
    have hpos : (Arkanoid.GameManager.createBlockOfBricks (Arkanoid.GameManager.start
        { g with ballDestroy := false, input := g.input.update hw }))._paddle.pos = ⟨60, 29⟩ ∧
        (Arkanoid.GameManager.createBlockOfBricks (Arkanoid.GameManager.start
        { g with ballDestroy := false, input := g.input.update hw })).ball.pos = ⟨55, 15⟩ := by
      simp only [Arkanoid.GameManager.createBlockOfBricks, Arkanoid.GameManager.start,
        Arkanoid.Paddle.setPosition, Arkanoid.Ball.setPosition, h1, h2]
      constructor <;> decide
    have hle : g.lives ≤ 0 := by omega
    simp only [Arkanoid.GameManager.gameLogic, Arkanoid.GameManager.respawn, hle, hs, if_true]
    refine ⟨rfl, rfl, rfl, hpos.1, hpos.2, (congrArg List.length hbr).trans hlen, ?_⟩
    intro b hbm
    have hbm' : b ∈ (Arkanoid.GameManager.createBlockOfBricks (Arkanoid.GameManager.start
        { g with ballDestroy := false, input := g.input.update hw })).bricks := hbm
    rw [hbr] at hbm'
    exact (Arkanoid.GameManager.initial_bricks b hbm').2.2.2

set_option maxRecDepth 100000 in
/-- The game over of the started game: with `A` held the paddle and the life counter stay;
with SPACE newly held the iteration ends with 3 lives. -/
theorem C14_game_over_witness :
    (Arkanoid.GameManager.gameLoopBody Arkanoid.GameManager.gameOverState
      Arkanoid.GameManager.holdA none).1._paddle.pos
        = Arkanoid.GameManager.gameOverState._paddle.pos ∧
    (Arkanoid.GameManager.gameLoopBody Arkanoid.GameManager.gameOverState
      Arkanoid.GameManager.holdA none).1.lives = Arkanoid.GameManager.gameOverState.lives ∧
    (Arkanoid.GameManager.gameLoopBody Arkanoid.GameManager.gameOverState
      Arkanoid.GameManager.spaceHeld none).1.lives = 3 :=
  ⟨((C14_game_over_until_restart.2 Arkanoid.GameManager.gameOverState
      Arkanoid.GameManager.holdA none ⟨rfl, rfl, rfl, rfl, rfl, Or.inl rfl, rfl⟩
      (by decide) (by decide)).1 (by decide)).2.2.1,
   ((C14_game_over_until_restart.2 Arkanoid.GameManager.gameOverState
      Arkanoid.GameManager.holdA none ⟨rfl, rfl, rfl, rfl, rfl, Or.inl rfl, rfl⟩
      (by decide) (by decide)).1 (by decide)).1,
   ((C14_game_over_until_restart.2 Arkanoid.GameManager.gameOverState
      Arkanoid.GameManager.spaceHeld none ⟨rfl, rfl, rfl, rfl, rfl, Or.inl rfl, rfl⟩
      (by decide) (by decide)).2 (by decide)).1⟩

/-! ## Keys outside the watch-list -/

namespace Arkanoid

/-- After any run of updates of a fresh handler with a watch-list, a key outside the list is
in neither map. -/
theorem InputHandler.unwatched_absent (keys : List Int) (k : Int) (hk : k ∉ keys) :
    ∀ (hws : List (Int → Bool)) (h : InputHandler),
      h.currentKeys k = none → h.previousKeys k = none →
      (hws.foldl (fun h hw => InputHandler.updateWith keys h hw) h).currentKeys k = none ∧
      (hws.foldl (fun h hw => InputHandler.updateWith keys h hw) h).previousKeys k = none := by
  intro hws
  induction hws with
  | nil => intro h hc hp; exact ⟨hc, hp⟩
  | cons hw rest ih =>
    intro h hc hp
    rw [List.foldl_cons]
    apply ih
    · show (keys.foldl (fun m key => InputHandler.assign m key (hw key)) h.currentKeys) k = none
      rw [InputHandler.foldl_assign_of_not_mem hw k keys _ hk]
      exact hc
    · exact hc

end Arkanoid

/-- C26: for a key `k` outside the watch-list, in every state reached from a fresh handler
by a sequence of `update()` calls, `isKeyDown k`, `isKeyPressed k` and `isKeyReleased k` are
all false; for the handler of arkanoid.cpp and for the one of InputHandler.h. -/
theorem C26_unwatched_key_never_reported (hws : List (Int → Bool)) (k : Int) :
    (k ∉ Arkanoid.InputHandler.keys →
      (hws.foldl (fun h hw => Arkanoid.InputHandler.update h hw)
        Arkanoid.InputHandler.fresh).isKeyDown k = false ∧
      (hws.foldl (fun h hw => Arkanoid.InputHandler.update h hw)
        Arkanoid.InputHandler.fresh).isKeyPressed k = false ∧
      (hws.foldl (fun h hw => Arkanoid.InputHandler.update h hw)
        Arkanoid.InputHandler.fresh).isKeyReleased k = false) ∧
    (k ∉ SpaceShooter.InputHandler.keys →
      (hws.foldl (fun h hw => SpaceShooter.InputHandler.update h hw)
        Arkanoid.InputHandler.fresh).isKeyDown k = false ∧
      (hws.foldl (fun h hw => SpaceShooter.InputHandler.update h hw)
        Arkanoid.InputHandler.fresh).isKeyPressed k = false ∧
      (hws.foldl (fun h hw => SpaceShooter.InputHandler.update h hw)
        Arkanoid.InputHandler.fresh).isKeyReleased k = false) := by
  constructor
  · intro hk
    obtain ⟨hc, hp⟩ := Arkanoid.InputHandler.unwatched_absent Arkanoid.InputHandler.keys k hk
      hws Arkanoid.InputHandler.fresh rfl rfl
    have hc' : (hws.foldl (fun h hw => Arkanoid.InputHandler.update h hw)
        Arkanoid.InputHandler.fresh).currentKeys k = none := hc
    have hp' : (hws.foldl (fun h hw => Arkanoid.InputHandler.update h hw)
        Arkanoid.InputHandler.fresh).previousKeys k = none := hp
    simp [Arkanoid.InputHandler.isKeyPressed, Arkanoid.InputHandler.isKeyReleased,
      Arkanoid.InputHandler.isKeyDown, Arkanoid.InputHandler.wasKeyDown, hc', hp']
  · intro hk
    obtain ⟨hc, hp⟩ := Arkanoid.InputHandler.unwatched_absent SpaceShooter.InputHandler.keys k hk
      hws Arkanoid.InputHandler.fresh rfl rfl
    have hc' : (hws.foldl (fun h hw => SpaceShooter.InputHandler.update h hw)
        Arkanoid.InputHandler.fresh).currentKeys k = none := hc
    have hp' : (hws.foldl (fun h hw => SpaceShooter.InputHandler.update h hw)
        Arkanoid.InputHandler.fresh).previousKeys k = none := hp
    simp [Arkanoid.InputHandler.isKeyPressed, Arkanoid.InputHandler.isKeyReleased,
      Arkanoid.InputHandler.isKeyDown, Arkanoid.InputHandler.wasKeyDown, hc', hp']

/-- The key `W` is not watched by the handler of arkanoid.cpp: after two updates with every
key held it is still not reported. -/
theorem C26_unwatched_key_witness :
    ([fun _ => true, fun _ => true].foldl (fun h hw => Arkanoid.InputHandler.update h hw)
      Arkanoid.InputHandler.fresh).isKeyDown Arkanoid.key_W = false :=
  ((C26_unwatched_key_never_reported [fun _ => true, fun _ => true] Arkanoid.key_W).1
    (by decide)).1

/-! ## Bricks, paddle and lives across iterations -/

namespace Arkanoid

/-- The brick relation kept by the scan: same position and size, and a destroyed brick stays
destroyed. -/
theorem GameManager.scanBricks_forall₂ (r : Rect) : ∀ bs : List Brick,
    List.Forall₂ (fun b b' => b'.pos = b.pos ∧ b'.width = b.width ∧ b'.height = b.height ∧
      (b.destroyed = true → b'.destroyed = true)) bs (GameManager.scanBricks r bs).1 := by
  intro bs
  induction bs with
  | nil => exact List.Forall₂.nil
  | cons b rest ih =>
    by_cases hc : (!b.isDestroyed && r.intersects b.getRect) = true
    · simp only [GameManager.scanBricks, hc, if_true]
      refine List.Forall₂.cons ⟨rfl, rfl, rfl, fun _ => rfl⟩ ?_
      exact List.forall₂_same.2 (fun x _ => ⟨rfl, rfl, rfl, fun h => h⟩)
    · simp only [GameManager.scanBricks, hc, Bool.false_eq_true, if_false]
      exact List.Forall₂.cons ⟨rfl, rfl, rfl, fun h => h⟩ ih

theorem GameManager.brickCollision_bricks (g : GameManager) :
    (GameManager.brickCollision g).bricks = (GameManager.scanBricks g.ball.getRect g.bricks).1 ∧
    ((GameManager.brickCollision g).ball_y_dir = g.ball_y_dir ∨
      (GameManager.brickCollision g).ball_y_dir = g.ball_y_dir * -1) := by
  simp only [GameManager.brickCollision]
  split_ifs
  · exact ⟨rfl, Or.inr rfl⟩
  · exact ⟨rfl, Or.inl rfl⟩

/-- The bricks, the paddle and the speed after the collision section. -/
theorem GameManager.afterCollision_bricks_paddle (g : GameManager) (hw : Int → Bool) :
    (GameManager.afterCollision g hw).bricks =
      (GameManager.scanBricks g.ball.getRect g.bricks).1 ∧
    (GameManager.afterCollision g hw)._paddle =
      (GameManager.control { g with ballDestroy := false, input := g.input.update hw })._paddle ∧
    (GameManager.afterCollision g hw).speed = g.speed := by
  obtain ⟨w1, w2, w3, w4, w5, -, -, -, w9⟩ := GameManager.wallCheck_frame
    (GameManager.control { g with ballDestroy := false, input := g.input.update hw })
  obtain ⟨c1, c2, c3, c4, -, -, -, -, c9⟩ := GameManager.control_frame
    { g with ballDestroy := false, input := g.input.update hw }
  obtain ⟨e1, e2, e3, e4, e5, -, -, -, e9⟩ :=
    GameManager.ceilingCheck_frame (GameManager.atCollision g hw)
  obtain ⟨p1, p2, p3, p4, -, p6, -, -⟩ := GameManager.paddleBounce_frame
    (GameManager.ceilingCheck (GameManager.atCollision g hw))
    (GameManager.nextBallRect (GameManager.atCollision g hw))
  obtain ⟨-, -, -, -, b5, -, -, -, b9⟩ := GameManager.brickCollision_frame
    (GameManager.paddleBounce (GameManager.ceilingCheck (GameManager.atCollision g hw))
      (GameManager.nextBallRect (GameManager.atCollision g hw)))
  obtain ⟨bb, -⟩ := GameManager.brickCollision_bricks
    (GameManager.paddleBounce (GameManager.ceilingCheck (GameManager.atCollision g hw))
      (GameManager.nextBallRect (GameManager.atCollision g hw)))
  simp only [GameManager.afterCollision]
  rw [bb, b5, b9, p1, p3, p4, p6, e2, e4, e5, e9]
  simp only [GameManager.atCollision]
  rw [w2, w4, w5, w9, c2, c4, c9]
  exact ⟨rfl, rfl, rfl⟩

/-- The game logic when it does not call `start()`. -/
theorem GameManager.gameLogic_no_restart (g : GameManager)
    (h : ¬ ((g.lives ≤ 0 ∨ g.bricks.isEmpty = true) ∧ g.input.isKeyPressed VK_SPACE = true)) :
    (GameManager.gameLogic g).bricks = g.bricks ∧
    (GameManager.gameLogic g)._paddle = g._paddle ∧
    (GameManager.gameLogic g).speed = g.speed ∧
    (GameManager.gameLogic g).ball_y_dir = g.ball_y_dir ∧
    ((GameManager.gameLogic g).ball = g.ball ∨
      (GameManager.gameLogic g).ball = g.ball.move g.ball_x_dir g.ball_y_dir) := by
  unfold GameManager.gameLogic
  by_cases hl : g.lives ≤ 0 <;> by_cases he : g.bricks.isEmpty = true <;>
    by_cases hs : g.input.isKeyPressed VK_SPACE = true <;>
    simp [hl, he, hs] at h ⊢ <;>
    split_ifs <;> simp

theorem GameManager.respawn_speed (g : GameManager) (timer : Int) :
    (GameManager.respawn g timer).1.speed = g.speed := by
  unfold GameManager.respawn
  split_ifs <;> rfl

/-- The iteration when its game logic does not call `start()`. -/
theorem GameManager.gameLoopBody_no_restart (g : GameManager) (hw : Int → Bool)
    (probe : Option (Int × Int)) (h : GameManager.restartTaken g hw = false) :
    (GameManager.gameLoopBody g hw probe).1.bricks =
      (GameManager.scanBricks g.ball.getRect g.bricks).1 ∧
    (GameManager.gameLoopBody g hw probe).1._paddle =
      (GameManager.control { g with ballDestroy := false, input := g.input.update hw })._paddle ∧
    (GameManager.gameLoopBody g hw probe).1.speed = g.speed ∧
    (GameManager.lossDetected g hw = false →
      (GameManager.gameLoopBody g hw probe).1.ball = g.ball ∨
      (GameManager.gameLoopBody g hw probe).1.ball =
        g.ball.move (GameManager.afterCollision g hw).ball_x_dir
          (GameManager.afterCollision g hw).ball_y_dir) := by
  have hcond : ¬ (((GameManager.afterCollision g hw).lives ≤ 0 ∨
      (GameManager.afterCollision g hw).bricks.isEmpty = true) ∧
      (GameManager.afterCollision g hw).input.isKeyPressed VK_SPACE = true) := by
    simp only [GameManager.restartTaken, Bool.and_eq_false_imp, Bool.or_eq_true,
      decide_eq_true_eq] at h
    rintro ⟨h1, h2⟩
    have := h h1
    rw [h2] at this
    exact Bool.noConfusion this
  obtain ⟨l1, l2, l3, -, l5⟩ :=
    GameManager.gameLogic_no_restart (GameManager.afterCollision g hw) hcond
  obtain ⟨a1, a2, a3⟩ := GameManager.afterCollision_bricks_paddle g hw
  obtain ⟨-, f2, -, -, f5, -⟩ := GameManager.afterCollision_frame g hw
  obtain ⟨-, g2, -, -⟩ := GameManager.gameLogic_frame (GameManager.afterCollision g hw)
  obtain ⟨-, r2, r3, -, -, -, -, r8⟩ :=
    GameManager.respawn_frame (GameManager.gameLogic (GameManager.afterCollision g hw)) 50
  have r9 := GameManager.respawn_speed (GameManager.gameLogic (GameManager.afterCollision g hw)) 50
  rw [GameManager.gameLoopBody_eq]
  refine ⟨?_, ?_, ?_, ?_⟩
  · show (GameManager.respawn (GameManager.gameLogic (GameManager.afterCollision g hw)) 50).1.bricks
      = _
    rw [r2, l1, a1]
  · show (GameManager.respawn (GameManager.gameLogic
      (GameManager.afterCollision g hw)) 50).1._paddle = _
    rw [r3, l2, a2]
  · show (GameManager.respawn (GameManager.gameLogic
      (GameManager.afterCollision g hw)) 50).1.speed = _
    rw [r9, l3, a3]
  · intro hnoloss
    show (GameManager.respawn (GameManager.gameLogic (GameManager.afterCollision g hw)) 50).1.ball
        = _ ∨
      (GameManager.respawn (GameManager.gameLogic (GameManager.afterCollision g hw)) 50).1.ball
        = _
    rw [r8 (by rw [g2, f2]; exact hnoloss)]
    rw [f5] at l5
    exact l5

end Arkanoid

/-- C25: in an iteration whose game logic does not restart the round, the bricks keep their
number and order, every brick keeps its position and size, and every brick that was
destroyed before the iteration is destroyed after it. -/
theorem C25_destroyed_flag_never_cleared (g : Arkanoid.GameManager) (hw : Int → Bool)
    (probe : Option (Int × Int)) (hno : Arkanoid.GameManager.restartTaken g hw = false) :
    (Arkanoid.GameManager.gameLoopBody g hw probe).1.bricks.length = g.bricks.length ∧
    List.Forall₂ (fun b b' => b'.pos = b.pos ∧ b'.width = b.width ∧ b'.height = b.height ∧
      (b.destroyed = true → b'.destroyed = true))
      g.bricks (Arkanoid.GameManager.gameLoopBody g hw probe).1.bricks := by
  obtain ⟨hb, -, -, -⟩ := Arkanoid.GameManager.gameLoopBody_no_restart g hw probe hno
  rw [hb]
  have hf := Arkanoid.GameManager.scanBricks_forall₂ g.ball.getRect g.bricks
  exact ⟨hf.length_eq.symm, hf⟩

set_option maxRecDepth 100000 in
/-- An iteration of the started game with no key held keeps its 650 bricks. -/
theorem C25_destroyed_flag_witness :
    (Arkanoid.GameManager.gameLoopBody Arkanoid.GameManager.initial
      Arkanoid.GameManager.noKeys none).1.bricks.length
      = Arkanoid.GameManager.initial.bricks.length :=
  (C25_destroyed_flag_never_cleared Arkanoid.GameManager.initial Arkanoid.GameManager.noKeys
    none (by decide)).1

namespace Arkanoid

/-- The loss branch is taken only with the ball's bottom edge at or past the floor or at or
above the ceiling. -/
theorem GameManager.lossDetected_imp (g : GameManager) (hw : Int → Bool)
    (h : GameManager.lossDetected g hw = true) :
    g.ball.pos.y + 1 ≥ g._window.height ∨ g.ball.pos.y + 1 ≤ 0 := by
  obtain ⟨-, -, -, a4, a5, -⟩ := GameManager.atCollision_frame g hw
  simp only [GameManager.lossDetected, a4, a5, Bool.and_eq_true, checkYBound, Ball.getRect,
    Rect.bottom] at h
  by_contra hc
  rw [if_neg hc] at h
  exact Bool.noConfusion h.2

/-- The life counter in an iteration that starts from a game over of the 120 x 30 game. -/
theorem GameManager.gameLoopBody_gameOver (g : GameManager) (hw : Int → Bool)
    (probe : Option (Int × Int)) (hfield : GameManager.Playfield g) (hl : g.lives = 0)
    (hb : g.ball.pos = ⟨55, 15⟩) :
    ((g.input.update hw).isKeyPressed VK_SPACE = false →
      (GameManager.gameLoopBody g hw probe).1.lives = 0 ∧
      (GameManager.gameLoopBody g hw probe).1.ball.pos = ⟨55, 15⟩) ∧
    ((g.input.update hw).isKeyPressed VK_SPACE = true →
      (GameManager.gameLoopBody g hw probe).1.lives = 3) := by
  have hafter := GameManager.afterCollision_gameOver g hw hfield hl hb
  have hle : g.lives ≤ 0 := by omega
  rw [GameManager.gameLoopBody_eq, hafter]
  constructor
  · intro hs
    simp only [GameManager.gameLogic, GameManager.respawn, hle, hs, if_true,
      Bool.false_eq_true, if_false]
    exact ⟨hl, hb⟩
  · intro hs
    simp only [GameManager.gameLogic, GameManager.respawn, hle, hs, if_true]
    rfl

/-- An iteration in a console that keeps its size preserves the life counter facts. -/
theorem GameManager.livesInRange_step (g : GameManager) (hw : Int → Bool)
    (probe : Option (Int × Int)) (hfield : GameManager.Playfield g)
    (h : GameManager.LivesInRange g) :
    GameManager.LivesInRange (GameManager.gameLoopBody g hw probe).1 := by
  obtain ⟨h0, h3, hzero⟩ := h
  by_cases hl : g.lives = 0
  · obtain ⟨hidle, hrestart⟩ :=
      GameManager.gameLoopBody_gameOver g hw probe hfield hl (hzero hl)
    by_cases hs : (g.input.update hw).isKeyPressed VK_SPACE = true
    · have := hrestart hs
      exact ⟨by omega, by omega, fun h => by omega⟩
    · have hs' : (g.input.update hw).isKeyPressed VK_SPACE = false := by simpa using hs
      obtain ⟨e1, e2⟩ := hidle hs'
      exact ⟨by omega, by omega, fun _ => e2⟩
  · obtain ⟨hlives, -, hball⟩ := GameManager.gameLoopBody_lives_timer g hw probe
    obtain ⟨h1, h2, -, -, -, -, -⟩ := hfield
    by_cases hloss : GameManager.lossDetected g hw = true
    · have hpos := hball hloss
      rw [h1, h2] at hpos
      have hpos' : (GameManager.gameLoopBody g hw probe).1.ball.pos = ⟨55, 15⟩ := by
        rw [hpos]
        decide
      rw [hloss] at hlives
      simp only [if_true] at hlives
      refine ⟨?_, ?_, fun _ => hpos'⟩
      · rw [hlives]
        split_ifs <;> omega
      · rw [hlives]
        split_ifs <;> omega
    · have hloss' : GameManager.lossDetected g hw = false := by simpa using hloss
      rw [hloss'] at hlives
      simp only [Bool.false_eq_true, if_false] at hlives
      refine ⟨?_, ?_, ?_⟩
      · rw [hlives]
        split_ifs <;> omega
      · rw [hlives]
        split_ifs <;> omega
      · intro hz
        rw [hlives] at hz
        split_ifs at hz <;> omega

/-- Every state of the game in a console that keeps its size has the life counter facts. -/
theorem GameManager.reachable_livesInRange (g : GameManager) (h : GameManager.Reachable g) :
    GameManager.LivesInRange g := by
  induction h with
  | start => exact ⟨by decide, by decide, fun _ => by decide⟩
  | step g hw probe hr _ ih =>
    exact GameManager.livesInRange_step g hw probe (GameManager.reachable_playfield g hr) ih

end Arkanoid

/-- C30: in the 120 x 30 game with a console that keeps its size, every reachable state has
`0 ≤ lives ≤ 3`; from a reachable state with `lives = 0` an iteration leaves the counter at 0
unless SPACE has a rising edge, in which case the restart sets it to 3. -/
theorem C30_lives_between_0_and_3 (g : Arkanoid.GameManager)
    (hreach : Arkanoid.GameManager.Reachable g) :
    (0 ≤ g.lives ∧ g.lives ≤ 3) ∧
    (g.lives = 0 → ∀ (hw : Int → Bool) (probe : Option (Int × Int)),
      ((g.input.update hw).isKeyPressed Arkanoid.VK_SPACE = false →
        (Arkanoid.GameManager.gameLoopBody g hw probe).1.lives = 0) ∧
      ((g.input.update hw).isKeyPressed Arkanoid.VK_SPACE = true →
        (Arkanoid.GameManager.gameLoopBody g hw probe).1.lives = 3)) := by
  obtain ⟨h0, h3, hzero⟩ := Arkanoid.GameManager.reachable_livesInRange g hreach
  refine ⟨⟨h0, h3⟩, ?_⟩
  intro hl hw probe
  obtain ⟨hidle, hrestart⟩ := Arkanoid.GameManager.gameLoopBody_gameOver g hw probe
    (Arkanoid.GameManager.reachable_playfield g hreach) hl (hzero hl)
  exact ⟨fun hs => (hidle hs).1, hrestart⟩

/-- The state after one iteration of the started game with no key held is reachable, so its
life counter is between 0 and 3. -/
theorem C30_lives_witness :
    0 ≤ (Arkanoid.GameManager.gameLoopBody Arkanoid.GameManager.initial
      Arkanoid.GameManager.noKeys none).1.lives ∧
    (Arkanoid.GameManager.gameLoopBody Arkanoid.GameManager.initial
      Arkanoid.GameManager.noKeys none).1.lives ≤ 3 :=
  (C30_lives_between_0_and_3 _
    (Arkanoid.GameManager.Reachable.step Arkanoid.GameManager.initial
      Arkanoid.GameManager.noKeys none Arkanoid.GameManager.Reachable.start (Or.inl rfl))).1

namespace Arkanoid

/-- Every state of a run of the started game is reachable. -/
theorem GameManager.reachable_run (keyboards : List (Int → Bool)) :
    GameManager.Reachable (GameManager.run keyboards) := by
  have key : ∀ (ks : List (Int → Bool)) (g : GameManager), GameManager.Reachable g →
      GameManager.Reachable (ks.foldl (fun g hw => (GameManager.gameLoopBody g hw none).1) g) := by
    intro ks
    induction ks with
    | nil => intro g hg; exact hg
    | cons hw rest ih =>
      intro g hg
      rw [List.foldl_cons]
      exact ih _ (GameManager.Reachable.step g hw none hg (Or.inl rfl))
  exact key keyboards _ GameManager.Reachable.start

/-- The collision section preserves the playfield facts. -/
theorem GameManager.playfield_afterCollision (g : GameManager) (hw : Int → Bool)
    (h : GameManager.Playfield g) : GameManager.Playfield (GameManager.afterCollision g hw) := by
  have h0 : GameManager.Playfield { g with ballDestroy := false, input := g.input.update hw } := h
  have hflip : ∀ d : Int, (d = 1 ∨ d = -1) → (d * -1 = 1 ∨ d * -1 = -1) := by
    intro d hd
    omega
  have hcontrol : GameManager.Playfield
      (GameManager.control { g with ballDestroy := false, input := g.input.update hw }) := by
    obtain ⟨h1, h2, h3, h4, h5, h6, h7⟩ := h0
    simp only [GameManager.control]
    split_ifs <;> exact ⟨h1, h2, by simpa [Paddle.move] using h3, h4, h5, h6, h7⟩
  have hwall : GameManager.Playfield (GameManager.atCollision g hw) := by
    obtain ⟨h1, h2, h3, h4, h5, h6, h7⟩ := hcontrol
    simp only [GameManager.atCollision, GameManager.wallCheck]
    split_ifs <;> exact ⟨h1, h2, h3, h4, h5, h6, h7⟩
  have hceil : GameManager.Playfield (GameManager.ceilingCheck (GameManager.atCollision g hw)) := by
    obtain ⟨h1, h2, h3, h4, h5, h6, h7⟩ := hwall
    simp only [GameManager.ceilingCheck]
    split_ifs
    · exact ⟨h1, h2, h3, h4, h5, hflip _ h6, h7⟩
    · exact ⟨h1, h2, h3, h4, h5, h6, h7⟩
  have hpaddle : GameManager.Playfield (GameManager.paddleBounce
      (GameManager.ceilingCheck (GameManager.atCollision g hw))
      (GameManager.nextBallRect (GameManager.atCollision g hw))) := by
    obtain ⟨h1, h2, h3, h4, h5, h6, h7⟩ := hceil
    simp only [GameManager.paddleBounce]
    split_ifs
    · exact ⟨h1, h2, h3, h4, h5, hflip _ h6, h7⟩
    · exact ⟨h1, h2, h3, h4, h5, hflip _ h6, h7⟩
    · exact ⟨h1, h2, h3, h4, h5, hflip _ h6, h7⟩
    · exact ⟨h1, h2, h3, h4, h5, h6, h7⟩
    · exact ⟨h1, h2, h3, h4, h5, h6, h7⟩
  obtain ⟨h1, h2, h3, h4, h5, h6, h7⟩ := hpaddle
  have hm := GameManager.scanBricks_map_getRect
    (GameManager.paddleBounce (GameManager.ceilingCheck (GameManager.atCollision g hw))
      (GameManager.nextBallRect (GameManager.atCollision g hw))).ball.getRect
    (GameManager.paddleBounce (GameManager.ceilingCheck (GameManager.atCollision g hw))
      (GameManager.nextBallRect (GameManager.atCollision g hw))).bricks
  simp only [GameManager.afterCollision, GameManager.brickCollision]
  split_ifs
  · exact ⟨h1, h2, h3, h4, h5, hflip _ h6, hm.trans h7⟩
  · exact ⟨h1, h2, h3, h4, h5, h6, hm.trans h7⟩

/-- One iteration with `D` held, in the first 17 iterations of the started game: the paddle
moves 3 columns to the right, and no second ball can be lost yet. -/
theorem GameManager.holdD_step (g : GameManager) (n : Int) (hn0 : 0 ≤ n) (hn : n ≤ 16)
    (hfield : GameManager.Playfield g) (hspeed : g.speed = 3)
    (hx : g._paddle.pos.x = 60 + 3 * n) (hshape : g._paddle._shape = List.replicate 10 1)
    (hP : (g.lives = 3 ∧ 15 - n ≤ g.ball.pos.y ∧ g.ball.pos.y ≤ 15 + n) ∨
      (g.lives = 2 ∧ 30 - n ≤ g.ball.pos.y ∧ g.ball.pos.y ≤ n)) :
    (GameManager.gameLoopBody g GameManager.holdD none).1.speed = 3 ∧
    (GameManager.gameLoopBody g GameManager.holdD none).1._paddle.pos.x = 60 + 3 * (n + 1) ∧
    (GameManager.gameLoopBody g GameManager.holdD none).1._paddle._shape = List.replicate 10 1 ∧
    (((GameManager.gameLoopBody g GameManager.holdD none).1.lives = 3 ∧
        15 - (n + 1) ≤ (GameManager.gameLoopBody g GameManager.holdD none).1.ball.pos.y ∧
        (GameManager.gameLoopBody g GameManager.holdD none).1.ball.pos.y ≤ 15 + (n + 1)) ∨
      ((GameManager.gameLoopBody g GameManager.holdD none).1.lives = 2 ∧
        30 - (n + 1) ≤ (GameManager.gameLoopBody g GameManager.holdD none).1.ball.pos.y ∧
        (GameManager.gameLoopBody g GameManager.holdD none).1.ball.pos.y ≤ n + 1)) := by
  have hD : (g.input.update GameManager.holdD).isKeyDown key_D = true := by
    have hc := (InputHandler.updateWith_watched InputHandler.keys g.input GameManager.holdD
      key_D (by decide)).1
    have hc' : (g.input.update GameManager.holdD).currentKeys key_D = some true := hc
    simp [InputHandler.isKeyDown, hc']
  have hS : (g.input.update GameManager.holdD).isKeyPressed VK_SPACE = false := by
    have hc := (InputHandler.updateWith_watched InputHandler.keys g.input GameManager.holdD
      VK_SPACE (by decide)).1
    have hc' : (g.input.update GameManager.holdD).currentKeys VK_SPACE = some false := hc
    simp [InputHandler.isKeyPressed, InputHandler.isKeyDown, hc']
  obtain ⟨-, -, -, f4, -, -⟩ := GameManager.afterCollision_frame g GameManager.holdD
  have hnr : GameManager.restartTaken g GameManager.holdD = false := by
    simp [GameManager.restartTaken, f4, hS]
  obtain ⟨-, np, ns, nb⟩ := GameManager.gameLoopBody_no_restart g GameManager.holdD none hnr
  obtain ⟨hlives, -, hball⟩ := GameManager.gameLoopBody_lives_timer g GameManager.holdD none
  obtain ⟨h1, h2, h3, h4, h5, h6, h7⟩ := hfield
  have hpos : 0 < g.lives := by
    rcases hP with ⟨hl, -⟩ | ⟨hl, -⟩ <;> omega
  have hcontrol : (GameManager.control
      { g with ballDestroy := false, input := g.input.update GameManager.holdD })._paddle =
      g._paddle.move (1 * g.speed) 0 := by
    have hr : checkXBound g._window g._paddle.getRect.right = false := by
      simp only [checkXBound, Paddle.getRect, Rect.right, h1, h4, hx]
      rw [if_neg (by omega)]
    simp [GameManager.control, hpos, hD, hr]
  rw [hS] at hlives
  simp only [Bool.false_eq_true, and_false, if_false] at hlives
  refine ⟨by rw [ns, hspeed], ?_, ?_, ?_⟩
  · rw [np, hcontrol]
    simp only [Paddle.move, hspeed, hx]
    ring
  · rw [np, hcontrol]
    exact hshape
  · by_cases hloss : GameManager.lossDetected g GameManager.holdD = true
    · have hb := hball hloss
      rw [h1, h2] at hb
      have hy : (GameManager.gameLoopBody g GameManager.holdD none).1.ball.pos.y = 15 := by
        rw [hb]
        decide
      have himp := GameManager.lossDetected_imp g GameManager.holdD hloss
      rw [h2] at himp
      rw [hloss] at hlives
      simp only [if_true] at hlives
      rw [hlives, hy]
      rcases hP with ⟨hl, hlo, hhi⟩ | ⟨hl, hlo, hhi⟩
      · right
        omega
      · exfalso
        omega
    · have hloss' : GameManager.lossDetected g GameManager.holdD = false := by simpa using hloss
      rw [hloss'] at hlives
      simp only [Bool.false_eq_true, if_false] at hlives
      obtain ⟨-, -, -, -, -, hdir, -⟩ :=
        GameManager.playfield_afterCollision g GameManager.holdD ⟨h1, h2, h3, h4, h5, h6, h7⟩
      have hy : (GameManager.gameLoopBody g GameManager.holdD none).1.ball.pos.y = g.ball.pos.y ∨
          (GameManager.gameLoopBody g GameManager.holdD none).1.ball.pos.y = g.ball.pos.y + 1 ∨
          (GameManager.gameLoopBody g GameManager.holdD none).1.ball.pos.y = g.ball.pos.y - 1 := by
        rcases nb hloss' with e | e
        · left
          rw [e]
        · rw [e]
          simp only [Ball.move]
          rcases hdir with d | d <;> rw [d] <;> omega
      rw [hlives]
      rcases hP with ⟨hl, hlo, hhi⟩ | ⟨hl, hlo, hhi⟩
      · left
        omega
      · right
        omega

/-- The first 17 iterations of the started game with `D` held. -/
theorem GameManager.holdD_run (n : Nat) (hn : n ≤ 17) :
    GameManager.Playfield (GameManager.run (List.replicate n GameManager.holdD)) ∧
    (GameManager.run (List.replicate n GameManager.holdD)).speed = 3 ∧
    (GameManager.run (List.replicate n GameManager.holdD))._paddle.pos.x = 60 + 3 * (n : Int) ∧
    (GameManager.run (List.replicate n GameManager.holdD))._paddle._shape
      = List.replicate 10 1 ∧
    (((GameManager.run (List.replicate n GameManager.holdD)).lives = 3 ∧
        15 - (n : Int) ≤ (GameManager.run (List.replicate n GameManager.holdD)).ball.pos.y ∧
        (GameManager.run (List.replicate n GameManager.holdD)).ball.pos.y ≤ 15 + (n : Int)) ∨
      ((GameManager.run (List.replicate n GameManager.holdD)).lives = 2 ∧
        30 - (n : Int) ≤ (GameManager.run (List.replicate n GameManager.holdD)).ball.pos.y ∧
        (GameManager.run (List.replicate n GameManager.holdD)).ball.pos.y ≤ (n : Int))) := by
  induction n with
  | zero =>
    refine ⟨GameManager.playfield_initial, by decide, by decide, by decide, Or.inl ?_⟩
    exact ⟨by decide, by decide, by decide⟩
  | succ k ih =>
    obtain ⟨hf, hs, hx, hsh, hP⟩ := ih (by omega)
    have hrun : GameManager.run (List.replicate (k + 1) GameManager.holdD) =
        (GameManager.gameLoopBody (GameManager.run (List.replicate k GameManager.holdD))
          GameManager.holdD none).1 := by
      simp only [GameManager.run, List.replicate_succ', List.foldl_append, List.foldl_cons,
        List.foldl_nil]
    rw [hrun]
    obtain ⟨s1, s2, s3, s4⟩ := GameManager.holdD_step _ (k : Int) (by omega) (by omega)
      hf hs hx hsh hP
    refine ⟨GameManager.playfield_step _ _ none (Or.inl rfl) hf, s1, ?_, s3, ?_⟩
    · rw [s2]
      push_cast
      ring
    · push_cast
      exact s4

/-- The indices stored to by drawing a mask depend on the window only through its size. -/
theorem Window.drawObjectWrites_size (win : Window) (arr : List Int) (w h x y : Int)
    (hw : win.width = 120) (hh : win.height = 30) :
    win.drawObjectWrites arr w h x y = blankWindow.drawObjectWrites arr w h x y := by
  simp only [Window.drawObjectWrites, Window.checkWidthBound, Window.checkHeightBound, hw, hh,
    blankWindow]

end Arkanoid

/-- C29 (the code departs from it): after 17 iterations of the started game with `D` held,
a reachable state, the 10-wide paddle is at column 111 of row 29, so it ends at column 121,
past the 120 columns of the field, and drawing it with `drawObject` stores to the indices
3591..3600, the last of which is outside the 3600-cell buffer. The control section tests
the right edge before a move of 3 columns. -/
theorem C29_paddle_leaves_the_field :
    Arkanoid.GameManager.Reachable
      (Arkanoid.GameManager.run (List.replicate 17 Arkanoid.GameManager.holdD)) ∧
    (Arkanoid.GameManager.run (List.replicate 17 Arkanoid.GameManager.holdD))._paddle.pos
      = ⟨111, 29⟩ ∧
    (Arkanoid.GameManager.run (List.replicate 17 Arkanoid.GameManager.holdD))._paddle.getWidth
      = 10 ∧
    ¬ ((Arkanoid.GameManager.run (List.replicate 17 Arkanoid.GameManager.holdD))._paddle.getX
      + 10 ≤ 120) ∧
    (Arkanoid.GameManager.run (List.replicate 17 Arkanoid.GameManager.holdD))._window.drawObjectWrites
      (Arkanoid.GameManager.run (List.replicate 17 Arkanoid.GameManager.holdD))._paddle._shape
      (Arkanoid.GameManager.run (List.replicate 17 Arkanoid.GameManager.holdD))._paddle.getWidth
      (Arkanoid.GameManager.run (List.replicate 17 Arkanoid.GameManager.holdD))._paddle.getHeight
      (Arkanoid.GameManager.run (List.replicate 17 Arkanoid.GameManager.holdD))._paddle.getX
      (Arkanoid.GameManager.run (List.replicate 17 Arkanoid.GameManager.holdD))._paddle.getY
      = [3591, 3592, 3593, 3594, 3595, 3596, 3597, 3598, 3599, 3600] ∧
    ¬ ((3600 : Int) < 120 * 30) := by
  obtain ⟨⟨h1, h2, h3, h4, h5, -, -⟩, -, hx, hshape, -⟩ :=
    Arkanoid.GameManager.holdD_run 17 (le_refl _)
  have hx' : (Arkanoid.GameManager.run
      (List.replicate 17 Arkanoid.GameManager.holdD))._paddle.pos.x = 111 := by
    rw [hx]
    decide
  have hpos : (Arkanoid.GameManager.run
      (List.replicate 17 Arkanoid.GameManager.holdD))._paddle.pos = ⟨111, 29⟩ := by
    rw [← hx', ← h3]
  refine ⟨Arkanoid.GameManager.reachable_run _, hpos, h4, ?_, ?_, by decide⟩
  · simp only [Arkanoid.Paddle.getX, hx']
    decide
  · rw [Arkanoid.Window.drawObjectWrites_size _ _ _ _ _ _ h1 h2]
    simp only [Arkanoid.Paddle.getX, Arkanoid.Paddle.getY, Arkanoid.Paddle.getWidth,
      Arkanoid.Paddle.getHeight, hx', h3, h4, h5, hshape]
    decide

/-! ## The shooter: bounds passes and restart -/

/-- C21: an enemy at (40, 10) owns a bullet at (1, 11). After one `Enemy::update` the
bullet is at (-1, 11), out of bounds, while its enemy at (39, 10) is not; `checkCollisions`
keeps the enemy and the bullet, so a bullet that has left the field remains in play. The
same bullet held by the player is erased by the second loop. -/
theorem C21_enemy_bullet_stays_out_of_bounds :
    (SpaceShooter.GameManager.strayBullet.enemies.map
        fun (e : SpaceShooter.Enemy) => e.update 0 false SpaceShooter.dashFile) =
      [SpaceShooter.enemyAt 39 10 [SpaceShooter.bulletAt (-1) 11]] ∧
    (SpaceShooter.GameManager.checkCollisions
        { SpaceShooter.GameManager.strayBullet with
          enemies := [SpaceShooter.enemyAt 39 10 [SpaceShooter.bulletAt (-1) 11]] }).enemyBullets
      = [SpaceShooter.bulletAt (-1) 11] ∧
    (SpaceShooter.bulletAt (-1) 11).getPosition.isOutOfBounds = true ∧
    (SpaceShooter.GameManager.checkCollisions
        { SpaceShooter.GameManager.strayBullet with
          player := SpaceShooter.playerAt 5 5 5 [SpaceShooter.bulletAt (-1) 11] }).player.bullets
      = [] := by
  refine ⟨by decide, by decide, by decide, by decide⟩

namespace SpaceShooter

/-- What `start` leaves of a state given by its members. -/
theorem GameManager.start_mk (b : List Arkanoid.Cell) (p : Player) (e : List Enemy)
    (i : Arkanoid.InputHandler) (s : Int) :
    (GameManager.start ⟨b, p, e, i, s⟩).player.getHealth = 5 ∧
    (GameManager.start ⟨b, p, e, i, s⟩).player.getPosition = ⟨5, 5⟩ ∧
    (GameManager.start ⟨b, p, e, i, s⟩).score = 0 ∧
    (GameManager.start ⟨b, p, e, i, s⟩).enemies = [] ∧
    (GameManager.start ⟨b, p, e, i, s⟩).enemyBullets = [] ∧
    (GameManager.start ⟨b, p, e, i, s⟩).player.bullets = p.bullets :=
  ⟨rfl, rfl, rfl, rfl, rfl, rfl⟩

end SpaceShooter

/-- C22: `start` sets the health to 5, the position to (5, 5) and the score to 0 and
empties the enemy collection, and with it the enemy bullets, but it leaves the player's own
bullets as they were: restarting the dead player that has one bullet in flight leaves
that bullet in play. -/
theorem C22_start_keeps_player_bullets :
    (∀ g : SpaceShooter.GameManager,
      g.start.player.getHealth = 5 ∧ g.start.player.getPosition = ⟨5, 5⟩ ∧
      g.start.score = 0 ∧ g.start.enemies = [] ∧ g.start.enemyBullets = [] ∧
      g.start.player.bullets = g.player.bullets) ∧
    SpaceShooter.GameManager.deadWithBullet.input.isKeyPressed Arkanoid.VK_SPACE = true ∧
    SpaceShooter.GameManager.deadWithBullet.player.bullets = [SpaceShooter.bulletAt 150 13] ∧
    SpaceShooter.GameManager.deadWithBullet.deadBranch.player.bullets =
      [SpaceShooter.bulletAt 150 13] := by
  have hkey : SpaceShooter.GameManager.deadWithBullet.input.isKeyPressed Arkanoid.VK_SPACE
      = true := by decide
  refine ⟨?_, hkey, rfl, ?_⟩
  · rintro ⟨b, p, e, i, s⟩
    exact SpaceShooter.GameManager.start_mk b p e i s
  · rw [SpaceShooter.GameManager.deadBranch, if_pos hkey]
    rfl

/-! ## The shooter: collision passes -/

namespace SpaceShooter

theorem eraseFirstHit_none (bullet : Bullet) :
    ∀ (enemies : List Enemy), (∀ e ∈ enemies, bulletHitsEnemy bullet e = false) →
      eraseFirstHit bullet enemies = none := by
  intro enemies
  induction enemies with
  | nil => intro _; rfl
  | cons e rest ih =>
    intro h
    have he : bulletHitsEnemy bullet e = false := h e (List.mem_cons_self _ _)
    have hrest := ih fun x hx => h x (List.mem_cons_of_mem _ hx)
    simp [eraseFirstHit, he, hrest]

theorem eraseFirstHit_some (bullet : Bullet) (e : Enemy) (post : List Enemy)
    (he : bulletHitsEnemy bullet e = true) :
    ∀ (pre : List Enemy), (∀ p ∈ pre, bulletHitsEnemy bullet p = false) →
      eraseFirstHit bullet (pre ++ e :: post) = some (pre ++ post) := by
  intro pre
  induction pre with
  | nil => intro _; simp [eraseFirstHit, he]
  | cons p rest ih =>
    intro h
    have hp : bulletHitsEnemy bullet p = false := h p (List.mem_cons_self _ _)
    have hrest := ih fun x hx => h x (List.mem_cons_of_mem _ hx)
    simp [eraseFirstHit, hp, hrest]

/-- A hit of the inner loop erases exactly one enemy. -/
theorem eraseFirstHit_length (bullet : Bullet) :
    ∀ (enemies enemies' : List Enemy), eraseFirstHit bullet enemies = some enemies' →
      enemies'.length + 1 = enemies.length := by
  intro enemies
  induction enemies with
  | nil => intro enemies' h; simp [eraseFirstHit] at h
  | cons e rest ih =>
    intro enemies' h
    simp only [eraseFirstHit] at h
    split_ifs at h with hc
    · simp only [Option.some.injEq] at h
      subst h
      simp
    · cases hr : eraseFirstHit bullet rest with
      | none => simp [hr] at h
      | some es =>
        simp only [hr, Option.map_some', Option.some.injEq] at h
        subst h
        have := ih es hr
        simp only [List.length_cons]
        omega

/-- The third loop removes as many bullets as enemies and counts them in the score. -/
theorem bulletsVsEnemies_counts :
    ∀ (bullets : List Bullet) (enemies : List Enemy) (score : Int),
      ((bulletsVsEnemies bullets enemies score).1.length : Int) +
          ((bulletsVsEnemies bullets enemies score).2.2 - score) = bullets.length ∧
      ((bulletsVsEnemies bullets enemies score).2.1.length : Int) +
          ((bulletsVsEnemies bullets enemies score).2.2 - score) = enemies.length ∧
      score ≤ (bulletsVsEnemies bullets enemies score).2.2 := by
  intro bullets
  induction bullets with
  | nil => intro enemies score; simp [bulletsVsEnemies]
  | cons bullet rest ih =>
    intro enemies score
    cases hr : eraseFirstHit bullet enemies with
    | none =>
      have h := ih enemies score
      simp only [bulletsVsEnemies, hr, List.length_cons]
      push_cast
      omega
    | some es =>
      have h := ih es (score + 1)
      have hl := eraseFirstHit_length bullet enemies es hr
      simp only [bulletsVsEnemies, hr, List.length_cons]
      push_cast
      omega

/-- Taking damage changes neither the position nor the sprite the collision tests read. -/
theorem bulletHitsPlayer_congr (p p' : Player) (b : Bullet)
    (hpos : p'.m_position = p.m_position) (hsprite : p'.sprite = p.sprite) :
    bulletHitsPlayer p' b = bulletHitsPlayer p b := by
  simp [bulletHitsPlayer, Player.getPosition, hpos, hsprite]

theorem playerHitsEnemy_congr (p p' : Player) (e : Enemy)
    (hpos : p'.m_position = p.m_position) (hsprite : p'.sprite = p.sprite) :
    playerHitsEnemy p' e = playerHitsEnemy p e := by
  simp [playerHitsEnemy, Player.getPosition, hpos, hsprite]

/-- The inner loop of the fourth loop: the bullets that hit are erased, each for one point
of health. -/
theorem enemyBulletsLoop_eq :
    ∀ (bullets : List Bullet) (p : Player),
      (enemyBulletsLoop p bullets).1.m_health =
          p.m_health - (bullets.countP (bulletHitsPlayer p) : Nat) ∧
      (enemyBulletsLoop p bullets).1.m_position = p.m_position ∧
      (enemyBulletsLoop p bullets).1.sprite = p.sprite ∧
      (enemyBulletsLoop p bullets).1.bullets = p.bullets ∧
      (enemyBulletsLoop p bullets).2 = bullets.filter fun b => !bulletHitsPlayer p b := by
  intro bullets
  induction bullets with
  | nil => intro p; simp [enemyBulletsLoop]
  | cons b rest ih =>
    intro p
    by_cases hb : bulletHitsPlayer p b = true
    · have h := ih p.takeDamage
      have hc : bulletHitsPlayer p.takeDamage = bulletHitsPlayer p :=
        funext fun x => bulletHitsPlayer_congr p p.takeDamage x rfl rfl
      rw [hc] at h
      simp only [enemyBulletsLoop, hb, if_true, List.countP_cons_of_pos, List.filter_cons,
        Bool.not_true, Bool.false_eq_true, if_false]
      refine ⟨?_, h.2.1, h.2.2.1, h.2.2.2.1, h.2.2.2.2⟩
      rw [h.1]
      simp only [Player.takeDamage]
      push_cast
      ring
    · have h := ih p
      simp only [Bool.not_eq_true] at hb
      simp only [enemyBulletsLoop, hb, Bool.false_eq_true, if_false, List.filter_cons,
        Bool.not_false, if_true]
      refine ⟨?_, h.2.1, h.2.2.1, h.2.2.2.1, by rw [h.2.2.2.2]⟩
      rw [h.1, List.countP_cons_of_neg]
      simp [hb]

/-- The fourth loop over all enemies. -/
theorem enemyBulletsVsPlayer_eq :
    ∀ (enemies : List Enemy) (p : Player),
      (enemyBulletsVsPlayer p enemies).1.m_health =
          p.m_health -
            ((enemies.flatMap Enemy.getBullets).countP (bulletHitsPlayer p) : Nat) ∧
      (enemyBulletsVsPlayer p enemies).1.m_position = p.m_position ∧
      (enemyBulletsVsPlayer p enemies).1.sprite = p.sprite ∧
      (enemyBulletsVsPlayer p enemies).1.bullets = p.bullets ∧
      (enemyBulletsVsPlayer p enemies).2 =
        enemies.map fun e =>
          { e with bullets := e.bullets.filter fun b => !bulletHitsPlayer p b } := by
  intro enemies
  induction enemies with
  | nil => intro p; simp [enemyBulletsVsPlayer]
  | cons e rest ih =>
    intro p
    have hl := enemyBulletsLoop_eq e.getBullets p
    have h := ih (enemyBulletsLoop p e.getBullets).1
    have hc : bulletHitsPlayer (enemyBulletsLoop p e.getBullets).1 = bulletHitsPlayer p :=
      funext fun x => bulletHitsPlayer_congr p _ x hl.2.1 hl.2.2.1
    rw [hc] at h
    simp only [enemyBulletsVsPlayer, List.flatMap_cons, List.countP_append, List.map_cons]
    refine ⟨?_, h.2.1.trans hl.2.1, h.2.2.1.trans hl.2.2.1, h.2.2.2.1.trans hl.2.2.2.1, ?_⟩
    · rw [h.1, hl.1]
      push_cast
      ring
    · rw [h.2.2.2.2, hl.2.2.2.2]
      rfl

/-- The fifth loop: the enemies that touch the player are erased, each for one point of
health. -/
theorem playerVsEnemies_eq :
    ∀ (enemies : List Enemy) (p : Player),
      (playerVsEnemies p enemies).1.m_health =
          p.m_health - (enemies.countP (playerHitsEnemy p) : Nat) ∧
      (playerVsEnemies p enemies).1.m_position = p.m_position ∧
      (playerVsEnemies p enemies).1.sprite = p.sprite ∧
      (playerVsEnemies p enemies).1.bullets = p.bullets ∧
      (playerVsEnemies p enemies).2 = enemies.filter fun e => !playerHitsEnemy p e := by
  intro enemies
  induction enemies with
  | nil => intro p; simp [playerVsEnemies]
  | cons e rest ih =>
    intro p
    by_cases he : playerHitsEnemy p e = true
    · have h := ih p.takeDamage
      have hc : playerHitsEnemy p.takeDamage = playerHitsEnemy p :=
        funext fun x => playerHitsEnemy_congr p p.takeDamage x rfl rfl
      rw [hc] at h
      simp only [playerVsEnemies, he, if_true, List.countP_cons_of_pos, List.filter_cons,
        Bool.not_true, Bool.false_eq_true, if_false]
      refine ⟨?_, h.2.1, h.2.2.1, h.2.2.2.1, h.2.2.2.2⟩
      rw [h.1]
      simp only [Player.takeDamage]
      push_cast
      ring
    · have h := ih p
      simp only [Bool.not_eq_true] at he
      simp only [playerVsEnemies, he, Bool.false_eq_true, if_false, List.filter_cons,
        Bool.not_false, if_true]
      refine ⟨?_, h.2.1, h.2.2.1, h.2.2.2.1, by rw [h.2.2.2.2]⟩
      rw [h.1, List.countP_cons_of_neg]
      simp [he]

end SpaceShooter

/-- C23: the third loop of `checkCollisions` takes the player bullets in collection order.
A bullet that overlaps an enemy of the current collection is erased together with the first
such enemy and the score rises by 1, and the loop goes on with the other bullets; a bullet
that overlaps no enemy is kept and erases nothing. The score rises by the number of bullets
erased, which is the number of enemies erased. -/
theorem C23_player_bullet_first_match (bullets : List SpaceShooter.Bullet)
    (enemies : List SpaceShooter.Enemy) (score : Int) :
    (∀ (bullet : SpaceShooter.Bullet) (rest : List SpaceShooter.Bullet)
        (pre : List SpaceShooter.Enemy) (e : SpaceShooter.Enemy)
        (post : List SpaceShooter.Enemy),
      enemies = pre ++ e :: post →
      (∀ p ∈ pre, SpaceShooter.bulletHitsEnemy bullet p = false) →
      SpaceShooter.bulletHitsEnemy bullet e = true →
        SpaceShooter.bulletsVsEnemies (bullet :: rest) enemies score =
          SpaceShooter.bulletsVsEnemies rest (pre ++ post) (score + 1)) ∧
    (∀ (bullet : SpaceShooter.Bullet) (rest : List SpaceShooter.Bullet),
      (∀ e ∈ enemies, SpaceShooter.bulletHitsEnemy bullet e = false) →
        SpaceShooter.bulletsVsEnemies (bullet :: rest) enemies score =
          (bullet :: (SpaceShooter.bulletsVsEnemies rest enemies score).1,
            (SpaceShooter.bulletsVsEnemies rest enemies score).2.1,
            (SpaceShooter.bulletsVsEnemies rest enemies score).2.2)) ∧
    ((SpaceShooter.bulletsVsEnemies bullets enemies score).2.2 - score =
        (bullets.length : Int) - (SpaceShooter.bulletsVsEnemies bullets enemies score).1.length ∧
      (SpaceShooter.bulletsVsEnemies bullets enemies score).2.2 - score =
        (enemies.length : Int) -
          (SpaceShooter.bulletsVsEnemies bullets enemies score).2.1.length ∧
      0 ≤ (SpaceShooter.bulletsVsEnemies bullets enemies score).2.2 - score) := by
  refine ⟨?_, ?_, ?_⟩
  · intro bullet rest pre e post hsplit hpre he
    subst hsplit
    simp only [SpaceShooter.bulletsVsEnemies,
      SpaceShooter.eraseFirstHit_some bullet e post he pre hpre]
  · intro bullet rest hall
    simp only [SpaceShooter.bulletsVsEnemies, SpaceShooter.eraseFirstHit_none bullet enemies hall]
  · have h := SpaceShooter.bulletsVsEnemies_counts bullets enemies score
    omega

/-- Two bullets and two enemies: the first bullet overlaps both enemies and is erased with
the first of them; the second bullet overlaps no enemy and stays, as does the second
enemy. -/
theorem C23_player_bullet_witness :
    SpaceShooter.bulletsVsEnemies [SpaceShooter.bulletAt 50 5, SpaceShooter.bulletAt 20 20]
        [SpaceShooter.enemyAt 49 5 [], SpaceShooter.enemyAt 50 4 []] 0 =
      SpaceShooter.bulletsVsEnemies [SpaceShooter.bulletAt 20 20]
        ([] ++ [SpaceShooter.enemyAt 50 4 []]) (0 + 1) ∧
    SpaceShooter.bulletHitsEnemy (SpaceShooter.bulletAt 50 5) (SpaceShooter.enemyAt 50 4 []) =
      true ∧
    SpaceShooter.bulletsVsEnemies [SpaceShooter.bulletAt 20 20]
        ([] ++ [SpaceShooter.enemyAt 50 4 []]) (0 + 1) =
      ([SpaceShooter.bulletAt 20 20], [SpaceShooter.enemyAt 50 4 []], 1) :=
  ⟨(C23_player_bullet_first_match [SpaceShooter.bulletAt 50 5, SpaceShooter.bulletAt 20 20]
      [SpaceShooter.enemyAt 49 5 [], SpaceShooter.enemyAt 50 4 []] 0).1
      (SpaceShooter.bulletAt 50 5) [SpaceShooter.bulletAt 20 20] []
      (SpaceShooter.enemyAt 49 5 []) [SpaceShooter.enemyAt 50 4 []] rfl (by decide) (by decide),
    by decide, by decide⟩

/-- C24 as stated fails: an enemy whose body overlaps the player owns a bullet at (2, 6)
that does not overlap the player. The last two loops cost the player one point of health
and erase the enemy, and the bullet goes with it although it overlaps nothing. -/
theorem C24_counterexample_bullet_of_erased_enemy :
    SpaceShooter.bulletHitsPlayer (SpaceShooter.playerAt 5 5 5 []) (SpaceShooter.bulletAt 2 6)
      = false ∧
    SpaceShooter.playerHitsEnemy (SpaceShooter.playerAt 5 5 5 []) SpaceShooter.ramming = true ∧
    SpaceShooter.bulletAt 2 6 ∈ [SpaceShooter.ramming].flatMap SpaceShooter.Enemy.getBullets ∧
    (SpaceShooter.playerVsEnemies
      (SpaceShooter.enemyBulletsVsPlayer (SpaceShooter.playerAt 5 5 5 [])
        [SpaceShooter.ramming]).1
      (SpaceShooter.enemyBulletsVsPlayer (SpaceShooter.playerAt 5 5 5 [])
        [SpaceShooter.ramming]).2) = (SpaceShooter.playerAt 5 5 4 [], []) := by
  refine ⟨by decide, by decide, by decide, by decide⟩

/-- C24, amended: in the last two loops of `checkCollisions` the player's health falls by
the number of enemy bullets that overlap the player plus the number of enemies whose body
overlaps the player, and nothing else of the player changes. The enemies left are those
whose body does not overlap the player, in their original order, and each of them keeps
the bullets of its own that do not overlap the player, in their original order; the
bullets of an erased enemy go with it. -/
theorem C24_damage_and_removals (player : SpaceShooter.Player)
    (enemies : List SpaceShooter.Enemy) :
    (SpaceShooter.playerVsEnemies (SpaceShooter.enemyBulletsVsPlayer player enemies).1
        (SpaceShooter.enemyBulletsVsPlayer player enemies).2).1.getHealth =
      player.getHealth -
        ((enemies.flatMap SpaceShooter.Enemy.getBullets).countP
          (SpaceShooter.bulletHitsPlayer player) : Nat) -
        (enemies.countP (SpaceShooter.playerHitsEnemy player) : Nat) ∧
    (SpaceShooter.playerVsEnemies (SpaceShooter.enemyBulletsVsPlayer player enemies).1
        (SpaceShooter.enemyBulletsVsPlayer player enemies).2).2 =
      (enemies.filter fun e => !SpaceShooter.playerHitsEnemy player e).map
        (fun e => { e with
          bullets := e.bullets.filter fun b => !SpaceShooter.bulletHitsPlayer player b }) ∧
    (SpaceShooter.playerVsEnemies (SpaceShooter.enemyBulletsVsPlayer player enemies).1
        (SpaceShooter.enemyBulletsVsPlayer player enemies).2).1.getPosition =
      player.getPosition ∧
    (SpaceShooter.playerVsEnemies (SpaceShooter.enemyBulletsVsPlayer player enemies).1
        (SpaceShooter.enemyBulletsVsPlayer player enemies).2).1.sprite = player.sprite ∧
    (SpaceShooter.playerVsEnemies (SpaceShooter.enemyBulletsVsPlayer player enemies).1
        (SpaceShooter.enemyBulletsVsPlayer player enemies).2).1.bullets = player.bullets := by
  have h4 := SpaceShooter.enemyBulletsVsPlayer_eq enemies player
  have h5 := SpaceShooter.playerVsEnemies_eq (SpaceShooter.enemyBulletsVsPlayer player enemies).2
    (SpaceShooter.enemyBulletsVsPlayer player enemies).1
  have hc : SpaceShooter.playerHitsEnemy (SpaceShooter.enemyBulletsVsPlayer player enemies).1
      = SpaceShooter.playerHitsEnemy player :=
    funext fun x => SpaceShooter.playerHitsEnemy_congr player _ x h4.2.1 h4.2.2.1
  rw [hc] at h5
  refine ⟨?_, ?_, h5.2.1.trans h4.2.1, h5.2.2.1.trans h4.2.2.1, h5.2.2.2.1.trans h4.2.2.2.1⟩
  · simp only [SpaceShooter.Player.getHealth]
    rw [h5.1, h4.1, h4.2.2.2.2, List.countP_map]
    congr 1
  · rw [h5.2.2.2.2, h4.2.2.2.2, List.filter_map]
    congr 1

/-! ## The shooter: spawning enemies -/

namespace SpaceShooter

/-- The spawn loop ends once it has fuel for the missing enemies and the last test, with the
collection it started from followed by the new enemies, each at a column from 130 to 140
and a row from 1 to `g_globalHeight - 5`. -/
theorem GameManager.spawnLoop_spec (enemyFile : TextFile) (clock : Nat → Nat)
    (rand : Nat → Int) (hrand : ∀ i, 0 ≤ rand i) :
    ∀ (fuel k : Nat) (enemies : List Enemy), 10 - enemies.length < fuel →
      ∃ added : List Enemy,
        GameManager.spawnLoop enemyFile clock rand fuel k enemies = some (enemies ++ added) ∧
        (enemies ++ added).length = max enemies.length 10 ∧
        ∀ e ∈ added,
          (130 ≤ e.getPosition.x ∧ e.getPosition.x ≤ 140) ∧
          (1 ≤ e.getPosition.y ∧ e.getPosition.y ≤ g_globalHeight - 5) := by
  intro fuel
  induction fuel with
  | zero =>
    intro k enemies h
    omega
  | succ fuel ih =>
    intro k enemies h
    by_cases hlen : enemies.length < 10
    · have hx0 := Int.tmod_nonneg (11 : Int) (hrand k)
      have hx1 := Int.tmod_lt_of_pos (rand k) (show (0 : Int) < 11 by decide)
      have hy0 := Int.tmod_nonneg (25 : Int) (hrand (k + 1))
      have hy1 := Int.tmod_lt_of_pos (rand (k + 1)) (show (0 : Int) < 25 by decide)
      obtain ⟨added, hrun, hcount, hpos⟩ :=
        ih (k + 2) (enemies ++ [GameManager.spawned enemyFile (clock k) (rand k) (rand (k + 1))])
          (by simp only [List.length_append, List.length_singleton]; omega)
      refine ⟨GameManager.spawned enemyFile (clock k) (rand k) (rand (k + 1)) :: added,
        ?_, ?_, ?_⟩
      · simp only [GameManager.spawnLoop, hlen, if_true]
        rw [hrun]
        simp
      · simp only [List.length_append, List.length_singleton, List.length_cons,
          List.length_nil] at hcount ⊢
        omega
      · intro e he
        rcases List.mem_cons.mp he with h1 | h1
        · subst h1
          simp only [GameManager.spawned, Enemy.getPosition, Enemy.setPosition, g_globalHeight]
          norm_num
          omega
        · exact hpos e h1
    · refine ⟨[], ?_, ?_, ?_⟩
      · simp only [GameManager.spawnLoop, hlen, if_false, List.append_nil]
      · simp only [List.append_nil]
        omega
      · intro e he
        simp at he

end SpaceShooter

/-- C28: for every enemy collection and every sequence of non-negative draws, the loop of
`spawnEnemies` ends (any fuel above the number of missing enemies is enough) with
max(previous count, 10) enemies: the previous enemies, unchanged and in their order,
followed by the new ones, each at a column from 130 to 140, so not left of column 120, and
a row from 1 to `g_globalHeight - 5`, which `isOutOfBounds` does not reject. -/
theorem C28_spawnEnemies_tops_up (g : SpaceShooter.GameManager)
    (enemyFile : SpaceShooter.TextFile) (clock : Nat → Nat) (rand : Nat → Int) (fuel : Nat)
    (hrand : ∀ i, 0 ≤ rand i) (hfuel : 10 - g.enemies.length < fuel) :
    ∃ added : List SpaceShooter.Enemy,
      (g.spawnEnemies enemyFile clock rand fuel).map (fun g' => g'.enemies) =
        some (g.enemies ++ added) ∧
      (g.enemies ++ added).length = max g.enemies.length 10 ∧
      ∀ e ∈ added,
        (130 ≤ e.getPosition.x ∧ e.getPosition.x ≤ 140) ∧
        (1 ≤ e.getPosition.y ∧ e.getPosition.y ≤ SpaceShooter.g_globalHeight - 5) ∧
        120 ≤ e.getPosition.x ∧ e.getPosition.isOutOfBounds = false := by
  obtain ⟨added, hrun, hcount, hpos⟩ :=
    SpaceShooter.GameManager.spawnLoop_spec enemyFile clock rand hrand fuel 0 g.enemies hfuel
  refine ⟨added, ?_, hcount, ?_⟩
  · simp only [SpaceShooter.GameManager.spawnEnemies, hrun, Option.map_some']
  · intro e he
    obtain ⟨hx, hy⟩ := hpos e he
    refine ⟨hx, hy, by omega, ?_⟩
    simp only [SpaceShooter.g_globalHeight] at hy
    simp only [SpaceShooter.Position.isOutOfBounds, SpaceShooter.g_globalWidth,
      SpaceShooter.g_globalHeight, Bool.or_eq_false_iff, decide_eq_false_iff_not]
    omega

/-- Nine enemies and draws that are all 7: the loop adds one enemy, at (137, 8). -/
theorem C28_spawnEnemies_witness :
    ∃ added : List SpaceShooter.Enemy,
      (SpaceShooter.GameManager.spawnEnemies
          { SpaceShooter.GameManager.strayBullet with
            enemies := List.replicate 9 (SpaceShooter.enemyAt 60 3 []) }
          SpaceShooter.shipFile (fun _ => 0) (fun _ => 7) 2).map (fun g' => g'.enemies) =
        some (List.replicate 9 (SpaceShooter.enemyAt 60 3 []) ++ added) ∧
      (List.replicate 9 (SpaceShooter.enemyAt 60 3 []) ++ added).length =
        max (List.replicate 9 (SpaceShooter.enemyAt 60 3 [])).length 10 ∧
      ∀ e ∈ added,
        (130 ≤ e.getPosition.x ∧ e.getPosition.x ≤ 140) ∧
        (1 ≤ e.getPosition.y ∧ e.getPosition.y ≤ SpaceShooter.g_globalHeight - 5) ∧
        120 ≤ e.getPosition.x ∧ e.getPosition.isOutOfBounds = false :=
  C28_spawnEnemies_tops_up
    { SpaceShooter.GameManager.strayBullet with
      enemies := List.replicate 9 (SpaceShooter.enemyAt 60 3 []) }
    SpaceShooter.shipFile (fun _ => 0) (fun _ => 7) 2 (fun _ => show (0 : Int) ≤ 7 by decide) (by decide)

/-! ## The shooter: loading a sprite -/

namespace SpaceShooter

theorem Sprite.stripCR_snoc (l : List Nat) : Sprite.stripCR (l ++ [13]) = l := by
  simp [Sprite.stripCR]

theorem Sprite.stripCR_of_no_cr (l : List Nat) (h : l.getLast? ≠ some 13) :
    Sprite.stripCR l = l := by
  simp [Sprite.stripCR, h]

/-- The read loop from any accumulator: the lines are appended stripped, and the width
grows to the longest of them. -/
theorem Sprite.readLines_fold :
    ∀ (raw : List (List Nat)) (acc : List (List Nat) × Nat),
      (raw.foldl
        (fun (acc : List (List Nat) × Nat) (line : List Nat) =>
          (acc.1 ++ [Sprite.stripCR line],
            if (Sprite.stripCR line).length > acc.2 then (Sprite.stripCR line).length
            else acc.2)) acc).1 = acc.1 ++ raw.map Sprite.stripCR ∧
      acc.2 ≤ (raw.foldl
        (fun (acc : List (List Nat) × Nat) (line : List Nat) =>
          (acc.1 ++ [Sprite.stripCR line],
            if (Sprite.stripCR line).length > acc.2 then (Sprite.stripCR line).length
            else acc.2)) acc).2 ∧
      (∀ line ∈ raw, (Sprite.stripCR line).length ≤ (raw.foldl
        (fun (acc : List (List Nat) × Nat) (line : List Nat) =>
          (acc.1 ++ [Sprite.stripCR line],
            if (Sprite.stripCR line).length > acc.2 then (Sprite.stripCR line).length
            else acc.2)) acc).2) ∧
      ((raw.foldl
        (fun (acc : List (List Nat) × Nat) (line : List Nat) =>
          (acc.1 ++ [Sprite.stripCR line],
            if (Sprite.stripCR line).length > acc.2 then (Sprite.stripCR line).length
            else acc.2)) acc).2 = acc.2 ∨
        ∃ line ∈ raw, (Sprite.stripCR line).length = (raw.foldl
          (fun (acc : List (List Nat) × Nat) (line : List Nat) =>
            (acc.1 ++ [Sprite.stripCR line],
              if (Sprite.stripCR line).length > acc.2 then (Sprite.stripCR line).length
              else acc.2)) acc).2) := by
  intro raw
  induction raw with
  | nil => intro acc; simp
  | cons line rest ih =>
    intro acc
    obtain ⟨h1, h2, h3, h4⟩ := ih (acc.1 ++ [Sprite.stripCR line],
      if (Sprite.stripCR line).length > acc.2 then (Sprite.stripCR line).length else acc.2)
    simp only [List.foldl_cons, List.map_cons]
    refine ⟨?_, ?_, ?_, ?_⟩
    · rw [h1]; simp
    · refine le_trans ?_ h2
      split_ifs <;> omega
    · intro l hl
      rcases List.mem_cons.mp hl with hl | hl
      · subst hl
        refine le_trans ?_ h2
        split_ifs <;> omega
      · exact h3 l hl
    · rcases h4 with h4 | ⟨l, hl, h4⟩
      · by_cases hgt : (Sprite.stripCR line).length > acc.2
        · right
          refine ⟨line, List.mem_cons_self _ _, ?_⟩
          rw [h4]; simp [hgt]
        · left
          rw [h4]; simp [hgt]
      · right
        exact ⟨l, List.mem_cons_of_mem _ hl, h4⟩

/-- The read loop: the stripped lines, and the length of the longest of them. -/
theorem Sprite.readLines_spec (raw : List (List Nat)) :
    (Sprite.readLines raw).1 = raw.map Sprite.stripCR ∧
    (∀ line ∈ raw, (Sprite.stripCR line).length ≤ (Sprite.readLines raw).2) ∧
    (raw ≠ [] → ∃ line ∈ raw, (Sprite.stripCR line).length = (Sprite.readLines raw).2) := by
  obtain ⟨h1, _, h3, h4⟩ := Sprite.readLines_fold raw ([], 0)
  refine ⟨by simpa [Sprite.readLines] using h1, h3, ?_⟩
  intro hne
  rcases h4 with h4 | h4
  · obtain ⟨line, rest, rfl⟩ := List.exists_cons_of_ne_nil hne
    refine ⟨line, List.mem_cons_self _ _, ?_⟩
    have := h3 line (List.mem_cons_self _ _)
    simp only at h4
    simp only [Sprite.readLines]
    omega
  · exact h4

theorem Sprite.shaped_Create (s : Sprite) (w h : Nat) : (s.Create (w : Int) (h : Int)).Shaped w h := by
  refine ⟨rfl, rfl, ?_⟩
  simp only [Sprite.Create, List.length_replicate]
  rw [← Nat.cast_mul, Int.toNat_ofNat]

theorem Sprite.shaped_SetGlyph (s : Sprite) (w h : Nat) (hs : s.Shaped w h) (x y : Int) (c : Nat) :
    (s.SetGlyph x y c).Shaped w h := by
  obtain ⟨h1, h2, h3⟩ := hs
  simp only [Sprite.SetGlyph]
  split_ifs
  · exact ⟨h1, h2, h3⟩
  · exact ⟨h1, h2, by simpa using h3⟩

/-- Reading a cell of a shaped sprite after a `SetGlyph` on a cell of it. -/
theorem Sprite.GetGlyph_SetGlyph (s : Sprite) (w h : Nat) (hs : s.Shaped w h)
    (x y x' y' : Nat) (c : Nat) (hx : x < w) (hy : y < h) (hx' : x' < w) (hy' : y' < h) :
    (s.SetGlyph (x : Int) (y : Int) c).GetGlyph (x' : Int) (y' : Int) =
      if x' = x ∧ y' = y then c else s.GetGlyph (x' : Int) (y' : Int) := by
  obtain ⟨h1, h2, h3⟩ := hs
  have c1 : ¬ ((x : Int) < 0 ∨ (x : Int) ≥ s.m_width ∨ (y : Int) < 0 ∨ (y : Int) ≥ s.m_height) := by
    rw [h1, h2]; omega
  have c2 : ¬ ((x' : Int) < 0 ∨ (x' : Int) ≥ s.m_width ∨ (y' : Int) < 0 ∨
      (y' : Int) ≥ s.m_height) := by
    rw [h1, h2]; omega
  have e1 : ((y : Int) * s.m_width + (x : Int)).toNat = y * w + x := by
    rw [h1, ← Nat.cast_mul, ← Nat.cast_add, Int.toNat_ofNat]
  have e2 : ((y' : Int) * s.m_width + (x' : Int)).toNat = y' * w + x' := by
    rw [h1, ← Nat.cast_mul, ← Nat.cast_add, Int.toNat_ofNat]
  have hin : y * w + x < s.m_Glyphs.length := by
    rw [h3]
    have : (y + 1) * w ≤ h * w := Nat.mul_le_mul_right w hy
    nlinarith
  simp only [Sprite.SetGlyph, Sprite.GetGlyph, if_neg c1, if_neg c2, e1, e2,
    List.getD_eq_getElem?_getD, List.getElem?_set]
  by_cases hsame : x' = x ∧ y' = y
  · obtain ⟨rfl, rfl⟩ := hsame
    simp [hin]
  · have hne : ¬ (y * w + x = y' * w + x') := by
      intro heq
      have := Arkanoid.index_injective (w : Int) (x : Int) (y : Int) (x' : Int) (y' : Int)
        (by omega) (by omega) (by exact_mod_cast heq)
      omega
    simp [hsame, hne]

/-- One row of the copy loops: the cells of row `y` left of column `m` hold the glyphs the
loop computes, the others are as before. -/
theorem Sprite.fillRow (w h : Nat) (y : Nat) (hy : y < h) (f : Nat → Nat) :
    ∀ (m : Nat), m ≤ w → ∀ (s : Sprite), s.Shaped w h →
      ((List.range m).foldl (fun (s : Sprite) (x : Nat) => s.SetGlyph (x : Int) (y : Int) (f x))
          s).Shaped w h ∧
      ∀ (x' y' : Nat), x' < w → y' < h →
        ((List.range m).foldl
            (fun (s : Sprite) (x : Nat) => s.SetGlyph (x : Int) (y : Int) (f x))
            s).GetGlyph (x' : Int) (y' : Int) =
          if y' = y ∧ x' < m then f x' else s.GetGlyph (x' : Int) (y' : Int) := by
  intro m
  induction m with
  | zero => intro _ s hs; simpa using hs
  | succ m ih =>
    intro hm s hs
    obtain ⟨hshape, hget⟩ := ih (by omega) s hs
    rw [List.range_succ, List.foldl_append]
    simp only [List.foldl_cons, List.foldl_nil]
    refine ⟨Sprite.shaped_SetGlyph _ w h hshape _ _ _, ?_⟩
    intro x' y' hx' hy'
    rw [Sprite.GetGlyph_SetGlyph _ w h hshape m y x' y' (f m) (by omega) hy hx' hy',
      hget x' y' hx' hy']
    by_cases h1 : x' = m ∧ y' = y
    · have h3 : y' = y ∧ x' < m + 1 := ⟨h1.2, by omega⟩
      rw [if_pos h1, if_pos h3, h1.1]
    · by_cases h2 : y' = y ∧ x' < m
      · have h3 : y' = y ∧ x' < m + 1 := ⟨h2.1, by omega⟩
        rw [if_neg h1, if_pos h2, if_pos h3]
      · have h3 : ¬ (y' = y ∧ x' < m + 1) := by
          intro hc
          rcases Nat.lt_succ_iff_lt_or_eq.mp hc.2 with h4 | h4
          · exact h2 ⟨hc.1, h4⟩
          · exact h1 ⟨h4, hc.1⟩
        rw [if_neg h1, if_neg h2, if_neg h3]

/-- The copy loops over the first `n` rows. -/
theorem Sprite.fillRows (w h : Nat) (F : Nat → Nat → Nat) :
    ∀ (n : Nat), n ≤ h → ∀ (s : Sprite), s.Shaped w h →
      ((List.range n).foldl
          (fun (s : Sprite) (y : Nat) =>
            (List.range w).foldl
              (fun (s : Sprite) (x : Nat) => s.SetGlyph (x : Int) (y : Int) (F x y)) s)
          s).Shaped w h ∧
      ∀ (x' y' : Nat), x' < w → y' < h →
        ((List.range n).foldl
            (fun (s : Sprite) (y : Nat) =>
              (List.range w).foldl
                (fun (s : Sprite) (x : Nat) => s.SetGlyph (x : Int) (y : Int) (F x y)) s)
            s).GetGlyph (x' : Int) (y' : Int) =
          if y' < n then F x' y' else s.GetGlyph (x' : Int) (y' : Int) := by
  intro n
  induction n with
  | zero => intro _ s hs; simpa using hs
  | succ n ih =>
    intro hn s hs
    obtain ⟨hshape, hget⟩ := ih (by omega) s hs
    rw [List.range_succ, List.foldl_append]
    simp only [List.foldl_cons, List.foldl_nil]
    obtain ⟨hshape', hget'⟩ :=
      Sprite.fillRow w h n (by omega) (fun x => F x n) w (le_refl w) _ hshape
    refine ⟨hshape', ?_⟩
    intro x' y' hx' hy'
    rw [hget' x' y' hx' hy', hget x' y' hx' hy']
    by_cases h1 : y' = n
    · have h3 : y' < n + 1 := by omega
      rw [if_pos ⟨h1, hx'⟩, if_pos h3, h1]
    · have h1' : ¬ (y' = n ∧ x' < w) := fun hc => h1 hc.1
      by_cases h2 : y' < n
      · have h3 : y' < n + 1 := by omega
        rw [if_neg h1', if_pos h2, if_pos h3]
      · have h3 : ¬ y' < n + 1 := by omega
        rw [if_neg h1', if_neg h2, if_neg h3]

/-- What `LoadFromText` leaves in the sprite for the stripped lines `lines` of which the
longest has `maxw` characters. -/
theorem Sprite.fillGlyphs_spec (s : Sprite) (lines : List (List Nat)) (maxw : Nat) :
    (Sprite.fillGlyphs (s.Create (maxw : Int) (lines.length : Int)) lines maxw).Shaped maxw
        lines.length ∧
    ∀ (x y : Nat), x < maxw → y < lines.length →
      (Sprite.fillGlyphs (s.Create (maxw : Int) (lines.length : Int)) lines maxw).GetGlyph
          (x : Int) (y : Int) =
        if x < (lines.getD y []).length then (lines.getD y []).getD x 32 else 32 := by
  obtain ⟨hshape, hget⟩ :=
    Sprite.fillRows maxw lines.length
      (fun x y => if x < (lines.getD y []).length then (lines.getD y []).getD x 32 else 32)
      lines.length (le_refl _) _ (Sprite.shaped_Create s maxw lines.length)
  refine ⟨hshape, ?_⟩
  intro x y hx hy
  have := hget x y hx hy
  simp only [hy, if_true] at this
  exact this

end SpaceShooter

/-- C27: for a file of at least one line, `LoadFromText` returns true and leaves a sprite
whose height is the number of lines and whose width is the length of the longest line once
a trailing carriage return is stripped from each; `GetGlyph (x, y)` is then character `x`
of stripped line `y` where that line has one, and a space everywhere else. On a file that
cannot be opened or has no line it returns false and leaves the sprite as it was. The strip
removes one final carriage return and changes no other line. -/
theorem C27_LoadFromText_grid (s : SpaceShooter.Sprite) (raw : List (List Nat))
    (hraw : raw ≠ []) :
    (s.LoadFromText (some raw)).1 = true ∧
    (s.LoadFromText (some raw)).2.getHeight = (raw.length : Int) ∧
    (∀ line ∈ raw, ((SpaceShooter.Sprite.stripCR line).length : Int) ≤
      (s.LoadFromText (some raw)).2.getWidth) ∧
    (∃ line ∈ raw, ((SpaceShooter.Sprite.stripCR line).length : Int) =
      (s.LoadFromText (some raw)).2.getWidth) ∧
    (∀ (x y : Int),
      (s.LoadFromText (some raw)).2.GetGlyph x y =
        if 0 ≤ x ∧ 0 ≤ y ∧ y < (raw.length : Int) ∧
            x < (((raw.map SpaceShooter.Sprite.stripCR).getD y.toNat []).length : Int) then
          ((raw.map SpaceShooter.Sprite.stripCR).getD y.toNat []).getD x.toNat 32
        else 32) ∧
    (s.LoadFromText none = (false, s) ∧ s.LoadFromText (some []) = (false, s)) ∧
    (∀ l : List Nat, SpaceShooter.Sprite.stripCR (l ++ [13]) = l) ∧
    (∀ l : List Nat, l.getLast? ≠ some 13 → SpaceShooter.Sprite.stripCR l = l) := by
  obtain ⟨hlines, hmax, hlongest⟩ := SpaceShooter.Sprite.readLines_spec raw
  have hne : (SpaceShooter.Sprite.readLines raw).1.isEmpty = false := by
    rw [hlines]
    cases raw with
    | nil => exact absurd rfl hraw
    | cons a b => rfl
  have hload : s.LoadFromText (some raw) =
      (true, SpaceShooter.Sprite.fillGlyphs
        (s.Create ((SpaceShooter.Sprite.readLines raw).2 : Int)
          ((SpaceShooter.Sprite.readLines raw).1.length : Int))
        (SpaceShooter.Sprite.readLines raw).1 (SpaceShooter.Sprite.readLines raw).2) := by
    simp only [SpaceShooter.Sprite.LoadFromText, hne, Bool.false_eq_true, if_false]
  obtain ⟨⟨hw, hh, _⟩, hget⟩ := SpaceShooter.Sprite.fillGlyphs_spec s
    (SpaceShooter.Sprite.readLines raw).1 (SpaceShooter.Sprite.readLines raw).2
  rw [hload]
  simp only [SpaceShooter.Sprite.getHeight, SpaceShooter.Sprite.getWidth]
  rw [hw, hh]
  refine ⟨trivial, by rw [hlines, List.length_map], ?_, ?_, ?_, ⟨rfl, rfl⟩,
    SpaceShooter.Sprite.stripCR_snoc, SpaceShooter.Sprite.stripCR_of_no_cr⟩
  · intro line hl
    exact_mod_cast hmax line hl
  · obtain ⟨line, hl, heq⟩ := hlongest hraw
    exact ⟨line, hl, by exact_mod_cast heq⟩
  · intro x y
    have hlen : (SpaceShooter.Sprite.readLines raw).1.length = raw.length := by
      rw [hlines, List.length_map]
    by_cases hin : 0 ≤ x ∧ x < ((SpaceShooter.Sprite.readLines raw).2 : Int) ∧ 0 ≤ y ∧
        y < (raw.length : Int)
    · obtain ⟨hx0, hx1, hy0, hy1⟩ := hin
      have hg := hget x.toNat y.toNat (by omega) (by omega)
      rw [Int.toNat_of_nonneg hx0, Int.toNat_of_nonneg hy0] at hg
      rw [hg, hlines]
      have hxn : (x.toNat < ((raw.map SpaceShooter.Sprite.stripCR).getD y.toNat []).length) ↔
          x < (((raw.map SpaceShooter.Sprite.stripCR).getD y.toNat []).length : Int) := by
        omega
      by_cases hc : x < (((raw.map SpaceShooter.Sprite.stripCR).getD y.toNat []).length : Int)
      · rw [if_pos (hxn.mpr hc), if_pos ⟨hx0, hy0, hy1, hc⟩]
      · rw [if_neg (fun h => hc (hxn.mp h)), if_neg (fun h => hc h.2.2.2)]
    · have hout : x < 0 ∨ x ≥ (SpaceShooter.Sprite.fillGlyphs
            (s.Create ((SpaceShooter.Sprite.readLines raw).2 : Int)
              ((SpaceShooter.Sprite.readLines raw).1.length : Int))
            (SpaceShooter.Sprite.readLines raw).1 (SpaceShooter.Sprite.readLines raw).2).m_width ∨
          y < 0 ∨ y ≥ (SpaceShooter.Sprite.fillGlyphs
            (s.Create ((SpaceShooter.Sprite.readLines raw).2 : Int)
              ((SpaceShooter.Sprite.readLines raw).1.length : Int))
            (SpaceShooter.Sprite.readLines raw).1 (SpaceShooter.Sprite.readLines raw).2).m_height := by
        rw [hw, hh, hlen]
        omega
      rw [SpaceShooter.Sprite.GetGlyph, if_pos hout]
      by_cases hc : 0 ≤ x ∧ 0 ≤ y ∧ y < (raw.length : Int) ∧
          x < (((raw.map SpaceShooter.Sprite.stripCR).getD y.toNat []).length : Int)
      · exfalso
        obtain ⟨hx0, hy0, hy1, hxl⟩ := hc
        have hmem : (raw.map SpaceShooter.Sprite.stripCR).getD y.toNat [] ∈
            raw.map SpaceShooter.Sprite.stripCR := by
          have hylt : y.toNat < (raw.map SpaceShooter.Sprite.stripCR).length := by
            rw [List.length_map]; omega
          rw [List.getD_eq_getElem _ _ hylt]
          exact List.getElem_mem _
        obtain ⟨line, hl, hle⟩ := List.mem_map.mp hmem
        have := hmax line hl
        rw [hle] at this
        exact hin ⟨hx0, by omega, hy0, hy1⟩
      · rw [if_neg hc]

/-- The two-line text `<=>` with a carriage return and `<=`: the sprite is 3 wide and 2
high. -/
theorem C27_LoadFromText_witness :
    ((SpaceShooter.Sprite.create ⟨0, 0⟩).LoadFromText SpaceShooter.shipFile).1 = true ∧
    ((SpaceShooter.Sprite.create ⟨0, 0⟩).LoadFromText SpaceShooter.shipFile).2.getHeight = 2 ∧
    ((SpaceShooter.Sprite.create ⟨0, 0⟩).LoadFromText SpaceShooter.shipFile).2.getWidth = 3 ∧
    ((SpaceShooter.Sprite.create ⟨0, 0⟩).LoadFromText SpaceShooter.shipFile).2.GetGlyph 2 0 = 62 ∧
    ((SpaceShooter.Sprite.create ⟨0, 0⟩).LoadFromText SpaceShooter.shipFile).2.GetGlyph 2 1 = 32 :=
  ⟨(C27_LoadFromText_grid (SpaceShooter.Sprite.create ⟨0, 0⟩)
      [[60, 61, 62, 13], [60, 61]] (by decide)).1,
    by decide, by decide, by decide, by decide⟩

/-! ## The shooter: the player stays in its field -/

namespace SpaceShooter

/-- One movement test of `Player::update`: the sprite keeps its size, and the position
moves by the step when the test holds and stays when it does not. -/
theorem Player.cond_move (c : Bool) (q : Player) (dx dy : Int) :
    (if c = true then q.move dx dy else q).sprite.m_width = q.sprite.m_width ∧
    (if c = true then q.move dx dy else q).sprite.m_height = q.sprite.m_height ∧
    ((c = true ∧
        (if c = true then q.move dx dy else q).m_position.x = q.m_position.x + dx ∧
        (if c = true then q.move dx dy else q).m_position.y = q.m_position.y + dy) ∨
      (c = false ∧
        (if c = true then q.move dx dy else q).m_position.x = q.m_position.x ∧
        (if c = true then q.move dx dy else q).m_position.y = q.m_position.y)) := by
  cases c
  · exact ⟨rfl, rfl, Or.inr ⟨rfl, rfl, rfl⟩⟩
  · exact ⟨rfl, rfl, Or.inl ⟨rfl, rfl, rfl⟩⟩

/-- The four movement tests keep a player that is inside the field inside it, whatever
keys are held, and move it by at most one cell on each axis. -/
theorem Player.steer_in_field (p : Player) (input : Arkanoid.InputHandler)
    (hx0 : 0 ≤ p.getPosition.x) (hx1 : p.getPosition.x + p.sprite.getWidth ≤ 120)
    (hy0 : 1 ≤ p.getPosition.y) (hy1 : p.getPosition.y + p.sprite.getHeight ≤ g_globalHeight) :
    (p.steer input).sprite.getWidth = p.sprite.getWidth ∧
    (p.steer input).sprite.getHeight = p.sprite.getHeight ∧
    0 ≤ (p.steer input).getPosition.x ∧
    (p.steer input).getPosition.x + p.sprite.getWidth ≤ 120 ∧
    1 ≤ (p.steer input).getPosition.y ∧
    (p.steer input).getPosition.y + p.sprite.getHeight ≤ g_globalHeight ∧
    |(p.steer input).getPosition.x - p.getPosition.x| ≤ 1 ∧
    |(p.steer input).getPosition.y - p.getPosition.y| ≤ 1 := by
  simp only [g_globalHeight, Player.getPosition, Sprite.getWidth, Sprite.getHeight] at *
  obtain ⟨p1, hp1⟩ : ∃ p1, p1 =
      (if (input.isKeyDown Arkanoid.key_S && p.checkDown) = true then p.move 0 1 else p) :=
    ⟨_, rfl⟩
  obtain ⟨p2, hp2⟩ : ∃ p2, p2 =
      (if (input.isKeyDown Arkanoid.key_W && p1.checkUp) = true then p1.move 0 (-1) else p1) :=
    ⟨_, rfl⟩
  obtain ⟨p3, hp3⟩ : ∃ p3, p3 =
      (if (input.isKeyDown Arkanoid.key_D && p2.checkRight) = true then p2.move 1 0 else p2) :=
    ⟨_, rfl⟩
  obtain ⟨p4, hp4⟩ : ∃ p4, p4 =
      (if (input.isKeyDown Arkanoid.key_A && p3.checkLeft) = true then p3.move (-1) 0 else p3) :=
    ⟨_, rfl⟩
  have hs : p.steer input = p4 := by
    subst hp4 hp3 hp2 hp1
    rfl
  have e1 := Player.cond_move (input.isKeyDown Arkanoid.key_S && p.checkDown) p 0 1
  have e2 := Player.cond_move (input.isKeyDown Arkanoid.key_W && p1.checkUp) p1 0 (-1)
  have e3 := Player.cond_move (input.isKeyDown Arkanoid.key_D && p2.checkRight) p2 1 0
  have e4 := Player.cond_move (input.isKeyDown Arkanoid.key_A && p3.checkLeft) p3 (-1) 0
  rw [← hp1] at e1
  rw [← hp2] at e2
  rw [← hp3] at e3
  rw [← hp4] at e4
  simp only [Bool.and_eq_true, Bool.and_eq_false_imp, Player.checkDown, Player.checkUp,
    Player.checkRight, Player.checkLeft, decide_eq_true_eq, g_globalHeight, Sprite.getWidth,
    Sprite.getHeight] at e1 e2 e3 e4
  rw [hs]
  obtain ⟨w1, h1, m1⟩ := e1
  obtain ⟨w2, h2, m2⟩ := e2
  obtain ⟨w3, h3, m3⟩ := e3
  obtain ⟨w4, h4, m4⟩ := e4
  rw [abs_le, abs_le]
  rcases m1 with ⟨⟨-, c1⟩, x1, y1⟩ | ⟨-, x1, y1⟩ <;>
  rcases m2 with ⟨⟨-, c2⟩, x2, y2⟩ | ⟨-, x2, y2⟩ <;>
  rcases m3 with ⟨⟨-, c3⟩, x3, y3⟩ | ⟨-, x3, y3⟩ <;>
  rcases m4 with ⟨⟨-, c4⟩, x4, y4⟩ | ⟨-, x4, y4⟩ <;>
  refine ⟨?_, ?_, ?_, ?_, ?_, ?_, ⟨?_, ?_⟩, ⟨?_, ?_⟩⟩ <;> omega

/-- `Player::update` leaves the position and the sprite where its movement tests leave
them: the shot and the advance of the bullets touch the bullets alone. -/
theorem Player.update_frame (p : Player) (input : Arkanoid.InputHandler)
    (bulletFile : TextFile) :
    (p.update input bulletFile).getPosition = (p.steer input).getPosition ∧
    (p.update input bulletFile).sprite = (p.steer input).sprite ∧
    (p.update input bulletFile).getHealth = (p.steer input).getHealth := by
  simp only [Player.update, Player.getPosition, Player.getHealth, Player.shoot]
  split_ifs <;> exact ⟨rfl, rfl, rfl⟩

end SpaceShooter

/-- C31: for every player whose position and sprite size satisfy 0 <= x, x + w <= 120,
1 <= y and y + h <= g_globalHeight, and for every state of the input handler (any
combination of held keys, opposite keys included), `Player::update` leaves the sprite's
size as it was and a position that satisfies the same four bounds, at most one cell from
the old one on each axis. -/
theorem C31_player_stays_in_field (p : SpaceShooter.Player) (input : Arkanoid.InputHandler)
    (bulletFile : SpaceShooter.TextFile)
    (hx0 : 0 ≤ p.getPosition.x) (hx1 : p.getPosition.x + p.sprite.getWidth ≤ 120)
    (hy0 : 1 ≤ p.getPosition.y)
    (hy1 : p.getPosition.y + p.sprite.getHeight ≤ SpaceShooter.g_globalHeight) :
    (p.update input bulletFile).sprite.getWidth = p.sprite.getWidth ∧
    (p.update input bulletFile).sprite.getHeight = p.sprite.getHeight ∧
    0 ≤ (p.update input bulletFile).getPosition.x ∧
    (p.update input bulletFile).getPosition.x + (p.update input bulletFile).sprite.getWidth
      ≤ 120 ∧
    1 ≤ (p.update input bulletFile).getPosition.y ∧
    (p.update input bulletFile).getPosition.y + (p.update input bulletFile).sprite.getHeight
      ≤ SpaceShooter.g_globalHeight ∧
    |(p.update input bulletFile).getPosition.x - p.getPosition.x| ≤ 1 ∧
    |(p.update input bulletFile).getPosition.y - p.getPosition.y| ≤ 1 := by
  obtain ⟨fpos, fsprite, -⟩ := SpaceShooter.Player.update_frame p input bulletFile
  obtain ⟨sw, sh, b1, b2, b3, b4, b5, b6⟩ :=
    SpaceShooter.Player.steer_in_field p input hx0 hx1 hy0 hy1
  rw [fpos, fsprite, sw, sh]
  exact ⟨rfl, rfl, b1, b2, b3, b4, b5, b6⟩

/-- A player in the bottom right corner of its field, at (117, 28) with the 3 x 2 sprite,
with every key held: the update leaves it inside the field. -/
theorem C31_player_stays_witness :
    0 ≤ ((SpaceShooter.playerAt 117 28 5 []).update
        (SpaceShooter.InputHandler.update Arkanoid.InputHandler.fresh SpaceShooter.allKeys)
        SpaceShooter.dashFile).getPosition.x ∧
    ((SpaceShooter.playerAt 117 28 5 []).update
        (SpaceShooter.InputHandler.update Arkanoid.InputHandler.fresh SpaceShooter.allKeys)
        SpaceShooter.dashFile).getPosition.x +
      ((SpaceShooter.playerAt 117 28 5 []).update
        (SpaceShooter.InputHandler.update Arkanoid.InputHandler.fresh SpaceShooter.allKeys)
        SpaceShooter.dashFile).sprite.getWidth ≤ 120 :=
  ⟨(C31_player_stays_in_field (SpaceShooter.playerAt 117 28 5 [])
      (SpaceShooter.InputHandler.update Arkanoid.InputHandler.fresh SpaceShooter.allKeys)
      SpaceShooter.dashFile (by decide) (by decide) (by decide) (by decide)).2.2.1,
    (C31_player_stays_in_field (SpaceShooter.playerAt 117 28 5 [])
      (SpaceShooter.InputHandler.update Arkanoid.InputHandler.fresh SpaceShooter.allKeys)
      SpaceShooter.dashFile (by decide) (by decide) (by decide) (by decide)).2.2.2.1⟩

/-! ## The line loop: one point for each step of the longer axis -/

namespace Arkanoid

/-- A pass of the loop of `drawLine` that has not reached the end point steps on the major
axis, keeps the major-axis test true for the next pass, and plots a next point that lies
on the way to the end point. -/
theorem lineStep_major (x1 y1 dx dy sx sy : Int) (s : LineState) (m : Int)
    (hinv : LineInv x1 y1 dx dy sx sy s) (hmaj : LineMajor x1 y1 dx dy sx sy s m)
    (hnf : ¬ (s.x0 = x1 ∧ s.y0 = y1)) :
    LineMajor x1 y1 dx dy sx sy (lineStep dx dy sx sy s) (m - 1) ∧ 1 ≤ m ∧
    LineNext x1 y1 (s.x0, s.y0) ((lineStep dx dy sx sy s).x0, (lineStep dx dy sx sy s).y0) := by
  obtain ⟨hinv', -⟩ := lineStep_inv x1 y1 dx dy sx sy s hinv hnf
  obtain ⟨hsx, hsy, hx0, hx1, hy0, hy1, herr⟩ := hinv
  obtain ⟨-, -, hx0', -, hy0', -, -⟩ := hinv'
  have hsx2 : sx * sx = 1 := by rcases hsx with h | h <;> rw [h] <;> norm_num
  have hsy2 : sy * sy = 1 := by rcases hsy with h | h <;> rw [h] <;> norm_num
  have hstepx : sx * (x1 - (s.x0 + sx)) = sx * (x1 - s.x0) - 1 := by
    linear_combination -hsx2
  have hstepy : sy * (y1 - (s.y0 + sy)) = sy * (y1 - s.y0) - 1 := by
    linear_combination -hsy2
  simp only [LineMajor, LineNext, abs_le]
  by_cases cx : 2 * s.err ≥ dy <;> by_cases cy : 2 * s.err ≤ dx
  · simp only [lineStep, cx, cy, if_true, hstepx, hstepy] at hx0' hy0' ⊢
    refine ⟨?_, ?_, ?_⟩
    · rcases hmaj with ⟨a, b, c⟩ | ⟨a, b, c⟩
      · exact Or.inl ⟨a, by omega, by omega⟩
      · exact Or.inr ⟨a, by omega, by omega⟩
    · rcases hmaj with ⟨-, -, c⟩ | ⟨-, -, c⟩ <;> omega
    · rcases hsx with h | h <;> rcases hsy with h' | h' <;> subst h <;> subst h' <;>
        refine ⟨⟨?_, ?_⟩, ⟨?_, ?_⟩, ?_, ?_⟩ <;> omega
  · simp only [lineStep, cx, cy, if_true, if_false, hstepx] at hx0' hy0' ⊢
    refine ⟨?_, ?_, ?_⟩
    · rcases hmaj with ⟨a, b, c⟩ | ⟨a, b, c⟩
      · exact Or.inl ⟨a, by omega, by omega⟩
      · exact absurd b cy
    · rcases hmaj with ⟨-, -, c⟩ | ⟨-, b, c⟩
      · omega
      · exact absurd b cy
    · rcases hsx with h | h <;> subst h <;>
        refine ⟨⟨?_, ?_⟩, ⟨?_, ?_⟩, ?_, ?_⟩ <;> omega
  · simp only [lineStep, cx, cy, if_true, if_false, hstepy] at hx0' hy0' ⊢
    refine ⟨?_, ?_, ?_⟩
    · rcases hmaj with ⟨a, b, c⟩ | ⟨a, b, c⟩
      · exact absurd b cx
      · exact Or.inr ⟨a, by omega, by omega⟩
    · rcases hmaj with ⟨-, b, c⟩ | ⟨-, -, c⟩
      · exact absurd b cx
      · omega
    · rcases hsy with h | h <;> subst h <;>
        refine ⟨⟨?_, ?_⟩, ⟨?_, ?_⟩, ?_, ?_⟩ <;> omega
  · exfalso
    omega

/-- With more fuel than steps to go on the major axis, the loop of `drawLine` breaks after
plotting one point for each of those steps and the current point. -/
theorem linePointsLoop_major (x1 y1 dx dy sx sy : Int) :
    ∀ (fuel : Nat) (s : LineState) (m : Int), LineInv x1 y1 dx dy sx sy s →
      LineMajor x1 y1 dx dy sx sy s m → m < (fuel : Int) →
      ∃ pts, linePointsLoop x1 y1 dx dy sx sy fuel s = some pts ∧
        (pts.length : Int) = m + 1 ∧ pts.head? = some (s.x0, s.y0) ∧
        pts.getLast? = some (x1, y1) ∧ List.Chain' (LineNext x1 y1) pts := by
  intro fuel
  induction fuel with
  | zero =>
    intro s m hinv hmaj hm
    obtain ⟨-, -, hx0, -, hy0, -, -⟩ := hinv
    exfalso
    rcases hmaj with ⟨-, -, c⟩ | ⟨-, -, c⟩ <;> simp at hm <;> omega
  | succ n ih =>
    intro s m hinv hmaj hm
    by_cases hfin : s.x0 = x1 ∧ s.y0 = y1
    · refine ⟨[(s.x0, s.y0)], ?_, ?_, rfl, ?_, List.chain'_singleton _⟩
      · simp only [linePointsLoop, hfin, and_self, if_true]
      · have hm0 : m = 0 := by
          rcases hmaj with ⟨-, -, c⟩ | ⟨-, -, c⟩
          · rw [c, hfin.1]; ring
          · rw [c, hfin.2]; ring
        rw [hm0]; rfl
      · rw [hfin.1, hfin.2]; rfl
    · obtain ⟨hinv', -⟩ := lineStep_inv x1 y1 dx dy sx sy s hinv hfin
      obtain ⟨hmaj', hm1, hnext⟩ := lineStep_major x1 y1 dx dy sx sy s m hinv hmaj hfin
      obtain ⟨pts, hpts, hlen, hhead, hlast, hchain⟩ :=
        ih (lineStep dx dy sx sy s) (m - 1) hinv' hmaj' (by push_cast at hm; omega)
      refine ⟨(s.x0, s.y0) :: pts, ?_, ?_, rfl, ?_, ?_⟩
      · simp only [linePointsLoop, hfin, if_false, hpts, Option.map_some']
      · rw [List.length_cons]
        push_cast
        omega
      · cases pts with
        | nil => simp at hhead
        | cons q rest => rw [List.getLast?_cons_cons]; exact hlast
      · cases pts with
        | nil => simp at hhead
        | cons q rest =>
          simp only [List.head?_cons, Option.some.injEq] at hhead
          rw [List.chain'_cons]
          exact ⟨by rw [hhead]; exact hnext, hchain⟩

/-- At entry of the loop the steps to go on the major axis are the longer of the two axis
distances. -/
theorem lineMajor_initial (x0 y0 x1 y1 : Int) :
    LineMajor x1 y1 |x1 - x0| (-|y1 - y0|) (if x0 < x1 then 1 else -1)
      (if y0 < y1 then 1 else -1) ⟨x0, y0, |x1 - x0| + -|y1 - y0|⟩
      (max |x1 - x0| |y1 - y0|) := by
  have hx : (if x0 < x1 then (1 : Int) else -1) * (x1 - x0) = |x1 - x0| := by
    split_ifs with h
    · rw [abs_of_nonneg (by omega)]; ring
    · rw [abs_of_nonpos (by omega)]; ring
  have hy : (if y0 < y1 then (1 : Int) else -1) * (y1 - y0) = |y1 - y0| := by
    split_ifs with h
    · rw [abs_of_nonneg (by omega)]; ring
    · rw [abs_of_nonpos (by omega)]; ring
  have ax := abs_nonneg (x1 - x0)
  have ay := abs_nonneg (y1 - y0)
  simp only [LineMajor, hx, hy]
  by_cases h : |y1 - y0| ≤ |x1 - x0|
  · exact Or.inl ⟨by omega, by omega, max_eq_left h⟩
  · exact Or.inr ⟨by omega, by omega, max_eq_right (by omega)⟩

end Arkanoid

/-- C32: for all integer endpoints the loop of `drawLine` breaks after exactly
max(|x1 - x0|, |y1 - y0|) + 1 passes (that much fuel is enough), so it plots that many
points before clamping. The first point is (x0, y0), the last is (x1, y1), and each point
after the first is at most one cell from the one before on each axis and lies between it
and the end point on each axis. The `drawLine` of both window classes hands exactly these
points to `drawChar`, in this order. -/
theorem C32_drawLine_point_count (x0 y0 x1 y1 : Int) (fuel : Nat)
    (hfuel : max |x1 - x0| |y1 - y0| < (fuel : Int)) :
    ∃ pts, Arkanoid.drawLinePoints fuel x0 y0 x1 y1 = some pts ∧
      (pts.length : Int) = max |x1 - x0| |y1 - y0| + 1 ∧
      pts.head? = some (x0, y0) ∧ pts.getLast? = some (x1, y1) ∧
      List.Chain'
        (fun (p q : Int × Int) =>
          |q.1 - p.1| ≤ 1 ∧ |q.2 - p.2| ≤ 1 ∧
          ((p.1 ≤ q.1 ∧ q.1 ≤ x1) ∨ (x1 ≤ q.1 ∧ q.1 ≤ p.1)) ∧
          ((p.2 ≤ q.2 ∧ q.2 ≤ y1) ∨ (y1 ≤ q.2 ∧ q.2 ≤ p.2))) pts ∧
      (∀ (win : Arkanoid.Window) (g c : Nat),
        win.drawLine fuel x0 y0 x1 y1 g c =
          some (pts.foldl (fun wn p => wn.drawChar p.1 p.2 g c) win)) ∧
      (∀ (win : SpaceShooter.Window) (g c : Nat),
        win.drawLine fuel x0 y0 x1 y1 g c =
          some (pts.foldl (fun wn p => wn.drawChar p.1 p.2 g c) win)) := by
  obtain ⟨hinv, -⟩ := Arkanoid.lineInv_initial x0 y0 x1 y1
  obtain ⟨pts, hpts, hlen, hhead, hlast, hchain⟩ :=
    Arkanoid.linePointsLoop_major x1 y1 _ _ _ _ fuel _ _ hinv
      (Arkanoid.lineMajor_initial x0 y0 x1 y1) hfuel
  have hdraw : Arkanoid.drawLinePoints fuel x0 y0 x1 y1 = some pts := hpts
  refine ⟨pts, hdraw, hlen, hhead, hlast, hchain, ?_, ?_⟩
  · intro win g c
    simp only [Arkanoid.Window.drawLine, hdraw, Option.map_some']
  · intro win g c
    simp only [SpaceShooter.Window.drawLine, hdraw, Option.map_some']

/-- The line from (0, 0) to (5, 2) with 6 passes allowed: the loop breaks and plots
max(5, 2) + 1 points. -/
theorem C32_drawLine_point_witness :
    ∃ pts, Arkanoid.drawLinePoints 6 0 0 5 2 = some pts ∧
      (pts.length : Int) = max |(5 : Int) - 0| |(2 : Int) - 0| + 1 ∧
      pts.head? = some (0, 0) ∧ pts.getLast? = some (5, 2) :=
  (C32_drawLine_point_count 0 0 5 2 6 (by decide)).imp
    fun _ h => ⟨h.1, h.2.1, h.2.2.1, h.2.2.2.1⟩
